import Mathlib

/-!
# Viewer object state synchronisation (`indra/newview/llviewerobject.cpp`)

A shallow embedding of the parts of `LLViewerObject` that keep the task
inventory cache coherent, extrapolate linear motion between updates and
reconcile parent/child links on object updates, followed by theorems about
them.

Conventions of the embedding:
* `LLUUID` values and object handles are natural numbers, `0` is `LLUUID::null`.
* The 16-bit signed serial counters are integers wrapped by `wrapS16`.
* `F32`/`F64` quantities are rationals: every arithmetic step of the source is
  kept, rounding is not modelled.
* Calls that leave the class (message system, transfer manager, coroutines,
  object list) are appended to a log, most recent last.
* A function returns `none` where the source dereferences a null pointer or a
  walk over the scene graph does not end.
* What the source takes from headers and libraries that are not part of the
  sources read here (constants, quantisation, quaternion arithmetic, world and
  region queries) is a field of an environment record.
-/

namespace LLViewerObject

/-! ## Task inventory -/

abbrev LLUUID := Nat

/-- Wrap an integer into the range of `S16`, as the conversion back to `S16`
after `++`/`--` on a promoted `int` does. -/
def wrapS16 (x : Int) : Int := (x + 32768) % 65536 - 32768

/-- Range of an `S16`. -/
def InS16 (x : Int) : Prop := -32768 ≤ x ∧ x ≤ 32767

instance (x : Int) : Decidable (InS16 x) := by unfold InS16; exact inferInstance

/-- `const F64 INVENTORY_UPDATE_WAIT_TIME_DESYNC = 5; // seconds` -/
def INVENTORY_UPDATE_WAIT_TIME_DESYNC : ℚ := 5

/-- `const F64 INVENTORY_UPDATE_WAIT_TIME_OUTDATED = 1;` -/
def INVENTORY_UPDATE_WAIT_TIME_OUTDATED : ℚ := 1

/-- The request states named by the source (`mInvRequestState`). -/
inductive EInventoryRequestState where
  | INVENTORY_REQUEST_STOPPED
  | INVENTORY_REQUEST_WAIT
  | INVENTORY_REQUEST_PENDING
  | INVENTORY_XFER
  deriving DecidableEq, Repr

open EInventoryRequestState

/-- The asset types the inventory code tests for. -/
inductive EType where
  | AT_TEXTURE
  | AT_OBJECT
  | AT_CATEGORY
  | AT_MATERIAL
  | AT_OTHER
  deriving DecidableEq, Repr

/-- The part of `LLPermissions` read by the inventory code. -/
structure LLPermissions where
  owner : LLUUID
  group : LLUUID
  groupOwned : Bool
  /-- Result of `allowCopyBy(gAgent.getID())`. -/
  allowCopyByAgent : Bool
  deriving DecidableEq, Repr

/-- An entry of the cached inventory list: an `LLInventoryObject`, which is an
`LLViewerInventoryItem` when `isItem` holds. -/
structure LLInventoryObject where
  uuid : LLUUID
  type : EType
  assetUUID : LLUUID
  perm : LLPermissions
  isItem : Bool
  deriving DecidableEq, Repr

/-- Calls leaving the object, in the order they are made. -/
inductive InvEffect where
  /-- `gXferManager->abortRequestById(id, -1)` -/
  | abortRequestById (id : Nat)
  /-- Launch of `fetchInventoryDelayedCoro(mID, time_seconds)`. -/
  | launchDelayedCoro (time_seconds : ℚ)
  /-- Launch of `fetchInventoryFromCapCoro(mID)`. -/
  | launchCapCoro
  /-- The `RequestTaskInventory` message of the old UDP path. -/
  | sendRequestTaskInventory
  /-- `gXferManager->requestFile(...)` for the named file. -/
  | requestFile (filename : String)
  /-- The `RemoveTaskInventory` message. -/
  | sendRemoveTaskInventory (item_id : LLUUID)
  /-- The `UpdateTaskInventory` message. -/
  | sendUpdateTaskInventory (item_id : LLUUID)
  /-- The `MoveTaskInventory` message. -/
  | sendMoveTaskInventory (item_id : LLUUID)
  /-- One run of the listener loop of `doInventoryCallback`, with the serial
  handed to the listeners. -/
  | inventoryChanged (serial : Int)
  deriving DecidableEq, Repr

/-- The inventory members of an `LLViewerObject`. The serial counters are the
16-bit signed members the source compares with `S16 serial`. -/
structure InvObj where
  mID : LLUUID
  mInventory : Option (List LLInventoryObject)
  mInventorySerialNum : Int
  mExpectedInventorySerialNum : Int
  mInvRequestState : EInventoryRequestState
  mInvRequestXFerId : Nat
  mInventoryDirty : Bool
  mPendingInventoryItemsIDs : List LLUUID
  /-- `mRegionp && !mRegionp->getCapability("RequestTaskInventory").empty()` -/
  hasTaskInvCap : Bool
  /-- `permYouOwner()` -/
  permYouOwner : Bool
  effects : List InvEffect
  deriving DecidableEq, Repr

/-- The inventory members as the constructor initialises them. -/
def InvObj.fresh (id : LLUUID) (cap : Bool) : InvObj :=
  { mID := id
    mInventory := none
    mInventorySerialNum := 0
    mExpectedInventorySerialNum := 0
    mInvRequestState := INVENTORY_REQUEST_STOPPED
    mInvRequestXFerId := 0
    mInventoryDirty := false
    mPendingInventoryItemsIDs := []
    hasTaskInvCap := cap
    permYouOwner := false
    effects := [] }

def InvObj.emit (o : InvObj) (e : InvEffect) : InvObj :=
  { o with effects := o.effects ++ [e] }

/-- `LLViewerObject::doInventoryCallback`: notify the listeners and release the
inventory loading state. -/
def doInventoryCallback (o : InvObj) : InvObj :=
  { (o.emit (.inventoryChanged o.mInventorySerialNum)) with
    mInvRequestXFerId := 0
    mInvRequestState := INVENTORY_REQUEST_STOPPED }

/-- The list part of `deleteInventoryItem`: erase the first entry whose id is
`item_id`; `none` when no entry matches. -/
def eraseFirstWithID (item_id : LLUUID) : List LLInventoryObject → Option (List LLInventoryObject)
  | [] => none
  | x :: xs =>
    if x.uuid = item_id then some xs
    else (eraseFirstWithID item_id xs).map (fun r => x :: r)

/-- `LLViewerObject::deleteInventoryItem`: on a match the entry is erased and
the function returns at once; without a match the callback runs. -/
def deleteInventoryItem (o : InvObj) (item_id : LLUUID) : InvObj :=
  match o.mInventory with
  | none => o
  | some inv =>
    match eraseFirstWithID item_id inv with
    | some inv1 => { o with mInventory := some inv1 }
    | none => doInventoryCallback o

/-- `LLViewerObject::getInventoryObject` -/
def getInventoryObject (o : InvObj) (item_id : LLUUID) : Option LLInventoryObject :=
  match o.mInventory with
  | none => none
  | some inv => inv.find? (fun x => decide (x.uuid = item_id))

/-- `LLViewerObject::getInventoryItemByAsset(const LLUUID&)` -/
def getInventoryItemByAsset (o : InvObj) (asset_id : LLUUID) : Option LLInventoryObject :=
  match o.mInventory with
  | none => none
  | some inv =>
    inv.find? (fun x => decide (x.type ≠ EType.AT_CATEGORY) && decide (x.assetUUID = asset_id))

/-- `LLViewerObject::isInventoryPending` -/
def isInventoryPending (o : InvObj) : Bool :=
  decide (o.mInvRequestState ≠ INVENTORY_REQUEST_STOPPED)

/-- `LLViewerObject::fetchInventoryFromServer` -/
def fetchInventoryFromServer (o : InvObj) : InvObj :=
  if !isInventoryPending o then
    let o1 := { o with mInventory := none, mInvRequestState := INVENTORY_REQUEST_PENDING }
    if o1.hasTaskInvCap then o1.emit .launchCapCoro
    else o1.emit .sendRequestTaskInventory
  else o

/-- `LLViewerObject::fetchInventoryDelayed`: unless already waiting, drop the
previous request and schedule an update. -/
def fetchInventoryDelayed (o : InvObj) (time_seconds : ℚ) : InvObj :=
  if o.mInvRequestState ≠ INVENTORY_REQUEST_WAIT then
    let o1 :=
      if o.mInvRequestXFerId ≠ 0 then
        { (o.emit (.abortRequestById o.mInvRequestXFerId)) with mInvRequestXFerId := 0 }
      else o
    { o1 with mInvRequestState := INVENTORY_REQUEST_WAIT }.emit (.launchDelayedCoro time_seconds)
  else o

/-- What `doUpdateInventory` reads from outside the object. -/
structure InvEnv where
  /-- `LLSelectMgr::getInstance()->findObjectPermissions(this)` -/
  obj_perm : Option LLPermissions
  /-- `gAgent.getID()` -/
  agentID : LLUUID
  /-- `LLPermissions::setOwnerAndGroup(agent, owner, group, is_atomic)` applied
  to a copy of the permissions. -/
  setOwnerAndGroup : LLPermissions → LLUUID → LLUUID → LLUUID → Bool → LLPermissions
  /-- The key that selects the lookup by item id. -/
  TASK_INVENTORY_ITEM_KEY : Nat
  /-- The key that selects the lookup by asset id. -/
  TASK_INVENTORY_ASSET_KEY : Nat

/-- The permission part of `doUpdateInventory`: the permissions given to the
new entry, and whether the branch taken is one of the two guessing branches,
which run `--mExpectedInventorySerialNum`. -/
def guessedPermissions (env : InvEnv) (item : LLInventoryObject) (new_owner new_group : LLUUID)
    (group_owned youOwner : Bool) : LLPermissions × Bool :=
  let is_atomic : Bool := decide (EType.AT_OBJECT ≠ item.type)
  match env.obj_perm with
  | some op => (env.setOwnerAndGroup item.perm 0 op.owner op.group is_atomic, false)
  | none =>
    if group_owned then
      (env.setOwnerAndGroup item.perm 0 new_owner new_group is_atomic, false)
    else if new_owner ≠ 0 then
      (env.setOwnerAndGroup item.perm 0 new_owner new_group is_atomic, false)
    else if youOwner then
      (env.setOwnerAndGroup item.perm 0 env.agentID item.perm.group is_atomic, true)
    else
      (env.setOwnerAndGroup item.perm 0 0 0 is_atomic, true)

/-- The entry `doUpdateInventory` looks up before it decides anything. -/
def findOldItem (env : InvEnv) (o : InvObj) (item : LLInventoryObject) (key : Nat) :
    Option LLInventoryObject :=
  if key = env.TASK_INVENTORY_ITEM_KEY then getInventoryObject o item.uuid
  else if key = env.TASK_INVENTORY_ASSET_KEY then getInventoryItemByAsset o item.assetUUID
  else none

/-- `LLViewerObject::doUpdateInventory` -/
def doUpdateInventory (env : InvEnv) (o : InvObj) (item : LLInventoryObject) (key : Nat)
    ( is_new : Bool) : InvObj :=
  let old_item := findOldItem env o item key
  let item_id : LLUUID := match old_item with
    | some old => old.uuid
    | none => item.uuid
  let new_owner : LLUUID := match old_item with
    | some old => old.perm.owner
    | none => 0
  let new_group : LLUUID := match old_item with
    | some old => old.perm.group
    | none => 0
  let group_owned : Bool := match old_item with
    | some old => old.perm.groupOwned
    | none => false
  if !is_new && o.mInventory.isSome then
    let o1 := deleteInventoryItem o item_id
    let pg := guessedPermissions env item new_owner new_group group_owned o1.permYouOwner
    let o2 :=
      if pg.2 then
        { o1 with mExpectedInventorySerialNum := wrapS16 (o1.mExpectedInventorySerialNum - 1) }
      else o1
    let new_item : LLInventoryObject := { item with perm := pg.1 }
    let o3 := { o2 with mInventory := some (new_item :: (o2.mInventory.getD [])) }
    let o4 := doInventoryCallback o3
    { o4 with mExpectedInventorySerialNum := wrapS16 (o4.mExpectedInventorySerialNum + 1) }
  else if is_new then
    { o with mExpectedInventorySerialNum := wrapS16 (o.mExpectedInventorySerialNum + 1) }
  else o

/-- `LLViewerObject::updateInventory`: send the update message, then do the
internal logic. -/
def updateInventory (env : InvEnv) (o : InvObj) (item : LLInventoryObject) (key : Nat)
    ( is_new : Bool) : InvObj :=
  doUpdateInventory env (o.emit (.sendUpdateTaskInventory item.uuid)) item key is_new

/-- `LLViewerObject::removeInventory` -/
def removeInventory (o : InvObj) (item_id : LLUUID) : InvObj :=
  let o1 := deleteInventoryItem (o.emit (.sendRemoveTaskInventory item_id)) item_id
  { o1 with mExpectedInventorySerialNum := wrapS16 (o1.mExpectedInventorySerialNum + 1) }

/-- `LLViewerObject::moveInventory` -/
def moveInventory (o : InvObj) (_folder_id : LLUUID) (item_id : LLUUID) : InvObj :=
  let o0 := o.emit (.sendMoveTaskInventory item_id)
  match getInventoryObject o0 item_id with
  | some item =>
    if !item.perm.allowCopyByAgent then
      let o1 := deleteInventoryItem o0 item_id
      { o1 with mExpectedInventorySerialNum := wrapS16 (o1.mExpectedInventorySerialNum + 1) }
    else o0
  | none => o0

/-- The synthesized `Contents` category: `LLInventoryObject(mID, LLUUID::null,
LLAssetType::AT_CATEGORY, "Contents")`. -/
def contentsCategory (id : LLUUID) : LLInventoryObject :=
  { uuid := id, type := EType.AT_CATEGORY, assetUUID := 0,
    perm := { owner := 0, group := 0, groupOwned := false, allowCopyByAgent := false },
    isItem := false }

/-- `gObjectList`, as far as `findObject` shows it. -/
abbrev ObjectList := LLUUID → Option InvObj

/-- The object list after the object found under `id` was changed into `o`. -/
def ObjectList.set (objs : ObjectList) (id : LLUUID) (o : InvObj) : ObjectList :=
  fun i => if i = id then some o else objs i

/-- The fields `processTaskInv` reads from the `ReplyTaskInventory` message,
and the transfer id `gXferManager->requestFile` hands back. -/
structure TaskInvMsg where
  task_id : LLUUID
  serial : Int
  /-- `LLDir::getScrubbedFileName(unclean_filename)` -/
  filename : String
  /-- Return value of `gXferManager->requestFile`. -/
  new_id : Nat

/-- `LLFilenameAndTask` -/
structure LLFilenameAndTask where
  mTaskID : LLUUID
  mFilename : String
  mSerial : Int
  deriving DecidableEq, Repr

/-- The body of `LLViewerObject::processTaskInv` once the object is found. -/
def processTaskInvObject (object : InvObj) (msg : TaskInvMsg) : InvObj :=
  let serial := msg.serial
  if object.hasTaskInvCap then
    fetchInventoryFromServer { object with mExpectedInventorySerialNum := serial }
  else if serial = object.mInventorySerialNum ∧ serial < object.mExpectedInventorySerialNum then
    fetchInventoryDelayed { object with mExpectedInventorySerialNum := serial }
      INVENTORY_UPDATE_WAIT_TIME_DESYNC
  else if serial < object.mExpectedInventorySerialNum then
    fetchInventoryDelayed { object with mInventorySerialNum := serial }
      INVENTORY_UPDATE_WAIT_TIME_OUTDATED
  else if serial ≥ object.mExpectedInventorySerialNum then
    let o1 := { object with mInventorySerialNum := serial, mExpectedInventorySerialNum := serial }
    if msg.filename.isEmpty then
      doInventoryCallback { o1 with mInventory := some [contentsCategory o1.mID] }
    else
      let o2 := o1.emit (.requestFile msg.filename)
      if o2.mInvRequestState = INVENTORY_XFER then
        if msg.new_id > 0 ∧ msg.new_id ≠ o2.mInvRequestXFerId then
          { (o2.emit (.abortRequestById o2.mInvRequestXFerId)) with
            mInvRequestXFerId := msg.new_id }
        else o2
      else
        { o2 with mInvRequestState := INVENTORY_XFER, mInvRequestXFerId := msg.new_id }
  else object

/-- `LLViewerObject::processTaskInv` -/
def processTaskInv (objs : ObjectList) (msg : TaskInvMsg) : ObjectList :=
  match objs msg.task_id with
  | none => objs
  | some object => objs.set msg.task_id (processTaskInvObject object msg)

/-- The loop of `processTaskInvFile` over the loaded inventory: it runs while
the pending list is not empty, and for every item that is not a category it
erases the entry `std::find(pending_lst.begin(), pending_lst.begin(), ...)`
returns, which is `pending_lst.begin()`. -/
def erasePending : List LLInventoryObject → List LLUUID → List LLUUID
  | [], pending => pending
  | _ :: _, [] => []
  | it :: rest, p :: ps =>
    if it.isItem && decide (it.type ≠ EType.AT_CATEGORY) then erasePending rest ps
    else erasePending rest (p :: ps)

/-- `LLViewerObject::loadTaskInvFile`; `loaded` is what the file holds, in the
order the cache ends up in, and `none` when the stream is not good. -/
def loadTaskInvFile (o : InvObj) (loaded : Option (List LLInventoryObject)) : InvObj × Bool :=
  match loaded with
  | some inv => (doInventoryCallback { o with mInventory := some inv }, true)
  | none => (o, false)

/-- The body of `LLViewerObject::processTaskInvFile` once the object is found. -/
def processTaskInvFileObject (object : InvObj) (ft : LLFilenameAndTask)
    (loaded : Option (List LLInventoryObject)) : InvObj :=
  if ft.mSerial ≥ object.mInventorySerialNum then
    let o1 := { object with mInventorySerialNum := ft.mSerial }
    match loadTaskInvFile o1 loaded with
    | (o2, true) =>
      { o2 with mPendingInventoryItemsIDs :=
          erasePending (o2.mInventory.getD []) o2.mPendingInventoryItemsIDs }
    | (o2, false) => o2
  else object

/-- `LLViewerObject::processTaskInvFile` -/
def processTaskInvFile (objs : ObjectList) (ft : Option LLFilenameAndTask) (error_code : Int)
    (loaded : Option (List LLInventoryObject)) : ObjectList :=
  match ft with
  | none => objs
  | some f =>
    if error_code = 0 then
      match objs f.mTaskID with
      | some object => objs.set f.mTaskID (processTaskInvFileObject object f loaded)
      | none => objs
    else objs

/-- The three ways the coroutine looks at `LLCore::HttpStatus`. -/
inductive HttpStatus where
  /-- `if (status)` -/
  | ok
  /-- `status.getType() == 304` -/
  | notModified
  | error
  deriving DecidableEq, Repr

/-- The response of the `RequestTaskInventory` capability. -/
structure CapResult where
  status : HttpStatus
  /-- `(S16)result["inventory_serial"].asInteger()` -/
  inventory_serial : Int
  /-- `result["contents"]` when present; an entry without `item_id` is `none`. -/
  contents : Option (List (Option LLInventoryObject))

/-- The list `loadTaskInvLLSD` builds: the synthesized category first, then
every entry that has an `item_id`, each pushed to the front. -/
def llsdInventory (id : LLUUID) (entries : List (Option LLInventoryObject)) :
    List LLInventoryObject :=
  entries.foldl
    (fun acc e => match e with
      | some it => it :: acc
      | none => acc)
    [contentsCategory id]

/-- `LLViewerObject::loadTaskInvLLSD` -/
def loadTaskInvLLSD (o : InvObj) (inv_result : CapResult) : InvObj :=
  match inv_result.contents with
  | some entries => doInventoryCallback { o with mInventory := some (llsdInventory o.mID entries) }
  | none => o

/-- `LLViewerObject::fetchInventoryFromCapCoro` up to the suspension in
`getAndSuspend`. -/
def fetchInventoryFromCapCoro_request (objs : ObjectList) (task_inv : LLUUID) : ObjectList :=
  match objs task_inv with
  | some obj => objs.set task_inv { obj with mInvRequestState := INVENTORY_XFER }
  | none => objs

/-- The body of `fetchInventoryFromCapCoro` after the suspension, once the
object is found again. -/
def fetchInventoryFromCapCoroObject (obj : InvObj) (result : CapResult) : InvObj :=
  match result.status with
  | .ok =>
    let serial := result.inventory_serial
    let potentially_stale : Bool := decide (serial < obj.mExpectedInventorySerialNum)
    let o1 := loadTaskInvLLSD
      { obj with mInventorySerialNum := serial, mExpectedInventorySerialNum := serial } result
    if potentially_stale then fetchInventoryDelayed o1 INVENTORY_UPDATE_WAIT_TIME_OUTDATED else o1
  | .notModified =>
    let o1 := { obj with mInvRequestState := INVENTORY_REQUEST_STOPPED }
    let potentially_stale : Bool :=
      decide (o1.mInventorySerialNum < o1.mExpectedInventorySerialNum)
    let o2 := { o1 with mExpectedInventorySerialNum := o1.mInventorySerialNum }
    if potentially_stale then fetchInventoryDelayed o2 INVENTORY_UPDATE_WAIT_TIME_OUTDATED else o2
  | .error => { obj with mInvRequestState := INVENTORY_REQUEST_STOPPED }

/-- `LLViewerObject::fetchInventoryFromCapCoro` from the point where
`getAndSuspend` returns `result`. -/
def fetchInventoryFromCapCoro_resume (objs : ObjectList) (task_inv : LLUUID)
    (result : CapResult) : ObjectList :=
  match objs task_inv with
  | none => objs
  | some obj => objs.set task_inv (fetchInventoryFromCapCoroObject obj result)

/-- `LLViewerObject::fetchInventoryDelayedCoro` from the point where the
timeout ends. -/
def fetchInventoryDelayedCoro_resume (objs : ObjectList) (task_inv : LLUUID) : ObjectList :=
  match objs task_inv with
  | some obj =>
    objs.set task_inv
      (fetchInventoryFromServer { obj with mInvRequestState := INVENTORY_REQUEST_STOPPED })
  | none => objs

/-! ## Motion extrapolation -/

/-- `LLVector3`, with rational components. -/
structure LLVector3 where
  x : ℚ
  y : ℚ
  z : ℚ
  deriving DecidableEq

namespace LLVector3

/-- `LLVector3::zero` -/
def zero : LLVector3 := ⟨0, 0, 0⟩

/-- `operator+` -/
def add (a b : LLVector3) : LLVector3 := ⟨a.x + b.x, a.y + b.y, a.z + b.z⟩

/-- `operator-` -/
def sub (a b : LLVector3) : LLVector3 := ⟨a.x - b.x, a.y - b.y, a.z - b.z⟩

/-- `operator*(F32, const LLVector3&)` and `operator*(const LLVector3&, F32)` -/
def scale (k : ℚ) (a : LLVector3) : LLVector3 := ⟨k * a.x, k * a.y, k * a.z⟩

/-- `LLVector3::isExactlyZero` -/
def isExactlyZero (a : LLVector3) : Bool := decide (a.x = 0 ∧ a.y = 0 ∧ a.z = 0)

instance : Add LLVector3 := ⟨add⟩
instance : Sub LLVector3 := ⟨sub⟩

end LLVector3

/-- `const F32 PHYSICS_TIMESTEP = 1.f / 45.f;` -/
def PHYSICS_TIMESTEP : ℚ := 1 / 45

/-- The change flags the motion code raises or clears. -/
inductive ChangeFlag where
  | MOVED
  | SILHOUETTE
  | TRANSLATED
  | SCALED
  | ROTATED
  | SHIFTED
  deriving DecidableEq, Repr

/-- Modelled from the spec: `llclamp` (llmath) is not among the sources; it
confines `a` to the interval from `minval` to `maxval`. -/
def llclamp (a minval maxval : ℚ) : ℚ :=
  if a < minval then minval else if a > maxval then maxval else a

/-- What `LLCircuitData` tells the interpolation. -/
structure LLCircuitData where
  isAlive : Bool
  isBlocked : Bool
  /-- `getLastPacketInTime()` -/
  lastPacketInTime : ℚ

/-- The statics and the collaborators `interpolateLinearMotion` consults: the
interpolation limits, the circuit of the region's host, the region and the
world. -/
structure MotionEnv where
  sMaxUpdateInterpolationTime : ℚ
  sPhaseOutUpdateInterpolationTime : ℚ
  sMaxRegionCrossingInterpolationTime : ℚ
  /-- `gMessageSystem->mCircuitInfo.findCircuit(mRegionp->getHost())` -/
  findCircuit : Option LLCircuitData
  /-- `LLMessageSystem::getMessageTimeSeconds()` -/
  messageTimeSeconds : ℚ
  /-- `mRegionp->getPosGlobalFromRegion` -/
  getPosGlobalFromRegion : LLVector3 → LLVector3
  /-- `mRegionp->getPosRegionFromGlobal` -/
  getPosRegionFromGlobal : LLVector3 → LLVector3
  /-- `mRegionp->getWidth()` -/
  regionWidth : ℚ
  /-- `LLWorld::resolveLandHeightGlobal` -/
  resolveLandHeightGlobal : LLVector3 → ℚ
  /-- `LLWorld::getMinAllowedZ(this, pos_global)` -/
  getMinAllowedZ : LLVector3 → ℚ
  /-- `LLWorld::getRegionMaxHeight()` -/
  getRegionMaxHeight : ℚ
  /-- `LLWorld::clipToVisibleRegions(from, to)` -/
  clipToVisibleRegions : LLVector3 → LLVector3 → LLVector3
  /-- The return value of `LLVector3::clamp(min, max)`: whether a component had
  to be clamped. -/
  clamp : LLVector3 → ℚ → ℚ → Bool

/-- The members of a root `LLViewerObject` that the idle-time motion update
reads and writes. For a root object `getPositionRegion()` is `getPosition()`
and `setPositionRegion` stores the position as given. -/
structure MotionObj where
  /-- `mRegionp` is not null. -/
  hasRegion : Bool
  position : LLVector3
  velocity : LLVector3
  acceleration : LLVector3
  /-- `getScale().mV[VZ]` -/
  scaleZ : ℚ
  isAvatar : Bool
  mLastInterpUpdateSecs : ℚ
  mLastMessageUpdateSecs : ℚ
  mRegionCrossExpire : ℚ
  mChanged : List ChangeFlag
  deriving DecidableEq

/-- `setChanged(flags)`: `mChanged |= flags`. -/
def MotionObj.setChanged (o : MotionObj) (flags : List ChangeFlag) : MotionObj :=
  { o with mChanged := o.mChanged ++ flags.filter (fun f => !o.mChanged.contains f) }

/-- `LLViewerObject::getPositionRegion` of a root object. -/
def MotionObj.getPositionRegion (o : MotionObj) : LLVector3 := o.position

/-- `LLViewerObject::setPositionRegion` of a root object: `setPosition` raises
`TRANSLATED | SILHOUETTE` when the position differs and stores it. The
position caches need the region. -/
def MotionObj.setPositionRegion (o : MotionObj) (pos_region : LLVector3) : Option MotionObj :=
  if o.hasRegion then
    let o1 :=
      if o.position ≠ pos_region then o.setChanged [.TRANSLATED, .SILHOUETTE] else o
    some { o1 with position := pos_region }
  else none

/-- The factor by which `interpolateLinearMotion` scales the predicted deltas
once the decay is engaged. -/
def phaseOutFactor (env : MotionEnv) (o : MotionObj) (frame_time : ℚ) : ℚ :=
  let time_since_last_update := frame_time - o.mLastMessageUpdateSecs
  let time_since_last_interpolation := frame_time - o.mLastInterpUpdateSecs
  let phase_out : ℚ :=
    if time_since_last_update > env.sMaxUpdateInterpolationTime then 0
    else if o.mLastInterpUpdateSecs - o.mLastMessageUpdateSecs
        > env.sPhaseOutUpdateInterpolationTime then
      (env.sMaxUpdateInterpolationTime - time_since_last_update) /
        (env.sMaxUpdateInterpolationTime - time_since_last_interpolation)
    else
      (env.sMaxUpdateInterpolationTime - time_since_last_update) /
        (env.sMaxUpdateInterpolationTime - env.sPhaseOutUpdateInterpolationTime)
  llclamp phase_out 0 1

/-- Whether the decay is engaged: the update is older than the phase-out time,
the region and its circuit are there, and the circuit is dead, blocked or has
seen no packet for longer than the phase-out time. -/
def decayEngaged (env : MotionEnv) (o : MotionObj) (frame_time : ℚ) : Bool :=
  decide (frame_time - o.mLastMessageUpdateSecs > env.sPhaseOutUpdateInterpolationTime) &&
  decide (env.sPhaseOutUpdateInterpolationTime > 0) &&
  o.hasRegion &&
  (match env.findCircuit with
   | some cdp =>
     !cdp.isAlive || cdp.isBlocked ||
       decide (env.messageTimeSeconds - cdp.lastPacketInTime
         > env.sPhaseOutUpdateInterpolationTime)
   | none => false)

/-- The predicted displacement and velocity increment before the position is
added: `(vel + (0.5f * (dt-PHYSICS_TIMESTEP)) * accel) * dt` and `accel * dt`,
scaled by the phase-out factor when the decay is engaged. -/
def predictedDeltas (env : MotionEnv) (o : MotionObj) (frame_time dt : ℚ) :
    LLVector3 × LLVector3 :=
  let accel := o.acceleration
  let vel := o.velocity
  let new_pos := LLVector3.scale dt (vel + LLVector3.scale (1 / 2 * (dt - PHYSICS_TIMESTEP)) accel)
  let new_v := LLVector3.scale dt accel
  if decayEngaged env o frame_time then
    let phase_out := phaseOutFactor env o frame_time
    (LLVector3.scale phase_out new_pos, LLVector3.scale phase_out new_v)
  else (new_pos, new_v)

/-- The height clamp of `interpolateLinearMotion` on the predicted region
position. -/
def clampHeight (env : MotionEnv) (o : MotionObj) (new_pos : LLVector3) : LLVector3 :=
  let new_pos_global := env.getPosGlobalFromRegion new_pos
  if o.isAvatar then
    let min_height := env.resolveLandHeightGlobal new_pos_global + 1 / 2 * o.scaleZ
    { new_pos with z := max min_height new_pos.z }
  else
    let min_height := env.getMinAllowedZ new_pos_global
    let z1 := min env.getRegionMaxHeight new_pos.z
    { new_pos with z := max min_height z1 }

/-- `LLViewerObject::interpolateLinearMotion` for a root object. The result is
`none` where the source dereferences a null `mRegionp`. -/
def interpolateLinearMotion (env : MotionEnv) (o : MotionObj) (frame_time dt : ℚ) :
    Option MotionObj :=
  let time_since_last_update := frame_time - o.mLastMessageUpdateSecs
  if time_since_last_update ≤ 0 ∨ dt ≤ 0 then some o
  else
    let accel := o.acceleration
    let vel := o.velocity
    if env.sMaxUpdateInterpolationTime ≤ 0 then
      -- old code path: unbounded, simple interpolation
      if !(accel.isExactlyZero && vel.isExactlyZero) then
        let pos := LLVector3.scale dt (vel + LLVector3.scale (1 / 2 * (dt - PHYSICS_TIMESTEP)) accel)
        match o.setPositionRegion (pos + o.getPositionRegion) with
        | none => none
        | some o1 =>
          let o2 := { o1 with velocity := vel + LLVector3.scale dt accel }
          some { o2.setChanged [.MOVED, .SILHOUETTE] with mLastInterpUpdateSecs := frame_time }
      else some { o with mLastInterpUpdateSecs := frame_time }
    else if !accel.isExactlyZero || !vel.isExactlyZero then
      let deltas := predictedDeltas env o frame_time dt
      let new_pos0 := deltas.1 + o.getPositionRegion
      let new_v0 := deltas.2 + vel
      if !o.hasRegion then none
      else
        let new_pos1 := clampHeight env o new_pos0
        let temp : LLVector3 := ⟨new_pos1.x, new_pos1.y, 0⟩
        -- (new_pos, new_v, object after the region-edge handling)
        let edge : LLVector3 × LLVector3 × MotionObj :=
          if env.clamp temp 0 env.regionWidth then
            let old_pos_global := env.getPosGlobalFromRegion o.getPositionRegion
            let new_pos_global := env.getPosGlobalFromRegion new_pos1
            let clip_pos_global := env.clipToVisibleRegions old_pos_global new_pos_global
            if clip_pos_global ≠ new_pos_global then
              (env.getPosRegionFromGlobal clip_pos_global, LLVector3.zero,
                { o with acceleration := LLVector3.zero })
            else if o.mRegionCrossExpire = 0 then
              (new_pos1, new_v0,
                { o with mRegionCrossExpire :=
                    frame_time + env.sMaxRegionCrossingInterpolationTime })
            else if frame_time > o.mRegionCrossExpire then
              (new_pos1, LLVector3.zero,
                { o with acceleration := LLVector3.zero, mRegionCrossExpire := 0 })
            else (new_pos1, new_v0, o)
          else (new_pos1, new_v0, { o with mRegionCrossExpire := 0 })
        match edge.2.2.setPositionRegion edge.1 with
        | none => none
        | some o1 =>
          let o2 := { o1 with velocity := edge.2.1 }
          some { o2.setChanged [.MOVED, .SILHOUETTE] with mLastInterpUpdateSecs := frame_time }
    else some { o with mLastInterpUpdateSecs := frame_time }

/-! ## Scene graph -/

/-- An `LLViewerObject*`; the objects live in the world below. -/
abbrev Handle := Nat

/-- The members of `LLDrawable` the parenting code reads and writes. -/
structure Drawable where
  /-- `isDead()` -/
  dead : Bool
  /-- `getVObj()` is not null. -/
  hasVObj : Bool
  /-- `mXform.mParent`, named by the object that owns the parent drawable. -/
  xformParent : Option Handle
  /-- `LLDrawable::mParent`, named the same way. -/
  mParent : Option Handle
  deriving DecidableEq, Repr

/-- The members of an `LLViewerObject` that make up the scene graph. -/
structure Topo where
  mLocalID : Nat
  /-- `mParent` of the `LLXform` base. -/
  mParent : Option Handle
  mChildList : List Handle
  mDead : Bool
  isAvatar : Bool
  mDrawable : Option Drawable
  mbCanSelect : Bool
  mSeatCount : Int
  deriving DecidableEq, Repr

/-- `LLQuaternion`, with rational components. -/
structure LLQuaternion where
  x : ℚ
  y : ℚ
  z : ℚ
  w : ℚ
  deriving DecidableEq

/-- The default `LLQuaternion`, the identity. -/
def LLQuaternion.identity : LLQuaternion := ⟨0, 0, 0, 1⟩

/-- The members of an `LLViewerObject` that hold its transform and update
bookkeeping. Text, sound, media, particles, extra parameters, name-value
pairs and generic data are not tracked. -/
structure ObjState where
  mRegionp : Option Nat
  position : LLVector3
  velocity : LLVector3
  acceleration : LLVector3
  angularVelocity : LLVector3
  scale : LLVector3
  rotation : LLQuaternion
  mFlags : Nat
  mAttachmentState : Nat
  mLatestRecvPacketID : Nat
  mBestUpdatePrecision : Int
  mStatic : Bool
  mRotTime : ℚ
  mAngularVelocityRot : LLQuaternion
  mPreviousRotation : LLQuaternion
  mCreateSelected : Bool
  mTotalCRC : Nat
  material : Nat
  clickAction : Nat
  mLastInterpUpdateSecs : ℚ
  mLastMessageUpdateSecs : ℚ
  mUserSelected : Bool
  mChanged : List ChangeFlag
  deriving DecidableEq

/-- The object list, the region's cache-miss list and the calls into
`gObjectList` made on the way. -/
structure World where
  topo : Handle → Topo
  st : Handle → ObjState
  /-- A bound on the number of objects: a parent walk that takes more steps
  than this is in a loop and does not end. -/
  maxChain : Nat
  /-- Local ids handed to `getRegion()->addCacheMissFull`, oldest first. -/
  cacheMissFull : List Nat
  /-- Objects handed to `gObjectList.killObject`, oldest first. -/
  killed : List Handle
  /-- Calls of `gObjectList.orphanize(this, parent_id, ip, port)`. -/
  orphaned : List (Handle × Nat)
  /-- The time dilation stored on each region by `setTimeDilation`. -/
  timeDilation : Nat → ℚ

def World.setTopo (w : World) (h : Handle) (t : Topo) : World :=
  { w with topo := fun i => if i = h then t else w.topo i }

def World.setSt (w : World) (h : Handle) (s : ObjState) : World :=
  { w with st := fun i => if i = h then s else w.st i }

/-- `mChanged |= flags` on a set of flags kept as a list. -/
def orFlags (cur : List ChangeFlag) (flags : List ChangeFlag) : List ChangeFlag :=
  cur ++ flags.filter (fun f => !cur.contains f)

/-- `setChanged(flags)` on the object `h`. -/
def World.setChanged (w : World) (h : Handle) (flags : List ChangeFlag) : World :=
  w.setSt h { w.st h with mChanged := orFlags (w.st h).mChanged flags }

/-- The walk `while (cur_par) { if (cur_par == this) return false; cur_par =
cur_par->mParent; }`: `some true` when `target` is met, `some false` when the
chain ends, `none` when it does not end within `fuel` steps. -/
def walkFinds (parentOf : Handle → Option Handle) (target : Handle) :
    Nat → Option Handle → Option Bool
  | _, none => some false
  | 0, some _ => none
  | fuel + 1, some h =>
    if h = target then some true else walkFinds parentOf target fuel (parentOf h)

/-- Modelled from the spec: `LLXform::setParent` (llmath) is not among the
sources. A cyclic parent chain must never be allowed to persist: the call
succeeds at once when the parent is the current one, refuses (`false`) when
the object is met on the chain above the new parent, and otherwise sets the
parent and succeeds. The result says whether it succeeds; `none` when the
walk does not end. -/
def xformSetParentOk (parentOf : Handle → Option Handle) (fuel : Nat) (self : Handle)
    (parent : Option Handle) : Option Bool :=
  if parent = parentOf self then some true
  else
    match parent with
    | none => some true
    | some p => (walkFinds parentOf self fuel (parentOf p)).map (fun found => !found)

/-- `LLViewerObject::setParent(NULL)`: nothing calls back into the old parent. -/
def setParentNull (w : World) (self : Handle) : World × Bool :=
  if (w.topo self).mParent ≠ none then
    (w.setTopo self { w.topo self with mParent := none }, true)
  else (w, false)

/-- `LLViewerObject::removeChild`, as far as the scene graph goes (the
selection manager and the pipeline are not tracked). -/
def removeChild (w : World) (self : Handle) (childp : Handle) : World :=
  if childp ∈ (w.topo self).mChildList then
    let w1 := w.setTopo self
      { w.topo self with mChildList := (w.topo self).mChildList.erase childp }
    let w2 := if (w1.topo childp).mParent = some self then (setParentNull w1 childp).1 else w1
    if (w2.topo childp).isAvatar then
      w2.setTopo self { w2.topo self with mSeatCount := (w2.topo self).mSeatCount - 1 }
    else w2
  else w

/-- `LLViewerObject::setParent` -/
def setParent (w : World) (self : Handle) (parent : Option Handle) : Option (World × Bool) :=
  if (w.topo self).mParent ≠ parent then
    let old_parent := (w.topo self).mParent
    match xformSetParentOk (fun h => (w.topo h).mParent) w.maxChain self parent with
    | none => none
    | some false => some (w, false)
    | some true =>
      let w1 := w.setTopo self { w.topo self with mParent := parent }
      match old_parent, parent with
      | some op, some _ => some (removeChild w1 op self, true)
      | _, _ => some (w1, true)
  else some (w, false)

/-- `LLViewerObject::addChild` -/
def addChild (w : World) (self : Handle) (childp : Handle) : Option World :=
  if childp ∈ (w.topo self).mChildList then some w
  else
    let w1 :=
      if !(w.topo self).isAvatar then
        w.setTopo childp { w.topo childp with mbCanSelect := (w.topo self).mbCanSelect }
      else w
    match setParent w1 childp (some self) with
    | none => none
    | some (w2, true) =>
      let w3 := w2.setTopo self
        { w2.topo self with mChildList := (w2.topo self).mChildList ++ [childp] }
      if (w3.topo childp).isAvatar then
        some (w3.setTopo self { w3.topo self with mSeatCount := (w3.topo self).mSeatCount + 1 })
      else some w3
    | some (w2, false) => some w2

/-- `LLViewerObject::setDrawableParent`. `parentp` names the object that owns
the parent drawable; the pipeline calls are not tracked. -/
def setDrawableParent (w : World) (self : Handle) (parentp : Option Handle) :
    Option (World × Bool) :=
  match (w.topo self).mDrawable with
  | none => some (w, false)
  | some d =>
    let xparent : Handle → Option Handle := fun h =>
      match (w.topo h).mDrawable with
      | some dh => dh.xformParent
      | none => none
    match xformSetParentOk xparent w.maxChain self parentp with
    | none => none
    | some false => some (w, false)
    | some true =>
      some (w.setTopo self
        { w.topo self with mDrawable := some { d with xformParent := parentp, mParent := parentp } },
        true)

/-! ## Object updates -/

/-- `EObjectUpdateType` -/
inductive EObjectUpdateType where
  | OUT_FULL
  | OUT_TERSE_IMPROVED
  | OUT_FULL_COMPRESSED
  | OUT_FULL_CACHED
  | OUT_UNKNOWN
  deriving DecidableEq, Repr

open EObjectUpdateType

/-- `const S32 MAX_OBJECT_BINARY_DATA_SIZE = 60 + 16;` -/
def MAX_OBJECT_BINARY_DATA_SIZE : Int := 60 + 16

/-- What the message system hands out for the block being processed. The
`ObjectData` buffer is read through typed readers indexed by byte offset. -/
structure MsgSys where
  /-- `LLWorld::getRegionFromHandle(region_handle)` -/
  regionFromHandle : Option Nat
  /-- `RegionData.TimeDilation` -/
  time_dilation16 : Nat
  /-- `getCurrentRecvPacketID()` -/
  packet_id : Nat
  /-- `ObjectData.CRC` -/
  crc : Nat
  /-- `ObjectData.ParentID` -/
  parentID : Nat
  /-- `ObjectData.Material` -/
  material : Nat
  /-- `ObjectData.ClickAction` -/
  clickAction : Nat
  /-- `ObjectData.Scale` -/
  scale : LLVector3
  /-- `getSizeFast(_PREHASH_ObjectData, block_num, _PREHASH_ObjectData)` -/
  objectDataSize : Int
  /-- An `LLVector3` copied out of the `ObjectData` buffer at a byte offset. -/
  vec3At : Nat → LLVector3
  /-- A `U16` read from the `ObjectData` buffer at a byte offset. -/
  u16At : Nat → Nat
  /-- `ObjectData.UpdateFlags` -/
  updateFlags : Nat
  /-- `ObjectData.State` -/
  state : Nat
  /-- `checkMediaURL` of the media url of a full update. -/
  mediaFlags : Nat
  /-- Ping delay in milliseconds of the sender's circuit, when one is found. -/
  pingDelay : Option ℚ

/-- What is unpacked from the data packer of a compressed update, field by
field in the order of the source. -/
structure PackedData where
  state : Nat
  /-- The `agent` byte of a terse update. -/
  agent : Nat
  pos : LLVector3
  vel16 : Nat × Nat × Nat
  acc16 : Nat × Nat × Nat
  theta16 : Nat × Nat × Nat × Nat
  omega16 : Nat × Nat × Nat
  crc : Nat
  material : Nat
  clickAction : Nat
  scale : LLVector3
  rot : LLVector3
  /-- `SpecialCode` -/
  specialCode : Nat
  omega : LLVector3
  parentID : Nat
  /-- `checkMediaURL` of the media url of a full update. -/
  mediaFlags : Nat

/-- The statics, constants of absent headers and collaborators that
`processUpdateMessage` consults. -/
structure UpdateEnv where
  /-- `LLWorld::instance().isRegionListed(regionp)` -/
  isRegionListed : Option Nat → Bool
  /-- `getOriginAgent()` of a region. -/
  originAgent : Nat → LLVector3
  /-- `gObjectList.findObject` of the id `getUUIDFromLocal` yields for a local
  id and the address the update came from. -/
  findObjectFromLocal : Nat → Option Handle
  /-- `LLWorld::getRegionWidthInMeters()` -/
  size : ℚ
  MAX_HEIGHT : ℚ
  MIN_HEIGHT : ℚ
  /-- `U16_to_F32(val, lower, upper)` -/
  U16_to_F32 : Nat → ℚ → ℚ → ℚ
  /-- `LLVector3::quantize16(lowerxy, upperxy, lowerz, upperz)` -/
  quantize16 : LLVector3 → ℚ → ℚ → ℚ → ℚ → LLVector3
  /-- `LLQuaternion::unpackFromVector3` -/
  unpackFromVector3 : LLVector3 → LLQuaternion
  /-- `LLQuaternion::normQuat` -/
  normQuat : LLQuaternion → LLQuaternion
  /-- `operator*` of two quaternions. -/
  quatMul : LLQuaternion → LLQuaternion → LLQuaternion
  /-- `new_rot.isNotEqualEps(rot, F_ALMOST_ZERO)` -/
  isNotEqualEps : LLQuaternion → LLQuaternion → Bool
  /-- `llfinite` of the `F32` a rational stands for. -/
  llfinite : ℚ → Bool
  FLAGS_LOCAL : Nat
  FLAGS_CREATE_SELECTED : Nat
  FLAGS_USE_PHYSICS : Nat
  /-- The bit `INVALID_UPDATE` of the returned flag word. -/
  INVALID_UPDATE : Nat
  /-- `F_APPROXIMATELY_ZERO`, the cutoff below which a magnitude counts as zero. -/
  F_APPROXIMATELY_ZERO : ℚ
  sPingInterpolate : Bool
  gFrameDTClamped : ℚ
  /-- `LLFrameTimer::getElapsedSeconds()` -/
  elapsedSeconds : ℚ
  /-- `LLVOAvatar::clampAttachmentPositions()` of the avatar named first, which
  is not among the sources: given the position of every object before the
  call, the position of the object named last after it. The avatar hands each
  position to `setPosition` of the object. -/
  clampAttachmentPositions : Handle → (Handle → LLVector3) → Handle → LLVector3

/-- `LLVector3::magVecSquared` -/
def LLVector3.magVecSquared (a : LLVector3) : ℚ := a.x * a.x + a.y * a.y + a.z * a.z

/-- `LLViewerObject::resetRot`: `resetRotTime()` and the identity for the
accumulated rotation. -/
def resetRot (s : ObjState) : ObjState :=
  { s with mRotTime := 0, mAngularVelocityRot := LLQuaternion.identity }

/-- `setPosition(pos)`, reached from `setPositionParent` on every path. -/
def setPosition (s : ObjState) (pos : LLVector3) : ObjState :=
  let s1 :=
    if s.position ≠ pos then
      { s with mChanged := orFlags s.mChanged [.TRANSLATED, .SILHOUETTE] }
    else s
  { s1 with position := pos }

/-- `LLViewerObject::setRegion`, which also runs on every child. `none` when the
recursion does not end within `fuel` levels. -/
def setRegion : Nat → World → Handle → Option Nat → Option World
  | 0, _, _, _ => none
  | fuel + 1, w, self, regionp =>
    let w1 := w.setSt self { w.st self with mLatestRecvPacketID := 0, mRegionp := regionp }
    let w2 := (w1.topo self).mChildList.foldlM
      (fun acc child => setRegion fuel acc child regionp) w1
    w2.map (fun w3 => w3.setChanged self [.MOVED, .SILHOUETTE])

/-- The locals of `processUpdateMessage` that the decoding fills in. -/
structure Decoded where
  parent_id : Nat
  new_pos_parent : LLVector3
  new_angv : LLVector3
  /-- `getAngularVelocity()` as it was before the decoding. -/
  old_angv : LLVector3
  new_rot : LLQuaternion
  new_scale : LLVector3
  test_pos_parent : LLVector3
  this_update_precision : Int
  retval : Nat

/-- The binary `ObjectData` of a raw `OUT_FULL` update: `switch(length)` after
`length = llmin(length, MAX_OBJECT_BINARY_DATA_SIZE)`. -/
def decodeFullObjectData (env : UpdateEnv) (m : MsgSys) (s : ObjState) (d : Decoded) :
    ObjState × Decoded :=
  let length := min m.objectDataSize MAX_OBJECT_BINARY_DATA_SIZE
  let full (count : Nat) : ObjState × Decoded :=
    let new_angv := m.vec3At (count + 48)
    let s1 := { s with velocity := m.vec3At (count + 12), acceleration := m.vec3At (count + 24) }
    let s2 := if new_angv.isExactlyZero then resetRot s1 else s1
    ({ s2 with angularVelocity := new_angv },
     { d with this_update_precision := 32,
              new_pos_parent := m.vec3At count,
              new_rot := env.unpackFromVector3 (m.vec3At (count + 36)),
              new_angv := new_angv })
  if length = 140 ∨ length = 76 then full 16
  else if length = 124 ∨ length = 60 then full 0
  else (s, d)

/-- The binary `ObjectData` of a raw `OUT_TERSE_IMPROVED` update. -/
def decodeTerseObjectData (env : UpdateEnv) (m : MsgSys) (s : ObjState) (d : Decoded) :
    ObjState × Decoded :=
  let length := min m.objectDataSize MAX_OBJECT_BINARY_DATA_SIZE
  let size := env.size
  let terse (count : Nat) : ObjState × Decoded :=
    let u (off : Nat) (lo hi : ℚ) : ℚ := env.U16_to_F32 (m.u16At (count + off)) lo hi
    let new_angv : LLVector3 := ⟨u 26 (-size) size, u 28 (-size) size, u 30 (-size) size⟩
    ({ s with velocity := ⟨u 6 (-size) size, u 8 (-size) size, u 10 (-size) size⟩,
              acceleration := ⟨u 12 (-size) size, u 14 (-size) size, u 16 (-size) size⟩,
              angularVelocity := new_angv },
     { d with this_update_precision := 16,
              test_pos_parent := env.quantize16 d.test_pos_parent
                (-(1 / 2) * size) (3 / 2 * size) env.MIN_HEIGHT env.MAX_HEIGHT,
              new_pos_parent := ⟨u 0 (-(1 / 2) * size) (3 / 2 * size),
                                 u 2 (-(1 / 2) * size) (3 / 2 * size),
                                 u 4 env.MIN_HEIGHT env.MAX_HEIGHT⟩,
              new_rot := ⟨u 18 (-1) 1, u 20 (-1) 1, u 22 (-1) 1, u 24 (-1) 1⟩,
              new_angv := new_angv })
  if length = 80 ∨ length = 48 then terse 16
  else if length = 64 ∨ length = 32 then terse 0
  else (s, d)

/-- The decoding of a raw update (`!dp`), on the tracked members. -/
def decodeRaw (env : UpdateEnv) (m : MsgSys) (update_type : EObjectUpdateType)
    (s : ObjState) (d : Decoded) : ObjState × Decoded :=
  match update_type with
  | OUT_FULL =>
    let d1 := { d with parent_id := m.parentID, new_scale := m.scale }
    let s1 := { s with mTotalCRC := m.crc, material := m.material, clickAction := m.clickAction }
    let (s2, d2) := decodeFullObjectData env m s1 d1
    ({ s2 with mFlags := (s2.mFlags &&& env.FLAGS_LOCAL) ||| m.updateFlags,
               mAttachmentState := m.state,
               mCreateSelected := decide ((m.updateFlags &&& env.FLAGS_CREATE_SELECTED) ≠ 0) },
     { d2 with retval := d2.retval ||| m.mediaFlags })
  | OUT_TERSE_IMPROVED =>
    let (s1, d1) := decodeTerseObjectData env m s d
    ({ s1 with mAttachmentState := m.state }, d1)
  | _ => (s, d)

/-- `LLViewerObject::loadFlags` -/
def loadFlags (env : UpdateEnv) (s : ObjState) (flags : Nat) : ObjState :=
  if flags = 0xFFFFFFFF then s
  else
    { s with mFlags := (s.mFlags &&& env.FLAGS_LOCAL) ||| flags,
             mCreateSelected := decide ((flags &&& env.FLAGS_CREATE_SELECTED) ≠ 0) }

/-- The decoding of a compressed update (`dp` present), on the tracked
members. -/
def decodePacked (env : UpdateEnv) (mesgsys : Option MsgSys) (p : PackedData)
    (update_type : EObjectUpdateType) (s : ObjState) (d : Decoded) : ObjState × Decoded :=
  let s0 := { s with mAttachmentState := p.state }
  match update_type with
  | OUT_TERSE_IMPROVED =>
    let u (v : Nat) (lo hi : ℚ) : ℚ := env.U16_to_F32 v lo hi
    let new_angv : LLVector3 :=
      ⟨u p.omega16.1 (-64) 64, u p.omega16.2.1 (-64) 64, u p.omega16.2.2 (-64) 64⟩
    ({ s0 with velocity := ⟨u p.vel16.1 (-128) 128, u p.vel16.2.1 (-128) 128,
                            u p.vel16.2.2 (-128) 128⟩,
               acceleration := ⟨u p.acc16.1 (-64) 64, u p.acc16.2.1 (-64) 64,
                                u p.acc16.2.2 (-64) 64⟩,
               angularVelocity := new_angv },
     { d with test_pos_parent := s0.position,
              new_pos_parent := p.pos,
              new_rot := ⟨u p.theta16.1 (-1) 1, u p.theta16.2.1 (-1) 1,
                          u p.theta16.2.2.1 (-1) 1, u p.theta16.2.2.2 (-1) 1⟩,
              new_angv := new_angv })
  | OUT_FULL_COMPRESSED | OUT_FULL_CACHED =>
    let s1 := { s0 with mTotalCRC := p.crc, material := p.material,
                        clickAction := p.clickAction, acceleration := LLVector3.zero }
    let hasOmega : Bool := decide (p.specialCode &&& 0x80 ≠ 0)
    let s2 := if hasOmega then { s1 with angularVelocity := p.omega } else s1
    let s3 := match mesgsys with
      | some m => loadFlags env s2 m.updateFlags
      | none => s2
    (s3,
     { d with new_scale := p.scale,
              new_pos_parent := p.pos,
              new_rot := env.unpackFromVector3 p.rot,
              new_angv := if hasOmega then p.omega else d.new_angv,
              parent_id := if p.specialCode &&& 0x20 ≠ 0 then p.parentID else 0,
              retval := d.retval ||| p.mediaFlags })
  | _ => (s0, d)

/-- The recovery from a parenting cycle: `setParent(NULL)` on both objects,
both local ids on the region's full cache-miss list, both objects handed to
`gObjectList.killObject`. -/
def killBoth (w : World) (self sent_parentp : Handle) : World :=
  let w1 := (setParentNull w self).1
  let w2 := (setParentNull w1 sent_parentp).1
  { w2 with
    cacheMissFull := w2.cacheMissFull ++ [(w2.topo self).mLocalID, (w2.topo sent_parentp).mLocalID]
    killed := w2.killed ++ [sent_parentp, self] }

/-- The drawable of an object as a parent for `setDrawableParent`: the object
itself when it has a drawable, `NULL` otherwise. -/
def drawableOf (w : World) (h : Handle) : Option Handle :=
  if (w.topo h).mDrawable.isSome then some h else none

/-- How the parenting section of `processUpdateMessage` ends: it goes on with
`b_changed_status`, or it has returned `retval` after killing both objects. -/
inductive Parenting where
  | goesOn (w : World) (b_changed_status : Bool)
  | returned (w : World)

/-- The branch "no parent now, new parent in message". -/
def attachToNewParent (env : UpdateEnv) (w : World) (self : Handle) (parent_id : Nat) :
    Option Parenting :=
  let sent_parentp := env.findObjectFromLocal parent_id
  -- try to recover if we attempt to attach a parent to its child
  let recovered : Option World :=
    match sent_parentp with
    | some sp =>
      if (w.topo sp).mParent = some self then
        (setDrawableParent (removeChild w self sp) sp none).map (fun r => r.1)
      else some w
    | none => some w
  match recovered with
  | none => none
  | some w1 =>
    match sent_parentp with
    | some sp =>
      if sp ≠ self ∧ (w1.topo sp).mDead = false then
        -- new parent is valid
        let attached : Option Parenting :=
          match (w1.topo self).mDrawable with
          | some d =>
            if d.dead || !d.hasVObj then
              (addChild w1 sp self).map (fun w2 => Parenting.goesOn w2 true)
            else
              match setDrawableParent w1 self (drawableOf w1 sp) with
              | none => none
              | some (w2, false) => some (Parenting.returned (killBoth w2 self sp))
              | some (w2, true) => (addChild w2 sp self).map (fun w3 => Parenting.goesOn w3 true)
          | none => (addChild w1 sp self).map (fun w2 => Parenting.goesOn w2 true)
        attached.map (fun r =>
          match r with
          | .goesOn w2 b => Parenting.goesOn (w2.setChanged self [.MOVED, .SILHOUETTE]) b
          | .returned w2 => Parenting.returned w2)
      else
        some (.goesOn { w1 with orphaned := w1.orphaned ++ [(self, parent_id)] } false)
    | none =>
      some (.goesOn { w1 with orphaned := w1.orphaned ++ [(self, parent_id)] } false)

/-- The branch "parented now, different parent in message". -/
def switchParent (env : UpdateEnv) (w : World) (self : Handle) (parent_id : Nat)
    (cur_parentp : Handle) : Option Parenting :=
  -- (the object sent as parent, the world after a possible `orphanize`)
  let sent : Option Handle × World :=
    if parent_id = 0 then (none, w)
    else
      match env.findObjectFromLocal parent_id with
      | some sp => (some sp, w)
      | none =>
        if (w.topo self).isAvatar then (some cur_parentp, w)
        else (none, { w with orphaned := w.orphaned ++ [(self, parent_id)] })
  let w1 := sent.2
  match sent.1 with
  | some sp =>
    if sp ≠ cur_parentp ∧ sp ≠ self then
      -- new parent is valid, detach and reattach
      let linked : Option (World × Bool) :=
        if (w1.topo self).mDrawable.isSome then setDrawableParent w1 self (drawableOf w1 sp)
        else some (w1, true)
      match linked with
      | none => none
      | some (w2, false) => some (.returned (killBoth w2 self sp))
      | some (w2, true) =>
        (addChild (removeChild w2 cur_parentp self) sp self).map (fun w3 =>
          .goesOn ((w3.setChanged self [.MOVED, .SILHOUETTE]).setChanged sp
            [.MOVED, .SILHOUETTE]) true)
    else some (.goesOn w1 false)
  | none =>
    -- no new parent, or the parent that we sent doesn't exist on the viewer
    let remove_parent : Bool :=
      match (w1.topo self).mParent with
      | some parentp => decide ((w1.st parentp).mRegionp = (w1.st self).mRegionp)
      | none => true
    if remove_parent then
      let unlinked : Option World :=
        if (w1.topo self).mDrawable.isSome then
          (setDrawableParent w1 self none).map (fun r => r.1)
        else some w1
      unlinked.map (fun w2 =>
        .goesOn ((removeChild w2 cur_parentp self).setChanged self [.MOVED, .SILHOUETTE]) true)
    else some (.goesOn w1 false)

/-- The section "Fix object parenting" of `processUpdateMessage`. -/
def fixParenting (env : UpdateEnv) (w : World) (self : Handle)
    (update_type : EObjectUpdateType) (parent_id : Nat) (cur_parentp : Option Handle) :
    Option Parenting :=
  if update_type ≠ OUT_TERSE_IMPROVED then
    match cur_parentp with
    | none =>
      if parent_id = 0 then some (.goesOn w false)
      else attachToNewParent env w self parent_id
    | some cur =>
      if parent_id = (w.topo cur).mLocalID ∧ update_type = OUT_TERSE_IMPROVED then
        some (.goesOn w false)
      else switchParent env w self parent_id cur
  else some (.goesOn w false)

/-- The call `avatar->clampAttachmentPositions()`: every object is handed the
position the avatar clamps it to, through `setPosition`. -/
def clampAttachments (env : UpdateEnv) (w : World) (avatar : Handle) : World :=
  let clamped := env.clampAttachmentPositions avatar (fun i => (w.st i).position)
  { w with st := fun h => setPosition (w.st h) (clamped h) }

/-- The block of `processUpdateMessage` entered when the position counts as
changed, on the object state `s1` left by the scale step: the precision is
stored, the position is set when the squared distance is finite and the
`INVALID_UPDATE` bit is put into the flag word otherwise, and the attachments
are clamped when the parent is an avatar. The position-snap statistic of the
agent's own avatar is not tracked. -/
def placePosition (env : UpdateEnv) (w : World) (self : Handle) (s1 : ObjState)
    (d : Decoded) : World × Nat :=
  let s1a := { s1 with mBestUpdatePrecision := d.this_update_precision }
  let diff := d.new_pos_parent - d.test_pos_parent
  let r : ObjState × Nat :=
    if env.llfinite diff.magVecSquared then (setPosition s1a d.new_pos_parent, d.retval)
    else (s1a, d.retval ||| env.INVALID_UPDATE)
  let wp := w.setSt self r.1
  match (w.topo self).mParent with
  | some parent =>
    -- we have changed the position of an attachment, so we need to clamp it
    if (w.topo parent).isAvatar then (clampAttachments env wp parent, r.2) else (wp, r.2)
  | none => (wp, r.2)

/-- The block "Set the change flags for scale". -/
def scaleStep (s : ObjState) (d : Decoded) : ObjState :=
  if d.new_scale ≠ s.scale then
    { s with mChanged := orFlags s.mChanged [.SCALED, .SILHOUETTE], scale := d.new_scale }
  else s

/-- The test "let's see if the new position is actually a change", on the
object state `s1` left by the scale step. -/
def positionChanged (s1 : ObjState) (d : Decoded) (b_changed_status : Bool) : Bool :=
  (b_changed_status || decide (d.test_pos_parent ≠ d.new_pos_parent)) ||
  (!s1.mUserSelected &&
    (decide (s1.velocity.magVecSquared ≠ 0) || decide (s1.acceleration.magVecSquared ≠ 0) ||
      decide (d.this_update_precision > s1.mBestUpdatePrecision)))

/-- The rotation block, the static flag and the update times, on the object
state `s2` left by the position block; `vel_mag_sq` and `accel_mag_sq` are the
locals taken before the position block. -/
def turnStep (env : UpdateEnv) (s2 : ObjState) (d : Decoded) (vel_mag_sq accel_mag_sq : ℚ) :
    ObjState :=
  let s3 :=
    if env.isNotEqualEps d.new_rot s2.rotation || decide (d.new_angv ≠ d.old_angv) then
      let s2a :=
        if d.new_rot ≠ s2.mPreviousRotation then resetRot s2
        else if d.new_angv ≠ d.old_angv then
          if s2.mFlags &&& env.FLAGS_USE_PHYSICS ≠ 0 then resetRot s2
          else { s2 with mRotTime := 0 }
        else s2
      { s2a with mPreviousRotation := d.new_rot,
                 rotation := env.quatMul d.new_rot s2a.mAngularVelocityRot,
                 mChanged := orFlags s2a.mChanged [.ROTATED, .SILHOUETTE] }
    else s2
  let isStatic : Bool :=
    decide (env.F_APPROXIMATELY_ZERO ≥ vel_mag_sq) &&
      decide (env.F_APPROXIMATELY_ZERO ≥ accel_mag_sq) &&
      decide (env.F_APPROXIMATELY_ZERO ≥ s3.angularVelocity.magVecSquared)
  { s3 with mStatic := isStatic,
            mLastInterpUpdateSecs := env.elapsedSeconds,
            mLastMessageUpdateSecs := env.elapsedSeconds }

/-- The part of `processUpdateMessage` after the packet id check: scale,
position (with the clamp of the attachments when the parent is an avatar),
rotation, the static flag and the update times. -/
def applyUpdate (env : UpdateEnv) (w : World) (self : Handle) (d : Decoded)
    (b_changed_status : Bool) : World × Nat :=
  let s1 := scaleStep (w.st self) d
  let vel_mag_sq := s1.velocity.magVecSquared
  let accel_mag_sq := s1.acceleration.magVecSquared
  let placed : World × Nat :=
    if positionChanged s1 d b_changed_status then placePosition env w self s1 d
    else (w.setSt self s1, d.retval)
  (placed.1.setSt self (turnStep env (placed.1.st self) d vel_mag_sq accel_mag_sq), placed.2)

/-- One call of `processUpdateMessage`: the message system (or `NULL`), the
data packer (or `NULL`) and the update type. -/
structure UpdateMsg where
  mesgsys : Option MsgSys
  dp : Option PackedData
  update_type : EObjectUpdateType

/-- The region handling at the head of `processUpdateMessage`, done when a
message system is given: a region crossing moves the object and sets the new
region on it and its children, anything else stores the region found. -/
def updateRegion (env : UpdateEnv) (w : World) (self : Handle) (m : MsgSys) : Option World :=
  let s := w.st self
  match m.regionFromHandle, s.mRegionp with
  | some regionp, some cur =>
    if regionp ≠ cur then
      let delta_pos := env.originAgent cur - env.originAgent regionp
      setRegion (w.maxChain + 1) (w.setSt self (setPosition s (s.position + delta_pos))) self
        (some regionp)
    else some (w.setSt self { s with mRegionp := some regionp })
  | regionp, _ => some (w.setSt self { s with mRegionp := regionp })

/-- The decoding switch of `processUpdateMessage`. `none` where a raw full or
terse update is decoded without a message system. -/
def decodeUpdate (env : UpdateEnv) (msg : UpdateMsg) (s : ObjState) (d : Decoded) :
    Option (ObjState × Decoded) :=
  match msg.dp with
  | none =>
    match msg.mesgsys with
    | some m => some (decodeRaw env m msg.update_type s d)
    | none =>
      if msg.update_type = OUT_FULL ∨ msg.update_type = OUT_TERSE_IMPROVED then none
      else some (s, d)
  | some p => some (decodePacked env msg.mesgsys p msg.update_type s d)

/-- How `processUpdateMessage` stands when it reaches the parenting section:
it has returned already, or it holds the world with the decoded members
stored, the locals, the parent found at the start and the time dilation. -/
inductive Prepared where
  | returned (w : World) (retval : Nat)
  | ready (w : World) (d : Decoded) (cur_parentp : Option Handle) (time_dilation : ℚ)

/-- `processUpdateMessage` up to the parenting section: the region checks, the
time dilation and the decoding. `none` where the source dereferences a null
pointer or `setRegion` does not end. -/
def prepareUpdate (env : UpdateEnv) (w : World) (self : Handle) (msg : UpdateMsg) :
    Option Prepared :=
  if !env.isRegionListed (w.st self).mRegionp then some (.returned w 0)
  else
    let regionDone : Option World :=
      match msg.mesgsys with
      | some m => updateRegion env w self m
      | none => some w
    match regionDone with
    | none => none
    | some w1 =>
      match (w1.st self).mRegionp with
      | none => some (.returned w1 0)
      | some region =>
        let time_dilation : ℚ :=
          match msg.mesgsys with
          | some m => (m.time_dilation16 : ℚ) / 65535
          | none => 1
        let w2 : World :=
          match msg.mesgsys with
          | some _ =>
            { w1 with timeDilation := fun r => if r = region then time_dilation
                                               else w1.timeDilation r }
          | none => w1
        let s := w2.st self
        let cur_parentp := (w2.topo self).mParent
        let d0 : Decoded :=
          { parent_id := match cur_parentp with
              | some cur => (w2.topo cur).mLocalID
              | none => 0
            new_pos_parent := LLVector3.zero
            new_angv := LLVector3.zero
            old_angv := s.angularVelocity
            new_rot := LLQuaternion.identity
            new_scale := s.scale
            test_pos_parent := s.position
            this_update_precision := 32
            retval := 0 }
        match decodeUpdate env msg s d0 with
        | none => none
        | some (s1, d1) => some (.ready (w2.setSt self s1) d1 cur_parentp time_dilation)

/-- `processUpdateMessage` after the parenting section: the quaternion is
normalised, the ping interpolation added, an old packet dropped, and the
update applied. -/
def finishUpdate (env : UpdateEnv) (msg : UpdateMsg) (w3 : World) (self : Handle)
    (d1 : Decoded) (b_changed_status : Bool) (time_dilation : ℚ) : World × Nat :=
  let d2 := { d1 with new_rot := env.normQuat d1.new_rot }
  let d3 : Decoded :=
    match msg.mesgsys with
    | some m =>
      if env.sPingInterpolate then
        match m.pingDelay with
        | some delay =>
          let ping_delay := 1 / 2 * time_dilation * (delay * (1 / 1000) + env.gFrameDTClamped)
          { d2 with new_pos_parent :=
              d2.new_pos_parent + LLVector3.scale ping_delay (w3.st self).velocity }
        | none => d2
      else d2
    | none => d2
  -- skip application of this message if it is old
  let old : Bool :=
    match msg.mesgsys with
    | some m =>
      decide (m.packet_id < (w3.st self).mLatestRecvPacketID ∧
        (w3.st self).mLatestRecvPacketID - m.packet_id < 65536)
    | none => false
  if old then (w3, d3.retval)
  else
    let w4 : World :=
      match msg.mesgsys with
      | some m => w3.setSt self { w3.st self with mLatestRecvPacketID := m.packet_id }
      | none => w3
    applyUpdate env w4 self d3 b_changed_status

/-- `LLViewerObject::processUpdateMessage` on the tracked members: the world
after the call and the returned flag word. `none` where the source
dereferences a null pointer or a walk over the scene graph does not end. -/
def processUpdateMessage (env : UpdateEnv) (w : World) (self : Handle) (msg : UpdateMsg) :
    Option (World × Nat) :=
  match prepareUpdate env w self msg with
  | none => none
  | some (.returned w1 retval) => some (w1, retval)
  | some (.ready w2 d1 cur_parentp time_dilation) =>
    match fixParenting env w2 self msg.update_type d1.parent_id cur_parentp with
    | none => none
    | some (.returned w3) => some (w3, d1.retval)
    | some (.goesOn w3 b_changed_status) =>
      some (finishUpdate env msg w3 self d1 b_changed_status time_dilation)

/-- The update is a full one that declares the local id `lid` as the parent:
a raw `OUT_FULL` message with that `ParentID`, or a compressed or cached full
update whose `SpecialCode` has the parent bit `0x20` and which carries that
`ParentID`. -/
def DeclaresParent (msg : UpdateMsg) (lid : Nat) : Prop :=
  (msg.dp = none ∧ msg.update_type = OUT_FULL ∧ ∃ m, msg.mesgsys = some m ∧ m.parentID = lid) ∨
  (∃ p, msg.dp = some p ∧
    (msg.update_type = OUT_FULL_COMPRESSED ∨ msg.update_type = OUT_FULL_CACHED) ∧
    p.specialCode &&& 0x20 ≠ 0 ∧ p.parentID = lid)

/-! ## Scenarios and predicates used by the theorems -/

/-- The object of the scenario: serial 5 is cached and two local mutations are
pending, so that `mExpectedInventorySerialNum` is 7. -/
def staleScenarioObject : InvObj :=
  { InvObj.fresh 1 false with
    mInventorySerialNum := 5
    mExpectedInventorySerialNum := 7
    mInventory := some [contentsCategory 1] }

/-- An object that expects serial 7 and has cached nothing yet. -/
def staleUnloadedObject : InvObj :=
  { InvObj.fresh 1 false with mExpectedInventorySerialNum := 7 }

/-- The stale reply and the stale capability response of the scenario. -/
def staleReply : TaskInvMsg :=
  { task_id := 1, serial := 5, filename := "inv.tmp", new_id := 9 }

/-- The stale response of the capability: serial 5 and an empty content list. -/
def staleCapResult : CapResult :=
  { status := .ok, inventory_serial := 5, contents := some [] }

/-- An object list that holds the scenario object under id 1 and nothing else. -/
def scenarioObjectList : ObjectList :=
  fun id => if id = 1 then some staleScenarioObject else none

/-- An object in a region with the capability whose cached and expected serials
are both 5. -/
def capObjectAtFive : InvObj :=
  { InvObj.fresh 1 true with mInventorySerialNum := 5, mExpectedInventorySerialNum := 5 }

/-- An environment in which the selection manager knows no permissions of the
object. -/
def noPermEnv : InvEnv :=
  { obj_perm := none, agentID := 2, setOwnerAndGroup := fun p _ _ _ _ => p,
    TASK_INVENTORY_ITEM_KEY := 0, TASK_INVENTORY_ASSET_KEY := 1 }

/-- An item the agent may copy, owned by nobody in particular. -/
def plainItem : LLInventoryObject :=
  { uuid := 10, type := EType.AT_TEXTURE, assetUUID := 20,
    perm := { owner := 0, group := 0, groupOwned := false, allowCopyByAgent := true },
    isItem := true }

/-- The world of the scenario: limits 3.0 s, 2.0 s and 1.0 s, a region of width
256 m with its origin at the global origin, flat land at height 0, maximum
height 4096 m, every neighbouring region visible, and `LLVector3::clamp`
reporting whether a component lies outside `[min, max]`. The circuit of the
region's host and the current message time are left open. -/
def scenarioEnv (circuit : Option LLCircuitData) (now : ℚ) : MotionEnv :=
  { sMaxUpdateInterpolationTime := 3
    sPhaseOutUpdateInterpolationTime := 2
    sMaxRegionCrossingInterpolationTime := 1
    findCircuit := circuit
    messageTimeSeconds := now
    getPosGlobalFromRegion := fun pos => pos
    getPosRegionFromGlobal := fun pos => pos
    regionWidth := 256
    resolveLandHeightGlobal := fun _ => 0
    getMinAllowedZ := fun _ => 0
    getRegionMaxHeight := 4096
    clipToVisibleRegions := fun _ dest => dest
    clamp := fun v lo hi =>
      decide (v.x < lo ∨ v.y < lo ∨ v.z < lo ∨ v.x > hi ∨ v.y > hi ∨ v.z > hi) }

/-- A circuit that is reported dead. -/
def deadCircuit : LLCircuitData :=
  { isAlive := false, isBlocked := false, lastPacketInTime := 0 }

/-- A circuit that is alive, not blocked and received a packet at time `t`. -/
def liveCircuit (t : ℚ) : LLCircuitData :=
  { isAlive := true, isBlocked := false, lastPacketInTime := t }

/-- The entity of the scenario as the frame at 3.0 s left it: at (10,10,0) with
velocity (1,0,0), no acceleration, last server update at 0 s. -/
def scenarioObjAt3 : MotionObj :=
  { hasRegion := true
    position := ⟨10, 10, 0⟩
    velocity := ⟨1, 0, 0⟩
    acceleration := LLVector3.zero
    scaleZ := 1
    isAvatar := false
    mLastInterpUpdateSecs := 3
    mLastMessageUpdateSecs := 0
    mRegionCrossExpire := 0
    mChanged := [] }

/-- The entity of the scenario one second after its last server update. -/
def scenarioObjAt1 : MotionObj :=
  { scenarioObjAt3 with
    acceleration := ⟨0, 0, 1⟩
    mLastInterpUpdateSecs := 1 }

/-- A plain live object without drawable. -/
def plainTopo (localID : Nat) : Topo :=
  { mLocalID := localID, mParent := none, mChildList := [], mDead := false, isAvatar := false,
    mDrawable := none, mbCanSelect := true, mSeatCount := 0 }

/-- An object at rest at the region origin, in region 0, last updated by
packet 100. -/
def restState : ObjState :=
  { mRegionp := some 0
    position := LLVector3.zero
    velocity := LLVector3.zero
    acceleration := LLVector3.zero
    angularVelocity := LLVector3.zero
    scale := ⟨1, 1, 1⟩
    rotation := LLQuaternion.identity
    mFlags := 0
    mAttachmentState := 0
    mLatestRecvPacketID := 100
    mBestUpdatePrecision := 32
    mStatic := true
    mRotTime := 0
    mAngularVelocityRot := LLQuaternion.identity
    mPreviousRotation := LLQuaternion.identity
    mCreateSelected := false
    mTotalCRC := 0
    material := 0
    clickAction := 0
    mLastInterpUpdateSecs := 0
    mLastMessageUpdateSecs := 0
    mUserSelected := false
    mChanged := [] }

/-- Three objects: A (handle 1, local id 11), its child B (handle 2, local id
12) and a third object P (handle 3, local id 13) that stands alone. -/
def cycleWorld : World :=
  { topo := fun h =>
      if h = 1 then { plainTopo 11 with mChildList := [2] }
      else if h = 2 then { plainTopo 12 with mParent := some 1 }
      else plainTopo 13
    st := fun _ => restState
    maxChain := 3
    cacheMissFull := []
    killed := []
    orphaned := []
    timeDilation := fun _ => 1 }

/-- An environment with one listed region and the local ids 11, 12 and 13
naming the handles 1, 2 and 3. -/
def plainUpdateEnv : UpdateEnv :=
  { isRegionListed := fun r => r.isSome
    originAgent := fun _ => LLVector3.zero
    findObjectFromLocal := fun id =>
      if id = 11 then some 1 else if id = 12 then some 2 else if id = 13 then some 3 else none
    size := 256
    MAX_HEIGHT := 4096
    MIN_HEIGHT := -256
    U16_to_F32 := fun v lo hi => lo + (v : ℚ) * (hi - lo) / 65535
    quantize16 := fun v _ _ _ _ => v
    unpackFromVector3 := fun v => ⟨v.x, v.y, v.z, 1⟩
    normQuat := fun q => q
    quatMul := fun a _ => a
    isNotEqualEps := fun a b => decide (a ≠ b)
    llfinite := fun _ => true
    FLAGS_LOCAL := 0x600000
    FLAGS_CREATE_SELECTED := 2
    FLAGS_USE_PHYSICS := 1
    INVALID_UPDATE := 0x80000000
    F_APPROXIMATELY_ZERO := 1 / 100000
    sPingInterpolate := false
    gFrameDTClamped := 0
    elapsedSeconds := 10
    clampAttachmentPositions := fun _ pos h => pos h }

/-- A raw full update from region 0: 60 bytes of `ObjectData` with velocity
(1,0,0) at offset 12 and zeros elsewhere. -/
def fullUpdate (packet_id parentID updateFlags state : Nat) : UpdateMsg :=
  { mesgsys := some
      { regionFromHandle := some 0
        time_dilation16 := 65535
        packet_id := packet_id
        crc := 0
        parentID := parentID
        material := 0
        clickAction := 0
        scale := ⟨1, 1, 1⟩
        objectDataSize := 60
        vec3At := fun off => if off = 12 then ⟨1, 0, 0⟩ else LLVector3.zero
        u16At := fun _ => 0
        updateFlags := updateFlags
        state := state
        mediaFlags := 0
        pingDelay := none }
    dp := none
    update_type := OUT_FULL }

/-- Two worlds with the same links, liveness, local ids, walk bound and logs;
drawables and the other members may differ. -/
structure SameLinks (w w1 : World) : Prop where
  parent : ∀ h, (w1.topo h).mParent = (w.topo h).mParent
  children : ∀ h, (w1.topo h).mChildList = (w.topo h).mChildList
  dead : ∀ h, (w1.topo h).mDead = (w.topo h).mDead
  localID : ∀ h, (w1.topo h).mLocalID = (w.topo h).mLocalID
  maxChain : w1.maxChain = w.maxChain
  killed : w1.killed = w.killed
  cacheMissFull : w1.cacheMissFull = w.cacheMissFull

/-- The three objects with drawables, A now a child of P: the drawable of B
hangs under the drawable of A, which hangs under the drawable of P. -/
def drawnCycleWorld : World :=
  { cycleWorld with
    topo := fun h =>
      if h = 1 then
        { plainTopo 11 with
          mParent := some 3
          mChildList := [2]
          mDrawable := some { dead := false, hasVObj := true, xformParent := some 3,
                              mParent := some 3 } }
      else if h = 2 then
        { plainTopo 12 with
          mParent := some 1
          mDrawable := some { dead := false, hasVObj := true, xformParent := some 1,
                              mParent := some 1 } }
      else
        { plainTopo 13 with
          mChildList := [1]
          mDrawable := some { dead := false, hasVObj := true, xformParent := none,
                              mParent := none } } }

/-- An object with a fetch outstanding: the request is pending, transfer 9 is
running, and serial 5 is cached. -/
def pendingFetchObject : InvObj :=
  { InvObj.fresh 1 false with
    mInventorySerialNum := 5
    mExpectedInventorySerialNum := 5
    mInvRequestState := INVENTORY_XFER
    mInvRequestXFerId := 9 }

/-- The entity of the scenario as the frame at 2.0 s left it: last server
update at 0 s, last interpolation at 2.0 s, not yet phased out. -/
def scenarioObjAt2 : MotionObj :=
  { scenarioObjAt3 with mLastInterpUpdateSecs := 2 }

/-- The displacement `interpolateLinearMotion` predicts before any decay:
`(vel + (0.5f * (dt-PHYSICS_TIMESTEP)) * accel) * dt`. -/
def fullDisplacement (o : MotionObj) (dt : ℚ) : LLVector3 :=
  LLVector3.scale dt (o.velocity + LLVector3.scale (1 / 2 * (dt - PHYSICS_TIMESTEP)) o.acceleration)

/-- The velocity increment `interpolateLinearMotion` predicts before any decay:
`accel * dt`. -/
def fullVelocityIncrement (o : MotionObj) (dt : ℚ) : LLVector3 :=
  LLVector3.scale dt o.acceleration

/-- The third object of `cycleWorld` placed at (5,5,5), turned half way round
the z axis, moving with velocity (1,0,0), acceleration (0,0,-1) and angular
velocity (0,0,1); the other two objects are as before. -/
def placedWorld : World :=
  { cycleWorld with
    st := fun h =>
      if h = 3 then { restState with position := ⟨5, 5, 5⟩, rotation := ⟨0, 0, 1, 0⟩,
                                     mPreviousRotation := ⟨0, 0, 1, 0⟩,
                                     velocity := ⟨1, 0, 0⟩, acceleration := ⟨0, 0, -1⟩,
                                     angularVelocity := ⟨0, 0, 1⟩, mStatic := false }
      else restState }

/-- A raw update from region 0, carried by packet 200, whose `ObjectData` is
ten bytes long; no parent is declared. -/
def shortUpdate (update_type : EObjectUpdateType) : UpdateMsg :=
  { mesgsys := some
      { regionFromHandle := some 0
        time_dilation16 := 65535
        packet_id := 200
        crc := 0
        parentID := 0
        material := 0
        clickAction := 0
        scale := ⟨1, 1, 1⟩
        objectDataSize := 10
        vec3At := fun _ => ⟨7, 7, 7⟩
        u16At := fun _ => 7
        updateFlags := 0
        state := 0
        mediaFlags := 0
        pingDelay := none }
    dp := none
    update_type := update_type }

/-- The decoded values as they enter the application of the update: the
rotation normalised and, with ping interpolation on, the position advanced
along the velocity by half the ping delay. -/
def pingAdjusted (env : UpdateEnv) (msg : UpdateMsg) (w3 : World) (self : Handle)
    (d1 : Decoded) (time_dilation : ℚ) : Decoded :=
  let d2 := { d1 with new_rot := env.normQuat d1.new_rot }
  match msg.mesgsys with
  | some m =>
    if env.sPingInterpolate then
      match m.pingDelay with
      | some delay =>
        let ping_delay := 1 / 2 * time_dilation * (delay * (1 / 1000) + env.gFrameDTClamped)
        { d2 with new_pos_parent :=
            d2.new_pos_parent + LLVector3.scale ping_delay (w3.st self).velocity }
      | none => d2
    else d2
  | none => d2

/-- The test before "skip application of this message, it's old": the packet
id is below the last one applied, by less than 65536. -/
def isOldPacket (msg : UpdateMsg) (s : ObjState) : Bool :=
  match msg.mesgsys with
  | some m =>
    decide (m.packet_id < s.mLatestRecvPacketID ∧ s.mLatestRecvPacketID - m.packet_id < 65536)
  | none => false

/-- An environment in which the squared distance of any move away from the
spot is not finite. -/
def overflowEnv : UpdateEnv :=
  { plainUpdateEnv with llfinite := fun x => decide (x = 0) }

/-! ## Idle update -/

/-- The statics and collaborators of `idleUpdate`: the interpolation switch,
the time dilation of the object's region, and the square root and quaternion
operations of the math library. -/
structure IdleEnv where
  motionEnv : MotionEnv
  sVelocityInterpolate : Bool
  /-- `mRegionp->getTimeDilation()` -/
  timeDilation : ℚ
  sqrt : ℚ → ℚ
  /-- `LLQuaternion::setQuat(angle, vec)` -/
  setQuat : ℚ → LLVector3 → LLQuaternion
  /-- `operator*` on quaternions -/
  quatMul : LLQuaternion → LLQuaternion → LLQuaternion

/-- The members of a root `LLViewerObject` that `idleUpdate` reads and writes:
those of the linear motion and those of the rotation, the drawable as far as
`updateDrawable` looks at it, and the calls of `gPipeline.markMoved` with their
`damped_motion` argument. -/
structure IdleObj where
  motion : MotionObj
  mDead : Bool
  mStatic : Bool
  /-- `isSelected()` -/
  mUserSelected : Bool
  isAttachment : Bool
  angularVelocity : LLVector3
  rotation : LLQuaternion
  mAngularVelocityRot : LLQuaternion
  mRotTime : ℚ
  /-- `mDrawable.notNull()` -/
  hasDrawable : Bool
  /-- `mDrawable->isState(LLDrawable::ON_MOVE_LIST)` -/
  onMoveList : Bool
  /-- The part of `damped_motion` read off the drawable, the parent and the
  pcode: root or parent not selected, a volume, not created this frame. -/
  dampedRest : Bool
  markMoved : List Bool

/-- `LLViewerObject::applyAngularVelocity` -/
def applyAngularVelocity (env : IdleEnv) (o : IdleObj) (dt : ℚ) : IdleObj :=
  -- do target omega here
  let o1 := { o with mRotTime := o.mRotTime + dt }
  let ang_vel := o1.angularVelocity
  let omega := LLVector3.magVecSquared ang_vel
  if omega > 1 / 100000 then
    let omega1 := env.sqrt omega
    let angle := omega1 * dt
    let dQ := env.setQuat angle (LLVector3.scale (1 / omega1) ang_vel)
    { o1 with
      mAngularVelocityRot := env.quatMul o1.mAngularVelocityRot dQ,
      rotation := env.quatMul o1.rotation dQ,
      motion := o1.motion.setChanged [.MOVED, .SILHOUETTE] }
  else o1

/-- `LLViewerObject::updateDrawable` -/
def updateDrawable (o : IdleObj) (force_damped : Bool) : IdleObj :=
  let o1 :=
    if !o.motion.mChanged.contains .MOVED then o
    else if o.hasDrawable && !o.onMoveList then
      let damped_motion :=
        !o.motion.mChanged.contains .SHIFTED &&
          (force_damped ||
            (!o.mUserSelected && o.dampedRest && o.motion.velocity.isExactlyZero))
      { o with markMoved := o.markMoved ++ [damped_motion] }
    else o
  -- clearChanged(SHIFTED)
  { o1 with motion :=
      { o1.motion with mChanged := o1.motion.mChanged.filter (fun f => f ≠ .SHIFTED) } }

/-- `LLViewerObject::idleUpdate` for a root object. The result is `none` where
`interpolateLinearMotion` dereferences a null `mRegionp`. -/
def idleUpdate (env : IdleEnv) (o : IdleObj) (frame_time : ℚ) : Option IdleObj :=
  if !o.mDead then
    if !o.mStatic && env.sVelocityInterpolate && !o.mUserSelected then
      -- calculate dt from last update
      let time_dilation : ℚ := if o.motion.hasRegion then env.timeDilation else 1
      let dt_raw := frame_time - o.motion.mLastInterpUpdateSecs
      let dt := time_dilation * dt_raw
      let o1 := applyAngularVelocity env o dt
      if o1.isAttachment then
        some { o1 with motion := { o1.motion with mLastInterpUpdateSecs := frame_time } }
      else
        match interpolateLinearMotion env.motionEnv o1.motion frame_time dt with
        | none => none
        | some m => some (updateDrawable { o1 with motion := m } false)
    else some (updateDrawable o false)
  else some o

/-- The idle-time environment of the scenario: interpolation on, no time
dilation, the square root and the quaternions left out. -/
def scenarioIdleEnv : IdleEnv :=
  { motionEnv := scenarioEnv none 2
    sVelocityInterpolate := true
    timeDilation := 1
    sqrt := fun x => x
    setQuat := fun _ _ => LLQuaternion.identity
    quatMul := fun a _ => a }

/-- An object that still carries velocity (1,0,0), acceleration (0,0,1) and an
angular velocity, with `MOVED` pending, and is flagged static. -/
def staticIdleObject : IdleObj :=
  { motion := { scenarioObjAt1 with mChanged := [.MOVED, .SHIFTED] }
    mDead := false
    mStatic := true
    mUserSelected := false
    isAttachment := false
    angularVelocity := ⟨0, 0, 1⟩
    rotation := LLQuaternion.identity
    mAngularVelocityRot := LLQuaternion.identity
    mRotTime := 0
    hasDrawable := true
    onMoveList := false
    dampedRest := true
    markMoved := [] }

/-- The children below `h` form a tree of fewer than `n` levels, so that a
recursion over the child lists that starts at `h` ends within `n` calls deep. -/
def childDepthOk (topo : Handle → Topo) : Nat → Handle → Bool
  | 0, _ => false
  | n + 1, h => (topo h).mChildList.all (fun c => childDepthOk topo n c)

/-- A terse update in a raw buffer, from region 0 and carried by packet 200:
32 bytes of `ObjectData`. -/
def terseUpdate : UpdateMsg :=
  { shortUpdate OUT_TERSE_IMPROVED with
    mesgsys := (shortUpdate OUT_TERSE_IMPROVED).mesgsys.map
      (fun m => { m with objectDataSize := 32, parentID := 13 }) }

/-- The child lists are the inverse of the parent pointers: `c` is in the child
list of `p` exactly when the parent of `c` is `p`. -/
def Consistent (w : World) : Prop :=
  ∀ c p, c ∈ (w.topo p).mChildList ↔ (w.topo c).mParent = some p

/-- No child list holds an object twice. -/
def NoDupChildren (w : World) : Prop :=
  ∀ p, (w.topo p).mChildList.Nodup

/-- The chain of parents that starts at `start` ends within `fuel` steps. -/
def chainEnds (parentOf : Handle → Option Handle) : Nat → Option Handle → Bool
  | _, none => true
  | 0, some _ => false
  | fuel + 1, some h => chainEnds parentOf fuel (parentOf h)

/-! ## Destruction -/

/-- Four objects: a live object L (handle 1) with two children, a prim C
(handle 2) and a seated avatar S (handle 3, a legacy avatar); handle 4 is a
prim G, child of C. -/
def familyWorld : World :=
  { topo := fun h =>
      if h = 1 then { plainTopo 11 with mChildList := [2, 3], mSeatCount := 1 }
      else if h = 2 then { plainTopo 12 with mParent := some 1, mChildList := [4] }
      else if h = 3 then { plainTopo 13 with mParent := some 1, isAvatar := true }
      else if h = 4 then { plainTopo 14 with mParent := some 2 }
      else plainTopo 0
    st := fun _ => restState
    maxChain := 4
    cacheMissFull := []
    killed := []
    orphaned := []
    timeDilation := fun _ => 1 }

/-- The list a deletion of the first entry with id `item_id` is expected to
leave: the entries before the first match, then the entries after it. -/
def withoutFirstMatch (item_id : LLUUID) (inv : List LLInventoryObject) :
    List LLInventoryObject :=
  inv.takeWhile (fun x => decide (x.uuid ≠ item_id)) ++
    (inv.dropWhile (fun x => decide (x.uuid ≠ item_id))).tail

/-- An object with the cached inventory `[plainItem]` (asset id 20) that waits
for the asset id 77 to show up. -/
def pendingAssetObject : InvObj :=
  { InvObj.fresh 1 false with
    mInventory := some [plainItem]
    mPendingInventoryItemsIDs := [77] }

/-- An inventory file for the object with id 1, with serial 1. -/
def plainFile : LLFilenameAndTask :=
  { mTaskID := 1, mFilename := "inv.tmp", mSerial := 1 }

/-- A cached inventory with two entries of id 10 around one of id 11. -/
def doubledInventory : List LLInventoryObject :=
  [plainItem, { plainItem with uuid := 11, assetUUID := 21 },
    { plainItem with assetUUID := 22 }]

/-- An object list that holds `pendingAssetObject` under id 1 and nothing
else. -/
def pendingAssetList : ObjectList :=
  fun id => if id = 1 then some pendingAssetObject else none

/-! ## Flags -/

/-- `LLViewerObject::setFlagsWithoutUpdate` on the 32-bit flag word: the new
`mFlags` and the return value. `~flags` is the complement within 32 bits. -/
def setFlagsWithoutUpdate (mFlags flags : Nat) (state : Bool) : Nat × Bool :=
  if state then
    if mFlags &&& flags ≠ flags then (mFlags ||| flags, true) else (mFlags, false)
  else
    if mFlags &&& flags ≠ 0 then (mFlags &&& (flags ^^^ (2 ^ 32 - 1)), true)
    else (mFlags, false)

/-- A raw full update like `fullUpdate 200 0 0 0` whose `TimeDilation` is 0. -/
def frozenUpdate : UpdateMsg :=
  { fullUpdate 200 0 0 0 with
    mesgsys := (fullUpdate 200 0 0 0).mesgsys.map (fun m => { m with time_dilation16 := 0 }) }

/-! ## Edit root -/

/-- `LLViewerObject::getRootEdit`: the walk up the parents while there is a
parent and it is not an avatar. `none` when the walk does not end within `fuel`
steps. -/
def getRootEdit (topo : Handle → Topo) : Nat → Handle → Option Handle
  | 0, root =>
    match (topo root).mParent with
    | some p => if !(topo p).isAvatar then none else some root
    | none => some root
  | fuel + 1, root =>
    match (topo root).mParent with
    | some p => if !(topo p).isAvatar then getRootEdit topo fuel p else some root
    | none => some root

/-- The object `k` parent links above `x`, when the chain is that long. -/
def ancestorAt (topo : Handle → Topo) : Nat → Handle → Option Handle
  | 0, x => some x
  | k + 1, x =>
    match (topo x).mParent with
    | some p => ancestorAt topo k p
    | none => none

/-! ## Extra parameters -/

/-- `LLViewerObject::ExtraParameter`: the parameter block, as the bytes it
holds, and whether it is in use. -/
structure ExtraParameter where
  data : List Nat
  in_use : Bool
  deriving DecidableEq, Repr

/-- The `LLNetworkData` type tags and the parameter blocks behind them: the
default-constructed block of a kind and `LLNetworkData::unpack`, which gives
the block after it has read the buffer. -/
structure ParamEnv where
  PARAMS_FLEXIBLE : Nat
  PARAMS_LIGHT : Nat
  PARAMS_SCULPT : Nat
  PARAMS_LIGHT_IMAGE : Nat
  PARAMS_MESH : Nat
  PARAMS_EXTENDED_MESH : Nat
  PARAMS_RENDER_MATERIAL : Nat
  PARAMS_REFLECTION_PROBE : Nat
  newBlock : Nat → List Nat
  unpack : Nat → List Nat → List Nat → List Nat

/-- A call of `parameterChanged(param_type, data, in_use, local_origin)`. -/
structure ParameterChanged where
  param_type : Nat
  data : List Nat
  in_use : Bool
  local_origin : Bool
  deriving DecidableEq, Repr

/-- The extra-parameter members of an object: `mExtraParameterList` as the list
of its entries, one per type tag, and the calls of `parameterChanged` made so
far. -/
structure ParamObj where
  mExtraParameterList : List (Nat × ExtraParameter)
  changed : List ParameterChanged
  deriving DecidableEq, Repr

/-- `mExtraParameterList[param_type] = entry`, and the writes through the
pointer of an entry found under `param_type`. -/
def setEntry (l : List (Nat × ExtraParameter)) (param_type : Nat) (entry : ExtraParameter) :
    List (Nat × ExtraParameter) :=
  if l.any (fun p => decide (p.1 = param_type)) then
    l.map (fun p => if p.1 = param_type then (param_type, entry) else p)
  else l ++ [(param_type, entry)]

/-- The `switch` of `createNewParameterEntry`: whether a block is made for the
type tag. -/
def makesBlock (env : ParamEnv) (param_type : Nat) : Bool :=
  decide (param_type = env.PARAMS_FLEXIBLE) || decide (param_type = env.PARAMS_LIGHT) ||
  decide (param_type = env.PARAMS_SCULPT) || decide (param_type = env.PARAMS_LIGHT_IMAGE) ||
  decide (param_type = env.PARAMS_EXTENDED_MESH) ||
  decide (param_type = env.PARAMS_RENDER_MATERIAL) ||
  decide (param_type = env.PARAMS_REFLECTION_PROBE)

/-- `LLViewerObject::createNewParameterEntry` -/
def createNewParameterEntry (env : ParamEnv) (o : ParamObj) (param_type : Nat) :
    ParamObj × Option ExtraParameter :=
  if makesBlock env param_type then
    -- not in use yet
    let new_entry : ExtraParameter := { data := env.newBlock param_type, in_use := false }
    ({ o with mExtraParameterList := setEntry o.mExtraParameterList param_type new_entry },
      some new_entry)
  else (o, none)

/-- `LLViewerObject::getExtraParameterEntry` -/
def getExtraParameterEntry (o : ParamObj) (param_type : Nat) : Option ExtraParameter :=
  (o.mExtraParameterList.find? (fun p => decide (p.1 = param_type))).map (fun p => p.2)

/-- `LLViewerObject::getExtraParameterEntryCreate` -/
def getExtraParameterEntryCreate (env : ParamEnv) (o : ParamObj) (param_type : Nat) :
    ParamObj × Option ExtraParameter :=
  match getExtraParameterEntry o param_type with
  | some param => (o, some param)
  | none => createNewParameterEntry env o param_type

/-- `LLViewerObject::unpackParameterEntry`; `dp` is the buffer of the block. -/
def unpackParameterEntry (env : ParamEnv) (o : ParamObj) (param_type : Nat) (dp : List Nat) :
    ParamObj × Bool :=
  let param_type := if env.PARAMS_MESH = param_type then env.PARAMS_SCULPT else param_type
  match getExtraParameterEntryCreate env o param_type with
  | (o1, some param) =>
    let data := env.unpack param_type param.data dp
    ({ mExtraParameterList :=
         setEntry o1.mExtraParameterList param_type { data := data, in_use := true },
       changed := o1.changed ++ [⟨param_type, data, true, false⟩] }, true)
  | (o1, none) => (o1, false)

/-- `LLViewerObject::setParameterEntryInUse` -/
def setParameterEntryInUse (env : ParamEnv) (o : ParamObj) (param_type : Nat) (in_use : Bool)
    (local_origin : Bool) : ParamObj × Bool :=
  match getExtraParameterEntryCreate env o param_type with
  | (o1, some param) =>
    if param.in_use ≠ in_use then
      ({ mExtraParameterList :=
           setEntry o1.mExtraParameterList param_type { param with in_use := in_use },
         changed := o1.changed ++ [⟨param_type, param.data, in_use, local_origin⟩] }, true)
    else (o1, false)
  | (o1, none) => (o1, false)

/-- The extra-parameter section of `processUpdateMessage`: every entry is
marked not in use, the parameter blocks of the message are unpacked one after
the other, whatever `unpackParameterEntry` returns, and `parameterChanged` is
called for the entries left not in use. -/
def unpackExtraParams (env : ParamEnv) (o : ParamObj) (blocks : List (Nat × List Nat)) :
    ParamObj :=
  -- Mark all extra parameters not used
  let o1 := { o with mExtraParameterList :=
    o.mExtraParameterList.map (fun p => (p.1, { p.2 with in_use := false })) }
  -- Unpack extra parameters
  let o2 := blocks.foldl (fun acc b => (unpackParameterEntry env acc b.1 b.2).1) o1
  let unused : List ParameterChanged :=
    (o2.mExtraParameterList.filter (fun p => !p.2.in_use)).map
      (fun p => ⟨p.1, p.2.data, false, false⟩)
  { o2 with changed := o2.changed ++ unused }

/-- Every entry of the list stands under a type tag for which
`createNewParameterEntry` makes a block. -/
def KnownEntries (env : ParamEnv) (l : List (Nat × ExtraParameter)) : Prop :=
  ∀ p ∈ l, makesBlock env p.1 = true

/-- The type tags of `LLNetworkData` in steps of 0x10, with blocks that start
empty and take over the buffer they unpack. -/
def scenarioParamEnv : ParamEnv :=
  { PARAMS_FLEXIBLE := 0x10
    PARAMS_LIGHT := 0x20
    PARAMS_SCULPT := 0x30
    PARAMS_LIGHT_IMAGE := 0x40
    PARAMS_MESH := 0x60
    PARAMS_EXTENDED_MESH := 0x70
    PARAMS_RENDER_MATERIAL := 0x80
    PARAMS_REFLECTION_PROBE := 0x90
    newBlock := fun _ => []
    unpack := fun _ _ dp => dp }

/-- An object without extra parameters. -/
def noParams : ParamObj := { mExtraParameterList := [], changed := [] }

/-! ## Compressed object data -/

/-- The sizes `sizeof` gives for the types of the fields. -/
structure TypeSizes where
  uuid : Nat
  u32 : Nat
  u8 : Nat
  vector3 : Nat
  deriving DecidableEq, Repr

/-- The sizes on the wire: 16 bytes for an `LLUUID`, 4 for a `U32`, 1 for a
`U8` and 12 for an `LLVector3`. -/
def wireSizes : TypeSizes := { uuid := 16, u32 := 4, u8 := 1, vector3 := 12 }

/-- Modelled from the spec: `LLDataPackerBinaryBuffer` (llcommon) is not among
the sources. A buffer of bytes with a read cursor, counted from the start of
the buffer. -/
structure LLDataPackerBinaryBuffer where
  buffer : Nat → Nat
  cur : Nat

namespace LLDataPackerBinaryBuffer

/-- Modelled from the spec: `reset` puts the cursor back to the start of the
buffer. -/
def reset (dp : LLDataPackerBinaryBuffer) : LLDataPackerBinaryBuffer := { dp with cur := 0 }

/-- Modelled from the spec: `shift(offset)` puts the cursor `offset` bytes from
the start of the buffer. -/
def shift (dp : LLDataPackerBinaryBuffer) (offset : Nat) : LLDataPackerBinaryBuffer :=
  { dp.reset with cur := offset }

/-- The 32-bit value that stands at `offset`, low byte first. -/
def u32At (dp : LLDataPackerBinaryBuffer) (offset : Nat) : Nat :=
  dp.buffer offset % 256 + 256 * (dp.buffer (offset + 1) % 256) +
    65536 * (dp.buffer (offset + 2) % 256) + 16777216 * (dp.buffer (offset + 3) % 256)

/-- Modelled from the spec: `unpackU32` reads the four bytes at the cursor and
moves the cursor past them. -/
def unpackU32 (sz : TypeSizes) (dp : LLDataPackerBinaryBuffer) :
    LLDataPackerBinaryBuffer × Nat :=
  ({ dp with cur := dp.cur + sz.u32 }, dp.u32At dp.cur)

/-- Modelled from the spec: `unpackU8`, `unpackVector3` and `unpackUUID` move
the cursor past the field they read; `skip` is the move by `size` bytes. -/
def skip (dp : LLDataPackerBinaryBuffer) (size : Nat) : LLDataPackerBinaryBuffer :=
  { dp with cur := dp.cur + size }

end LLDataPackerBinaryBuffer

/-- `LLViewerObject::initObjectDataMap`: `sObjectDataMap` as the list of its
entries in the order they are made. -/
def initObjectDataMap (sz : TypeSizes) : List (String × Nat) :=
  let count := 0
  let m := [("ID", count)]
  let count := count + sz.uuid
  let m := m ++ [("LocalID", count)]
  let count := count + sz.u32
  let m := m ++ [("PCode", count)]
  let count := count + sz.u8
  let m := m ++ [("State", count)]
  let count := count + sz.u8
  let m := m ++ [("CRC", count)]
  let count := count + sz.u32
  let m := m ++ [("Material", count)]
  let count := count + sz.u8
  let m := m ++ [("ClickAction", count)]
  let count := count + sz.u8
  let m := m ++ [("Scale", count)]
  let count := count + sz.vector3
  let m := m ++ [("Pos", count)]
  let count := count + sz.vector3
  let m := m ++ [("Rot", count)]
  let count := count + sz.vector3
  let m := m ++ [("SpecialCode", count)]
  let count := count + sz.u32
  let m := m ++ [("Owner", count)]
  let count := count + sz.uuid
  -- when SpecialCode & 0x80 is set
  let m := m ++ [("Omega", count)]
  let count := count + sz.vector3
  -- ParentID is after Omega if there is Omega, otherwise is after Owner
  m ++ [("ParentID", count)]

/-- `sObjectDataMap[name]`; a name that is not in the map gives 0. -/
def objectDataOffset (sz : TypeSizes) (name : String) : Nat :=
  (((initObjectDataMap sz).find? (fun e => e.1 == name)).map (fun e => e.2)).getD 0

/-- `LLViewerObject::unpackParentID`: the packer after the call and the parent
id. -/
def unpackParentID (sz : TypeSizes) (dp : LLDataPackerBinaryBuffer) :
    LLDataPackerBinaryBuffer × Nat :=
  let dp1 := dp.shift (objectDataOffset sz "SpecialCode")
  let (dp2, value) := dp1.unpackU32 sz
  if value &&& 0x20 ≠ 0 then
    let offset := objectDataOffset sz "ParentID"
    let offset := if value &&& 0x80 = 0 then offset - sz.vector3 else offset
    let dp3 := dp2.shift offset
    let (dp4, parent_id) := dp3.unpackU32 sz
    (dp4.reset, parent_id)
  else (dp2.reset, 0)

/-- The reads of the `OUT_FULL_COMPRESSED` decode in `processUpdateMessage` from
`State` up to `ParentID`, in their order: the packer after them, the
`SpecialCode` and the parent id. -/
def unpackCompressedHead (sz : TypeSizes) (dp : LLDataPackerBinaryBuffer) :
    LLDataPackerBinaryBuffer × Nat × Nat :=
  let dp := dp.skip sz.u8            -- State
  let dp := (dp.unpackU32 sz).1      -- CRC
  let dp := dp.skip sz.u8            -- Material
  let dp := dp.skip sz.u8            -- ClickAction
  let dp := dp.skip sz.vector3       -- Scale
  let dp := dp.skip sz.vector3       -- Pos
  let dp := dp.skip sz.vector3       -- Rot
  let (dp, value) := dp.unpackU32 sz -- SpecialCode
  let dp := dp.skip sz.uuid          -- Owner
  let dp := if value &&& 0x80 ≠ 0 then dp.skip sz.vector3 else dp
  if value &&& 0x20 ≠ 0 then
    let (dp, parent_id) := dp.unpackU32 sz
    (dp, value, parent_id)
  else (dp, value, 0)

/-- The offsets a list of field sizes gives when every field starts where the
fields before it end. -/
def offsetsFrom : Nat → List (String × Nat) → List (String × Nat)
  | _, [] => []
  | start, (name, size) :: rest => (name, start) :: offsetsFrom (start + size) rest

/-- The fields of the compressed object data up to `ParentID`, with their
sizes. -/
def objectDataFields (sz : TypeSizes) : List (String × Nat) :=
  [("ID", sz.uuid), ("LocalID", sz.u32), ("PCode", sz.u8), ("State", sz.u8),
   ("CRC", sz.u32), ("Material", sz.u8), ("ClickAction", sz.u8), ("Scale", sz.vector3),
   ("Pos", sz.vector3), ("Rot", sz.vector3), ("SpecialCode", sz.u32), ("Owner", sz.uuid),
   ("Omega", sz.vector3), ("ParentID", sz.u32)]

/-- A compressed buffer whose `SpecialCode` is `code` and that holds the byte
7 at offset 84 and the byte 9 at offset 96. -/
def parentBuffer (code : Nat) : LLDataPackerBinaryBuffer :=
  { buffer := fun i => if i = 64 then code else if i = 84 then 7 else if i = 96 then 9 else 0
    cur := 0 }

/-- The three objects in a chain, without drawables: A (handle 1, local id 11)
is a child of P (handle 3, local id 13), and B (handle 2, local id 12) is a
child of A. -/
def chainWorld : World :=
  { cycleWorld with
    topo := fun h =>
      if h = 1 then { plainTopo 11 with mParent := some 3, mChildList := [2] }
      else if h = 2 then { plainTopo 12 with mParent := some 1 }
      else { plainTopo 13 with mChildList := [1] } }

/-- The environment of the scenarios after the region of the objects has been
dropped from the list of regions of the world. -/
def unlistedEnv : UpdateEnv :=
  { plainUpdateEnv with isRegionListed := fun _ => false }

/-- The environment of `overflowEnv` with a second region, region 1, whose
origin lies 256 m to the east of the origin of region 0. -/
def crossingEnv : UpdateEnv :=
  { overflowEnv with
    originAgent := fun r => if r = 1 then ⟨256, 0, 0⟩ else LLVector3.zero }

/-- The raw full update of packet 200 when it comes from region 1. -/
def crossingUpdate : UpdateMsg :=
  { fullUpdate 200 0 0 0 with
    mesgsys := (fullUpdate 200 0 0 0).mesgsys.map
      (fun m => { m with regionFromHandle := some 1 }) }

/-- Whether the squared distance between the decoded position and the position
taken before the decoding counts as finite, for a call that reaches the
parenting section. -/
def decodedDistanceFinite (env : UpdateEnv) (r : Option Prepared) : Option Bool :=
  match r with
  | some (.ready _ d _ _) =>
    some (env.llfinite (d.new_pos_parent - d.test_pos_parent).magVecSquared)
  | _ => none

/-! ## Task inventory: facts -/

theorem wrapS16_of_inS16 {x : Int} (h : InS16 x) : wrapS16 x = x := by
  unfold InS16 at h
  unfold wrapS16
  omega

theorem wrapS16_succ {x : Int} (h : InS16 x) (hx : x < 32767) : wrapS16 (x + 1) = x + 1 := by
  unfold InS16 at h
  unfold wrapS16
  omega

theorem wrapS16_pred_succ {x : Int} (h : InS16 x) : wrapS16 (wrapS16 (x - 1) + 1) = x := by
  unfold InS16 at h
  unfold wrapS16
  omega

@[simp] theorem emit_mInventorySerialNum (o : InvObj) (e : InvEffect) :
    (o.emit e).mInventorySerialNum = o.mInventorySerialNum := rfl

@[simp] theorem emit_mExpectedInventorySerialNum (o : InvObj) (e : InvEffect) :
    (o.emit e).mExpectedInventorySerialNum = o.mExpectedInventorySerialNum := rfl

@[simp] theorem emit_mInventory (o : InvObj) (e : InvEffect) :
    (o.emit e).mInventory = o.mInventory := rfl

@[simp] theorem doInventoryCallback_serial (o : InvObj) :
    (doInventoryCallback o).mInventorySerialNum = o.mInventorySerialNum := rfl

@[simp] theorem doInventoryCallback_expected (o : InvObj) :
    (doInventoryCallback o).mExpectedInventorySerialNum = o.mExpectedInventorySerialNum := rfl

@[simp] theorem doInventoryCallback_mInventory (o : InvObj) :
    (doInventoryCallback o).mInventory = o.mInventory := rfl

@[simp] theorem doInventoryCallback_state (o : InvObj) :
    (doInventoryCallback o).mInvRequestState = INVENTORY_REQUEST_STOPPED := rfl

@[simp] theorem fetchInventoryDelayed_serial (o : InvObj) (t : ℚ) :
    (fetchInventoryDelayed o t).mInventorySerialNum = o.mInventorySerialNum := by
  unfold fetchInventoryDelayed
  split <;> [split; rfl] <;> rfl

@[simp] theorem fetchInventoryDelayed_expected (o : InvObj) (t : ℚ) :
    (fetchInventoryDelayed o t).mExpectedInventorySerialNum = o.mExpectedInventorySerialNum := by
  unfold fetchInventoryDelayed
  split <;> [split; rfl] <;> rfl

@[simp] theorem fetchInventoryDelayed_mInventory (o : InvObj) (t : ℚ) :
    (fetchInventoryDelayed o t).mInventory = o.mInventory := by
  unfold fetchInventoryDelayed
  split <;> [split; rfl] <;> rfl

@[simp] theorem fetchInventoryFromServer_serial (o : InvObj) :
    (fetchInventoryFromServer o).mInventorySerialNum = o.mInventorySerialNum := by
  unfold fetchInventoryFromServer
  dsimp only
  split <;> [split; rfl] <;> rfl

@[simp] theorem fetchInventoryFromServer_expected (o : InvObj) :
    (fetchInventoryFromServer o).mExpectedInventorySerialNum = o.mExpectedInventorySerialNum := by
  unfold fetchInventoryFromServer
  dsimp only
  split <;> [split; rfl] <;> rfl

@[simp] theorem deleteInventoryItem_serial (o : InvObj) (item_id : LLUUID) :
    (deleteInventoryItem o item_id).mInventorySerialNum = o.mInventorySerialNum := by
  unfold deleteInventoryItem
  split
  · rfl
  · split <;> rfl

@[simp] theorem deleteInventoryItem_expected (o : InvObj) (item_id : LLUUID) :
    (deleteInventoryItem o item_id).mExpectedInventorySerialNum
      = o.mExpectedInventorySerialNum := by
  unfold deleteInventoryItem
  split
  · rfl
  · split <;> rfl

@[simp] theorem loadTaskInvLLSD_serial (o : InvObj) (r : CapResult) :
    (loadTaskInvLLSD o r).mInventorySerialNum = o.mInventorySerialNum := by
  unfold loadTaskInvLLSD
  split <;> rfl

@[simp] theorem loadTaskInvLLSD_expected (o : InvObj) (r : CapResult) :
    (loadTaskInvLLSD o r).mExpectedInventorySerialNum = o.mExpectedInventorySerialNum := by
  unfold loadTaskInvLLSD
  split <;> rfl

theorem processTaskInvObject_cap (object : InvObj) (msg : TaskInvMsg)
    (hcap : object.hasTaskInvCap = true) :
    processTaskInvObject object msg
      = fetchInventoryFromServer { object with mExpectedInventorySerialNum := msg.serial } := by
  unfold processTaskInvObject
  simp only [hcap, if_true]

theorem processTaskInvObject_desync (object : InvObj) (msg : TaskInvMsg)
    (hcap : object.hasTaskInvCap = false)
    (heq : msg.serial = object.mInventorySerialNum)
    (hS : msg.serial < object.mExpectedInventorySerialNum) :
    processTaskInvObject object msg
      = fetchInventoryDelayed { object with mExpectedInventorySerialNum := msg.serial }
          INVENTORY_UPDATE_WAIT_TIME_DESYNC := by
  unfold processTaskInvObject
  simp only [hcap, Bool.false_eq_true, if_false]
  rw [if_pos ⟨heq, hS⟩]

theorem processTaskInvObject_outdated (object : InvObj) (msg : TaskInvMsg)
    (hcap : object.hasTaskInvCap = false)
    (hne : msg.serial ≠ object.mInventorySerialNum)
    (hS : msg.serial < object.mExpectedInventorySerialNum) :
    processTaskInvObject object msg
      = fetchInventoryDelayed { object with mInventorySerialNum := msg.serial }
          INVENTORY_UPDATE_WAIT_TIME_OUTDATED := by
  unfold processTaskInvObject
  simp only [hcap, Bool.false_eq_true, if_false]
  rw [if_neg (fun h => hne h.1), if_pos hS]

/-- On the accepting branch of the UDP path both counters take the serial. -/
theorem processTaskInvObject_accept (object : InvObj) (msg : TaskInvMsg)
    (hcap : object.hasTaskInvCap = false)
    (hS : msg.serial ≥ object.mExpectedInventorySerialNum) :
    (processTaskInvObject object msg).mInventorySerialNum = msg.serial ∧
    (processTaskInvObject object msg).mExpectedInventorySerialNum = msg.serial := by
  have hlt : ¬ msg.serial < object.mExpectedInventorySerialNum := not_lt.mpr hS
  unfold processTaskInvObject
  simp only [hcap, Bool.false_eq_true, if_false]
  rw [if_neg (fun h => hlt h.2), if_neg hlt, if_pos hS]
  split
  · exact ⟨rfl, rfl⟩
  · split
    · split <;> exact ⟨rfl, rfl⟩
    · exact ⟨rfl, rfl⟩

theorem fetchInventoryFromCapCoroObject_ok (obj : InvObj) (result : CapResult)
    (hok : result.status = HttpStatus.ok) :
    (fetchInventoryFromCapCoroObject obj result).mInventorySerialNum = result.inventory_serial ∧
    (fetchInventoryFromCapCoroObject obj result).mExpectedInventorySerialNum
      = result.inventory_serial := by
  unfold fetchInventoryFromCapCoroObject
  simp only [hok]
  split <;> simp

/-! ## Task inventory: the claims -/

/-- C4, as stated, fails: an out-of-date reply on the UDP path and a successful
HTTP response both overwrite `mInventorySerialNum` with a lower serial. -/
theorem C4_serial_decrease_counterexample :
    (processTaskInvObject staleScenarioObject
        { task_id := 1, serial := 3, filename := "inv.tmp", new_id := 9 }).mInventorySerialNum
      < staleScenarioObject.mInventorySerialNum ∧
    (fetchInventoryFromCapCoroObject staleScenarioObject
        { status := .ok, inventory_serial := 3, contents := none }).mInventorySerialNum
      < staleScenarioObject.mInventorySerialNum := by
  refine ⟨by decide, by decide⟩

theorem processTaskInvFileObject_serial_le (o : InvObj) (ft : LLFilenameAndTask)
    (loaded : Option (List LLInventoryObject)) :
    o.mInventorySerialNum ≤ (processTaskInvFileObject o ft loaded).mInventorySerialNum := by
  unfold processTaskInvFileObject
  split
  · rename_i h
    unfold loadTaskInvFile
    cases loaded <;> exact h
  · exact le_refl _

theorem doUpdateInventory_serial (env : InvEnv) (o : InvObj) (item : LLInventoryObject)
    (key : Nat) ( is_new : Bool) :
    (doUpdateInventory env o item key is_new).mInventorySerialNum = o.mInventorySerialNum := by
  unfold doUpdateInventory
  dsimp only
  split
  · split <;> simp
  · split <;> rfl

theorem moveInventory_serial (o : InvObj) (folder_id item_id : LLUUID) :
    (moveInventory o folder_id item_id).mInventorySerialNum = o.mInventorySerialNum := by
  unfold moveInventory
  dsimp only
  split
  · split <;> simp
  · rfl

theorem processTaskInvObject_serial_cases (o : InvObj) (msg : TaskInvMsg) :
    (processTaskInvObject o msg).mInventorySerialNum = o.mInventorySerialNum ∨
    (processTaskInvObject o msg).mInventorySerialNum = msg.serial := by
  cases hcap : o.hasTaskInvCap
  · by_cases hS : msg.serial < o.mExpectedInventorySerialNum
    · by_cases heq : msg.serial = o.mInventorySerialNum
      · rw [processTaskInvObject_desync o msg hcap heq hS]
        left
        simp
      · rw [processTaskInvObject_outdated o msg hcap heq hS]
        right
        simp
    · right
      exact (processTaskInvObject_accept o msg hcap (not_lt.mp hS)).1
  · rw [processTaskInvObject_cap o msg hcap]
    left
    simp

theorem fetchInventoryFromCapCoroObject_serial_cases (o : InvObj) (result : CapResult) :
    (fetchInventoryFromCapCoroObject o result).mInventorySerialNum = o.mInventorySerialNum ∨
    (fetchInventoryFromCapCoroObject o result).mInventorySerialNum
      = result.inventory_serial := by
  cases hst : result.status
  · right
    exact (fetchInventoryFromCapCoroObject_ok o result hst).1
  · left
    unfold fetchInventoryFromCapCoroObject
    simp only [hst]
    split <;> simp
  · left
    unfold fetchInventoryFromCapCoroObject
    simp only [hst]

/-- C4 (amended): `processTaskInvFile` never lowers `mInventorySerialNum`, the
local mutations leave it as it is, and `processTaskInv` and the HTTP result
handler either keep it or overwrite it with the received serial, so they do not
lower it when that serial is at least the cached one. -/
theorem C4_serial_monotone_amended (env : InvEnv) (o : InvObj) :
    (∀ ft loaded,
      o.mInventorySerialNum ≤ (processTaskInvFileObject o ft loaded).mInventorySerialNum) ∧
    (∀ item_id, (removeInventory o item_id).mInventorySerialNum = o.mInventorySerialNum) ∧
    (∀ item key is_new,
      (updateInventory env o item key is_new).mInventorySerialNum = o.mInventorySerialNum) ∧
    (∀ folder_id item_id,
      (moveInventory o folder_id item_id).mInventorySerialNum = o.mInventorySerialNum) ∧
    (∀ msg : TaskInvMsg, o.mInventorySerialNum ≤ msg.serial →
      o.mInventorySerialNum ≤ (processTaskInvObject o msg).mInventorySerialNum) ∧
    (∀ result : CapResult, o.mInventorySerialNum ≤ result.inventory_serial →
      o.mInventorySerialNum
        ≤ (fetchInventoryFromCapCoroObject o result).mInventorySerialNum) := by
  refine ⟨processTaskInvFileObject_serial_le o, ?_, ?_, moveInventory_serial o, ?_, ?_⟩
  · intro item_id
    simp [removeInventory]
  · intro item key is_new
    unfold updateInventory
    rw [doUpdateInventory_serial]
    rfl
  · intro msg h
    rcases processTaskInvObject_serial_cases o msg with h1 | h1 <;> rw [h1]
    exact h
  · intro result h
    rcases fetchInventoryFromCapCoroObject_serial_cases o result with h1 | h1 <;> rw [h1]
    exact h

/-- The amended C4 on the scenario object, for a reply that carries serial 6. -/
theorem C4_serial_monotone_amended_witness :
    staleScenarioObject.mInventorySerialNum
      ≤ (processTaskInvObject staleScenarioObject
          { task_id := 1, serial := 6, filename := "inv.tmp", new_id := 9 }).mInventorySerialNum :=
  (C4_serial_monotone_amended noPermEnv staleScenarioObject).2.2.2.2.1
    { task_id := 1, serial := 6, filename := "inv.tmp", new_id := 9 } (by decide)

/-- C5: a result whose serial is at least `mExpectedInventorySerialNum` leaves
both counters equal to that serial, on the UDP path of `processTaskInv` (region
without the capability) and on the successful branch of
`fetchInventoryFromCapCoro`. -/
theorem C5_accepted_result_sets_both_serials (objs : ObjectList) (msg : TaskInvMsg)
    (object : InvObj) (task_inv : LLUUID) (obj : InvObj) (result : CapResult)
    (hfind : objs msg.task_id = some object)
    (hcap : object.hasTaskInvCap = false)
    (hS : msg.serial ≥ object.mExpectedInventorySerialNum)
    (hfind2 : objs task_inv = some obj)
    (hok : result.status = HttpStatus.ok)
    (_hR : result.inventory_serial ≥ obj.mExpectedInventorySerialNum) :
    (∃ r, processTaskInv objs msg msg.task_id = some r ∧
      r.mInventorySerialNum = msg.serial ∧ r.mExpectedInventorySerialNum = msg.serial) ∧
    (∃ r, fetchInventoryFromCapCoro_resume objs task_inv result task_inv = some r ∧
      r.mInventorySerialNum = result.inventory_serial ∧
      r.mExpectedInventorySerialNum = result.inventory_serial) := by
  constructor
  · refine ⟨processTaskInvObject object msg, ?_, processTaskInvObject_accept object msg hcap hS⟩
    simp [processTaskInv, hfind, ObjectList.set]
  · refine ⟨fetchInventoryFromCapCoroObject obj result, ?_,
      fetchInventoryFromCapCoroObject_ok obj result hok⟩
    simp [fetchInventoryFromCapCoro_resume, hfind2, ObjectList.set]

/-- C5 at a concrete reply: serial 8 arrives while 7 is expected. -/
theorem C5_accepted_result_witness :
    (∃ r, processTaskInv scenarioObjectList
        { task_id := 1, serial := 8, filename := "inv.tmp", new_id := 9 } 1 = some r ∧
      r.mInventorySerialNum = 8 ∧ r.mExpectedInventorySerialNum = 8) ∧
    (∃ r, fetchInventoryFromCapCoro_resume scenarioObjectList 1
        { status := .ok, inventory_serial := 8, contents := none } 1 = some r ∧
      r.mInventorySerialNum = 8 ∧ r.mExpectedInventorySerialNum = 8) :=
  C5_accepted_result_sets_both_serials scenarioObjectList
    { task_id := 1, serial := 8, filename := "inv.tmp", new_id := 9 }
    staleScenarioObject 1 staleScenarioObject
    { status := .ok, inventory_serial := 8, contents := none }
    (by decide) (by decide) (by decide) (by decide) (by decide) (by decide)

/-- C6, as stated, fails: from a state with `mInventorySerialNum <=
mExpectedInventorySerialNum`, the capability branch of `processTaskInv` (reply
with serial 3) and `processTaskInvFile` (file with serial 9 while 7 is
expected) both reach a state where the cached serial exceeds the expected one. -/
theorem C6_invariant_counterexample :
    capObjectAtFive.mInventorySerialNum ≤ capObjectAtFive.mExpectedInventorySerialNum ∧
    ¬ ((processTaskInvObject capObjectAtFive
          { task_id := 1, serial := 3, filename := "inv.tmp", new_id := 9 }).mInventorySerialNum
        ≤ (processTaskInvObject capObjectAtFive
          { task_id := 1, serial := 3, filename := "inv.tmp",
            new_id := 9 }).mExpectedInventorySerialNum) ∧
    staleScenarioObject.mInventorySerialNum ≤ staleScenarioObject.mExpectedInventorySerialNum ∧
    ¬ ((processTaskInvFileObject staleScenarioObject
          { mTaskID := 1, mFilename := "inv.tmp", mSerial := 9 } none).mInventorySerialNum
        ≤ (processTaskInvFileObject staleScenarioObject
          { mTaskID := 1, mFilename := "inv.tmp", mSerial := 9 }
          none).mExpectedInventorySerialNum) := by
  refine ⟨by decide, by decide, by decide, by decide⟩

theorem guessedPermissions_snd (env : InvEnv) (item : LLInventoryObject)
    (new_owner new_group : LLUUID) (group_owned youOwner : Bool) :
    (guessedPermissions env item new_owner new_group group_owned youOwner).2
      = (env.obj_perm.isNone && !group_owned && decide (new_owner = 0)) := by
  unfold guessedPermissions
  cases env.obj_perm <;> cases group_owned <;> by_cases h : new_owner = 0 <;>
    cases youOwner <;> simp [h]

/-- The expected serial after `doUpdateInventory`, branch by branch. -/
theorem doUpdateInventory_expected (env : InvEnv) (o : InvObj) (item : LLInventoryObject)
    (key : Nat) ( is_new : Bool) :
    (doUpdateInventory env o item key is_new).mExpectedInventorySerialNum =
      if !is_new && o.mInventory.isSome then
        if (env.obj_perm.isNone
            && !(match findOldItem env o item key with
                | some old => old.perm.groupOwned
                | none => false)
            && decide ((match findOldItem env o item key with
                | some old => old.perm.owner
                | none => 0) = 0)) then
          wrapS16 (wrapS16 (o.mExpectedInventorySerialNum - 1) + 1)
        else wrapS16 (o.mExpectedInventorySerialNum + 1)
      else if is_new then wrapS16 (o.mExpectedInventorySerialNum + 1)
      else o.mExpectedInventorySerialNum := by
  unfold doUpdateInventory
  dsimp only
  split
  · rw [guessedPermissions_snd]
    split <;> simp
  · split <;> rfl

theorem moveInventory_expected (o : InvObj) (folder_id item_id : LLUUID) :
    (moveInventory o folder_id item_id).mExpectedInventorySerialNum =
      match getInventoryObject o item_id with
      | some item =>
        if item.perm.allowCopyByAgent then o.mExpectedInventorySerialNum
        else wrapS16 (o.mExpectedInventorySerialNum + 1)
      | none => o.mExpectedInventorySerialNum := by
  unfold moveInventory
  have hget : getInventoryObject (o.emit (.sendMoveTaskInventory item_id)) item_id
      = getInventoryObject o item_id := rfl
  dsimp only
  rw [hget]
  cases getInventoryObject o item_id with
  | none => rfl
  | some item =>
    dsimp only
    cases item.perm.allowCopyByAgent <;> simp

/-- C6 (amended): `mInventorySerialNum <= mExpectedInventorySerialNum` holds for
a freshly constructed object and is preserved by `processTaskInv` on the UDP
branch, by the `fetchInventoryFromCapCoro` result handler and, while the
expected serial is below the 16-bit maximum, by `doUpdateInventory`,
`removeInventory` and `moveInventory`. -/
theorem C6_invariant_amended (env : InvEnv) (o : InvObj)
    (hinv : o.mInventorySerialNum ≤ o.mExpectedInventorySerialNum) :
    (∀ id cap, (InvObj.fresh id cap).mInventorySerialNum
        ≤ (InvObj.fresh id cap).mExpectedInventorySerialNum) ∧
    (∀ msg : TaskInvMsg, o.hasTaskInvCap = false →
      (processTaskInvObject o msg).mInventorySerialNum
        ≤ (processTaskInvObject o msg).mExpectedInventorySerialNum) ∧
    (∀ result : CapResult,
      (fetchInventoryFromCapCoroObject o result).mInventorySerialNum
        ≤ (fetchInventoryFromCapCoroObject o result).mExpectedInventorySerialNum) ∧
    (InS16 o.mExpectedInventorySerialNum → o.mExpectedInventorySerialNum < 32767 →
      (∀ item key is_new,
        (doUpdateInventory env o item key is_new).mInventorySerialNum
          ≤ (doUpdateInventory env o item key is_new).mExpectedInventorySerialNum) ∧
      (∀ item_id,
        (removeInventory o item_id).mInventorySerialNum
          ≤ (removeInventory o item_id).mExpectedInventorySerialNum) ∧
      (∀ folder_id item_id,
        (moveInventory o folder_id item_id).mInventorySerialNum
          ≤ (moveInventory o folder_id item_id).mExpectedInventorySerialNum)) := by
  refine ⟨fun _ _ => le_refl _, ?_, ?_, ?_⟩
  · intro msg hcap
    by_cases hS : msg.serial < o.mExpectedInventorySerialNum
    · by_cases heq : msg.serial = o.mInventorySerialNum
      · rw [processTaskInvObject_desync o msg hcap heq hS]
        simp [heq]
      · rw [processTaskInvObject_outdated o msg hcap heq hS]
        simp
        exact le_of_lt hS
    · obtain ⟨h1, h2⟩ := processTaskInvObject_accept o msg hcap (not_lt.mp hS)
      rw [h1, h2]
  · intro result
    cases hst : result.status
    · obtain ⟨h1, h2⟩ := fetchInventoryFromCapCoroObject_ok o result hst
      rw [h1, h2]
    · unfold fetchInventoryFromCapCoroObject
      simp only [hst]
      split <;> simp
    · unfold fetchInventoryFromCapCoroObject
      simp only [hst]
      exact hinv
  · intro hr hmax
    have hsucc := wrapS16_succ hr hmax
    have hps := wrapS16_pred_succ hr
    refine ⟨?_, ?_, ?_⟩
    · intro item key is_new
      rw [doUpdateInventory_serial, doUpdateInventory_expected]
      split
      · split
        · rw [hps]; exact hinv
        · rw [hsucc]; omega
      · split
        · rw [hsucc]; omega
        · exact hinv
    · intro item_id
      simp only [removeInventory, deleteInventoryItem_serial, deleteInventoryItem_expected,
        emit_mInventorySerialNum, emit_mExpectedInventorySerialNum]
      rw [hsucc]; omega
    · intro folder_id item_id
      rw [moveInventory_serial, moveInventory_expected]
      split
      · split
        · exact hinv
        · rw [hsucc]; omega
      · exact hinv

/-- The amended C6 on the scenario object: an out-of-date reply on the UDP
branch keeps the cached serial at or below the expected one. -/
theorem C6_invariant_amended_witness :
    (processTaskInvObject staleScenarioObject
        { task_id := 1, serial := 3, filename := "inv.tmp", new_id := 9 }).mInventorySerialNum
      ≤ (processTaskInvObject staleScenarioObject
        { task_id := 1, serial := 3, filename := "inv.tmp",
          new_id := 9 }).mExpectedInventorySerialNum :=
  (C6_invariant_amended noPermEnv staleScenarioObject (by decide)).2.1
    { task_id := 1, serial := 3, filename := "inv.tmp", new_id := 9 } (by decide)

/-- C7, as stated, fails: `updateInventory` with `is_new = false` leaves the
expected serial as it is when no inventory list is cached, and also when the
list is cached but the owner has to be guessed; `moveInventory` leaves it as it
is for an item that is not in the cache. -/
theorem C7_expected_bump_counterexample :
    (updateInventory noPermEnv staleUnloadedObject plainItem noPermEnv.TASK_INVENTORY_ITEM_KEY
        false).mExpectedInventorySerialNum
      = staleUnloadedObject.mExpectedInventorySerialNum ∧
    (updateInventory noPermEnv staleScenarioObject plainItem noPermEnv.TASK_INVENTORY_ITEM_KEY
        false).mExpectedInventorySerialNum
      = staleScenarioObject.mExpectedInventorySerialNum ∧
    (moveInventory staleScenarioObject 30 10).mExpectedInventorySerialNum
      = staleScenarioObject.mExpectedInventorySerialNum := by
  refine ⟨by decide, by decide, by decide⟩

/-- C7 (amended): as 16-bit values below the maximum, `removeInventory` and
`updateInventory` with `is_new = true` raise `mExpectedInventorySerialNum` by
one; `updateInventory` with `is_new = false` raises it by one when a list is
cached and the owner is known (object permissions found, or the replaced entry
is group owned or has an owner), and leaves it as it is when no list is cached
or the owner is guessed; `moveInventory` raises it by one when the item is in
the cache and the agent may not copy it, and leaves it as it is otherwise. -/
theorem C7_expected_bump_amended (env : InvEnv) (o : InvObj)
    (hr : InS16 o.mExpectedInventorySerialNum)
    (hmax : o.mExpectedInventorySerialNum < 32767) :
    (∀ item_id,
      (removeInventory o item_id).mExpectedInventorySerialNum
        = o.mExpectedInventorySerialNum + 1) ∧
    (∀ item key,
      (updateInventory env o item key true).mExpectedInventorySerialNum
        = o.mExpectedInventorySerialNum + 1) ∧
    (∀ item key, o.mInventory = none →
      (updateInventory env o item key false).mExpectedInventorySerialNum
        = o.mExpectedInventorySerialNum) ∧
    (∀ item key, o.mInventory.isSome = true →
      (env.obj_perm.isSome = true ∨
        ∃ old, findOldItem env o item key = some old ∧
          (old.perm.groupOwned = true ∨ old.perm.owner ≠ 0)) →
      (updateInventory env o item key false).mExpectedInventorySerialNum
        = o.mExpectedInventorySerialNum + 1) ∧
    (∀ item key, o.mInventory.isSome = true → env.obj_perm = none →
      (∀ old, findOldItem env o item key = some old →
        old.perm.groupOwned = false ∧ old.perm.owner = 0) →
      (updateInventory env o item key false).mExpectedInventorySerialNum
        = o.mExpectedInventorySerialNum) ∧
    (∀ folder_id item_id item, getInventoryObject o item_id = some item →
      item.perm.allowCopyByAgent = false →
      (moveInventory o folder_id item_id).mExpectedInventorySerialNum
        = o.mExpectedInventorySerialNum + 1) ∧
    (∀ folder_id item_id,
      (getInventoryObject o item_id = none ∨
        ∃ item, getInventoryObject o item_id = some item ∧
          item.perm.allowCopyByAgent = true) →
      (moveInventory o folder_id item_id).mExpectedInventorySerialNum
        = o.mExpectedInventorySerialNum) := by
  have hsucc := wrapS16_succ hr hmax
  have hps := wrapS16_pred_succ hr
  have hupd : ∀ item key is_new,
      (updateInventory env o item key is_new).mExpectedInventorySerialNum
        = (doUpdateInventory env o item key is_new).mExpectedInventorySerialNum := by
    intro item key is_new
    unfold updateInventory
    rw [doUpdateInventory_expected, doUpdateInventory_expected]
    rfl
  refine ⟨?_, ?_, ?_, ?_, ?_, ?_, ?_⟩
  · intro item_id
    simp only [removeInventory, deleteInventoryItem_expected, emit_mExpectedInventorySerialNum]
    exact hsucc
  · intro item key
    rw [hupd, doUpdateInventory_expected]
    simp [hsucc]
  · intro item key hnone
    rw [hupd, doUpdateInventory_expected]
    simp [hnone]
  · intro item key hsome hknown
    rw [hupd, doUpdateInventory_expected]
    simp only [hsome, Bool.not_false, Bool.and_self, if_true]
    rw [if_neg, hsucc]
    rcases hknown with hp | ⟨old, hold, hg | ho⟩
    · cases hperm : env.obj_perm <;> simp_all
    · simp [hold, hg]
    · simp [hold, ho]
  · intro item key hsome hperm hold
    rw [hupd, doUpdateInventory_expected]
    simp only [hsome, Bool.not_false, Bool.and_self, if_true]
    rw [if_pos, hps]
    cases hf : findOldItem env o item key with
    | none => simp [hperm]
    | some old =>
      obtain ⟨hg, ho⟩ := hold old hf
      simp [hperm, hg, ho]
  · intro folder_id item_id item hget hcopy
    rw [moveInventory_expected, hget]
    simp [hcopy, hsucc]
  · intro folder_id item_id h
    rw [moveInventory_expected]
    rcases h with hnone | ⟨item, hget, hcopy⟩
    · rw [hnone]
    · rw [hget]
      simp [hcopy]

/-- The amended C7 on the scenario object: removing an item raises the expected
serial from 7 to 8. -/
theorem C7_expected_bump_amended_witness :
    (removeInventory staleScenarioObject 10).mExpectedInventorySerialNum
      = staleScenarioObject.mExpectedInventorySerialNum + 1 :=
  (C7_expected_bump_amended noPermEnv staleScenarioObject (by decide) (by decide)).1 10

/-! ## Motion extrapolation: facts -/

theorem LLVector3.add_def (a b : LLVector3) :
    a + b = ⟨a.x + b.x, a.y + b.y, a.z + b.z⟩ := rfl

theorem LLVector3.scale_zero_left (a : LLVector3) : LLVector3.scale 0 a = LLVector3.zero := by
  simp [LLVector3.scale, LLVector3.zero]

theorem LLVector3.scale_zero_right (k : ℚ) : LLVector3.scale k LLVector3.zero = LLVector3.zero := by
  simp [LLVector3.scale, LLVector3.zero]

theorem LLVector3.zero_add (a : LLVector3) : LLVector3.zero + a = a := by
  simp [LLVector3.add_def, LLVector3.zero]

@[simp] theorem setChanged_position (o : MotionObj) (f : List ChangeFlag) :
    (o.setChanged f).position = o.position := rfl

@[simp] theorem setChanged_velocity (o : MotionObj) (f : List ChangeFlag) :
    (o.setChanged f).velocity = o.velocity := rfl

theorem setPositionRegion_some (o : MotionObj) (pos : LLVector3) (h : o.hasRegion = true) :
    ∃ r, o.setPositionRegion pos = some r ∧ r.position = pos ∧ r.velocity = o.velocity := by
  unfold MotionObj.setPositionRegion
  rw [if_pos h]
  refine ⟨_, rfl, rfl, ?_⟩
  dsimp only
  split <;> rfl

/-- The bounded path of `interpolateLinearMotion` when the clamped prediction
stays inside the region: the object ends at the height-clamped prediction with
the predicted velocity. -/
theorem interpolateLinearMotion_inside (env : MotionEnv) (o : MotionObj) (frame_time dt : ℚ)
    (hreg : o.hasRegion = true)
    (hrun : ¬ (frame_time - o.mLastMessageUpdateSecs ≤ 0 ∨ dt ≤ 0))
    (hmax : ¬ env.sMaxUpdateInterpolationTime ≤ 0)
    (hmov : (!o.acceleration.isExactlyZero || !o.velocity.isExactlyZero) = true)
    (hedge : env.clamp
      ⟨(clampHeight env o ((predictedDeltas env o frame_time dt).1 + o.position)).x,
       (clampHeight env o ((predictedDeltas env o frame_time dt).1 + o.position)).y, 0⟩
      0 env.regionWidth = false) :
    ∃ r, interpolateLinearMotion env o frame_time dt = some r ∧
      r.position = clampHeight env o ((predictedDeltas env o frame_time dt).1 + o.position) ∧
      r.velocity = (predictedDeltas env o frame_time dt).2 + o.velocity := by
  have hnreg : (!o.hasRegion) = false := by rw [hreg]; rfl
  unfold interpolateLinearMotion
  simp only [if_neg hrun, if_neg hmax, hmov, if_true, hnreg, Bool.false_eq_true,
    if_false, MotionObj.getPositionRegion, hedge]
  obtain ⟨r, hr, hp, hv⟩ := setPositionRegion_some { o with mRegionCrossExpire := 0 }
    (clampHeight env o ((predictedDeltas env o frame_time dt).1 + o.position)) hreg
  rw [hr]
  exact ⟨_, rfl, by simpa using hp, by simp⟩

/-- Past the maximum interpolation time an engaged decay scales both predicted
deltas to zero. -/
theorem predictedDeltas_past_max (env : MotionEnv) (o : MotionObj) (frame_time dt : ℚ)
    (hsince : frame_time - o.mLastMessageUpdateSecs > env.sMaxUpdateInterpolationTime)
    (hdecay : decayEngaged env o frame_time = true) :
    predictedDeltas env o frame_time dt = (LLVector3.zero, LLVector3.zero) := by
  have hf : phaseOutFactor env o frame_time = 0 := by
    unfold phaseOutFactor
    simp [if_pos hsince, llclamp]
  unfold predictedDeltas
  simp only [hdecay, if_true, hf, LLVector3.scale_zero_left]

/-- With zero acceleration the predicted velocity increment is zero, decayed or
not. -/
theorem predictedDeltas_zero_accel (env : MotionEnv) (o : MotionObj) (frame_time dt : ℚ)
    (ha : o.acceleration = LLVector3.zero) :
    (predictedDeltas env o frame_time dt).2 = LLVector3.zero := by
  unfold predictedDeltas
  dsimp only
  split <;> simp [ha, LLVector3.scale_zero_right]

/-! ## Motion extrapolation: the claims -/

/-- C8, as stated, fails: in the scenario the step at 3.5 s, past the 3.0 s
limit and with the circuit dead, leaves the velocity at (1,0,0), not at zero. -/
theorem C8_velocity_counterexample :
    (interpolateLinearMotion (scenarioEnv (some deadCircuit) (7 / 2)) scenarioObjAt3
        (7 / 2) (1 / 2)).map (fun r => r.velocity) = some ⟨1, 0, 0⟩ ∧
    (⟨1, 0, 0⟩ : LLVector3) ≠ LLVector3.zero := by
  refine ⟨by decide!, by decide!⟩

/-- C8 (amended): for a moving object with zero acceleration, a step taken when
the time since the last server update exceeds `sMaxUpdateInterpolationTime`,
with the clamped prediction inside the region, leaves the velocity equal to
its value before the step, which is not zero. -/
theorem C8_velocity_amended (env : MotionEnv) (o : MotionObj) (frame_time dt : ℚ)
    (hreg : o.hasRegion = true)
    (hdt : 0 < dt)
    (hmax : 0 < env.sMaxUpdateInterpolationTime)
    (hsince : frame_time - o.mLastMessageUpdateSecs > env.sMaxUpdateInterpolationTime)
    (ha : o.acceleration = LLVector3.zero)
    (hv : o.velocity ≠ LLVector3.zero)
    (hedge : env.clamp
      ⟨(clampHeight env o ((predictedDeltas env o frame_time dt).1 + o.position)).x,
       (clampHeight env o ((predictedDeltas env o frame_time dt).1 + o.position)).y, 0⟩
      0 env.regionWidth = false) :
    ∃ r, interpolateLinearMotion env o frame_time dt = some r ∧
      r.velocity = o.velocity ∧ r.velocity ≠ LLVector3.zero := by
  have hrun : ¬ (frame_time - o.mLastMessageUpdateSecs ≤ 0 ∨ dt ≤ 0) := by
    intro h
    rcases h with h | h
    · exact absurd (lt_trans hmax hsince) (not_lt.mpr h)
    · exact absurd hdt (not_lt.mpr h)
  have hmov : (!o.acceleration.isExactlyZero || !o.velocity.isExactlyZero) = true := by
    have : o.velocity.isExactlyZero = false := by
      cases hz : o.velocity.isExactlyZero
      · rfl
      · exfalso
        apply hv
        unfold LLVector3.isExactlyZero at hz
        have := of_decide_eq_true hz
        cases hvel : o.velocity with
        | mk x y z =>
          rw [hvel] at this
          simp only [LLVector3.zero, LLVector3.mk.injEq]
          exact this
    simp [this]
  obtain ⟨r, hr, _, hvel⟩ :=
    interpolateLinearMotion_inside env o frame_time dt hreg hrun (not_le.mpr hmax) hmov hedge
  refine ⟨r, hr, ?_, ?_⟩
  · rw [hvel, predictedDeltas_zero_accel env o frame_time dt ha, LLVector3.zero_add]
  · rw [hvel, predictedDeltas_zero_accel env o frame_time dt ha, LLVector3.zero_add]
    exact hv

/-- The amended C8 at the scenario, with the circuit dead. -/
theorem C8_velocity_amended_witness :
    ∃ r, interpolateLinearMotion (scenarioEnv (some deadCircuit) (7 / 2)) scenarioObjAt3
        (7 / 2) (1 / 2) = some r ∧
      r.velocity = scenarioObjAt3.velocity ∧ r.velocity ≠ LLVector3.zero :=
  C8_velocity_amended (scenarioEnv (some deadCircuit) (7 / 2)) scenarioObjAt3 (7 / 2) (1 / 2)
    (by decide!) (by decide!) (by decide!) (by decide!) (by decide!) (by decide!) (by decide!)

/-- C9, as stated, fails: in the scenario, with the circuit alive and a packet
received at 3.5 s, the step at 3.5 s moves the entity on to (10.5,10,0); the
same happens when no circuit is found for the region's host. -/
theorem C9_position_counterexample :
    (interpolateLinearMotion (scenarioEnv (some (liveCircuit (7 / 2))) (7 / 2)) scenarioObjAt3
        (7 / 2) (1 / 2)).map (fun r => r.position) = some ⟨21 / 2, 10, 0⟩ ∧
    (interpolateLinearMotion (scenarioEnv none (7 / 2)) scenarioObjAt3
        (7 / 2) (1 / 2)).map (fun r => r.position) = some ⟨21 / 2, 10, 0⟩ ∧
    (⟨21 / 2, 10, 0⟩ : LLVector3) ≠ scenarioObjAt3.position := by
  refine ⟨by decide!, by decide!, by decide!⟩

/-- C9 (amended): when the time since the last server update exceeds
`sMaxUpdateInterpolationTime` and the circuit of the region's host is found
and is dead, blocked or without a packet for longer than the phase-out time,
a step leaves the region position where it was, provided that position is
within the height limits and inside the region; so in the scenario, with such
a circuit, the position at 3.5 s is the one reached at 3.0 s. -/
theorem C9_position_amended (env : MotionEnv) (o : MotionObj) (frame_time dt : ℚ)
    (hreg : o.hasRegion = true)
    (hdt : 0 < dt)
    (hphase : 0 < env.sPhaseOutUpdateInterpolationTime)
    (horder : env.sPhaseOutUpdateInterpolationTime ≤ env.sMaxUpdateInterpolationTime)
    (hsince : frame_time - o.mLastMessageUpdateSecs > env.sMaxUpdateInterpolationTime)
    (hcircuit : ∃ cdp, env.findCircuit = some cdp ∧
      (cdp.isAlive = false ∨ cdp.isBlocked = true ∨
        env.messageTimeSeconds - cdp.lastPacketInTime > env.sPhaseOutUpdateInterpolationTime))
    (hheight : clampHeight env o o.position = o.position)
    (hedge : env.clamp ⟨o.position.x, o.position.y, 0⟩ 0 env.regionWidth = false) :
    ∃ r, interpolateLinearMotion env o frame_time dt = some r ∧ r.position = o.position := by
  have hmax : 0 < env.sMaxUpdateInterpolationTime := lt_of_lt_of_le hphase horder
  have hrun : ¬ (frame_time - o.mLastMessageUpdateSecs ≤ 0 ∨ dt ≤ 0) := by
    intro h
    rcases h with h | h
    · exact absurd (lt_trans hmax hsince) (not_lt.mpr h)
    · exact absurd hdt (not_lt.mpr h)
  by_cases hmov : (!o.acceleration.isExactlyZero || !o.velocity.isExactlyZero) = true
  · have hdecay : decayEngaged env o frame_time = true := by
      obtain ⟨cdp, hc, hcond⟩ := hcircuit
      unfold decayEngaged
      have h1 : frame_time - o.mLastMessageUpdateSecs > env.sPhaseOutUpdateInterpolationTime :=
        lt_of_le_of_lt horder hsince
      simp only [hc, hreg, decide_eq_true h1, decide_eq_true hphase, Bool.and_self,
        Bool.true_and]
      rcases hcond with h | h | h
      · simp [h]
      · simp [h]
      · simp [decide_eq_true h]
    have hd := predictedDeltas_past_max env o frame_time dt hsince hdecay
    have hq : (predictedDeltas env o frame_time dt).1 + o.position = o.position := by
      rw [hd]
      exact LLVector3.zero_add _
    have hedge2 : env.clamp
        ⟨(clampHeight env o ((predictedDeltas env o frame_time dt).1 + o.position)).x,
         (clampHeight env o ((predictedDeltas env o frame_time dt).1 + o.position)).y, 0⟩
        0 env.regionWidth = false := by
      rw [hq, hheight]
      exact hedge
    obtain ⟨r, hr, hpos, _⟩ :=
      interpolateLinearMotion_inside env o frame_time dt hreg hrun (not_le.mpr hmax) hmov hedge2
    exact ⟨r, hr, by rw [hpos, hq, hheight]⟩
  · refine ⟨{ o with mLastInterpUpdateSecs := frame_time }, ?_, rfl⟩
    unfold interpolateLinearMotion
    simp only [if_neg hrun, if_neg (not_le.mpr hmax), hmov, Bool.false_eq_true, if_false]

/-- The amended C9 at the scenario: with the circuit dead, the position at
3.5 s is the position (10,10,0) the entity had after the frame at 3.0 s. -/
theorem C9_position_amended_witness :
    ∃ r, interpolateLinearMotion (scenarioEnv (some deadCircuit) (7 / 2)) scenarioObjAt3
        (7 / 2) (1 / 2) = some r ∧ r.position = scenarioObjAt3.position :=
  C9_position_amended (scenarioEnv (some deadCircuit) (7 / 2)) scenarioObjAt3 (7 / 2) (1 / 2)
    (by decide!) (by decide!) (by decide!) (by decide!) (by decide!)
    ⟨deadCircuit, rfl, Or.inl rfl⟩ (by decide!) (by decide!)

/-- Below the phase-out time the decay is not engaged. -/
theorem decayEngaged_false_of_le (env : MotionEnv) (o : MotionObj) (frame_time : ℚ)
    (h : frame_time - o.mLastMessageUpdateSecs ≤ env.sPhaseOutUpdateInterpolationTime) :
    decayEngaged env o frame_time = false := by
  unfold decayEngaged
  simp [decide_eq_false (not_lt.mpr h)]

/-- C10: a step with `dt > 0`, taken after the last server update and no later
than `sPhaseOutUpdateInterpolationTime` after it, with no height or region-edge
clamping applying to the predicted position, puts the object at
`p + (v + 0.5*(dt - PHYSICS_TIMESTEP)*a)*dt` with velocity `v + a*dt`,
where `PHYSICS_TIMESTEP = 1/45`. -/
theorem C10_prediction_formula (env : MotionEnv) (o : MotionObj) (frame_time dt : ℚ)
    (q : LLVector3)
    (hq : q = ⟨o.position.x + (o.velocity.x + 1 / 2 * (dt - 1 / 45) * o.acceleration.x) * dt,
               o.position.y + (o.velocity.y + 1 / 2 * (dt - 1 / 45) * o.acceleration.y) * dt,
               o.position.z + (o.velocity.z + 1 / 2 * (dt - 1 / 45) * o.acceleration.z) * dt⟩)
    (hreg : o.hasRegion = true)
    (hdt : 0 < dt)
    (hafter : 0 < frame_time - o.mLastMessageUpdateSecs)
    (hphase : frame_time - o.mLastMessageUpdateSecs ≤ env.sPhaseOutUpdateInterpolationTime)
    (hheight : clampHeight env o q = q)
    (hedge : env.clamp ⟨q.x, q.y, 0⟩ 0 env.regionWidth = false) :
    ∃ r, interpolateLinearMotion env o frame_time dt = some r ∧
      r.position = q ∧
      r.velocity = ⟨o.velocity.x + o.acceleration.x * dt,
                    o.velocity.y + o.acceleration.y * dt,
                    o.velocity.z + o.acceleration.z * dt⟩ ∧
      PHYSICS_TIMESTEP = 1 / 45 := by
  have hrun : ¬ (frame_time - o.mLastMessageUpdateSecs ≤ 0 ∨ dt ≤ 0) := by
    intro h
    rcases h with h | h
    · exact absurd hafter (not_lt.mpr h)
    · exact absurd hdt (not_lt.mpr h)
  have hpos : LLVector3.scale dt
        (o.velocity + LLVector3.scale (1 / 2 * (dt - PHYSICS_TIMESTEP)) o.acceleration)
      + o.position = q := by
    rw [hq]
    simp only [LLVector3.add_def, LLVector3.scale, PHYSICS_TIMESTEP, LLVector3.mk.injEq]
    refine ⟨by ring, by ring, by ring⟩
  have hvel : LLVector3.scale dt o.acceleration + o.velocity
      = ⟨o.velocity.x + o.acceleration.x * dt, o.velocity.y + o.acceleration.y * dt,
         o.velocity.z + o.acceleration.z * dt⟩ := by
    simp only [LLVector3.add_def, LLVector3.scale, LLVector3.mk.injEq]
    refine ⟨by ring, by ring, by ring⟩
  by_cases hmov : (!o.acceleration.isExactlyZero || !o.velocity.isExactlyZero) = true
  · by_cases hmax : env.sMaxUpdateInterpolationTime ≤ 0
    · -- the unbounded path
      have hmov2 : (!(o.acceleration.isExactlyZero && o.velocity.isExactlyZero)) = true := by
        rw [Bool.not_and]
        exact hmov
      obtain ⟨r, hr, hrp, hrv⟩ := setPositionRegion_some o q hreg
      have hpos2 : LLVector3.scale dt
            (o.velocity + LLVector3.scale (1 / 2 * (dt - PHYSICS_TIMESTEP)) o.acceleration)
          + o.getPositionRegion = q := hpos
      have hvel2 : o.velocity + LLVector3.scale dt o.acceleration
          = ⟨o.velocity.x + o.acceleration.x * dt, o.velocity.y + o.acceleration.y * dt,
             o.velocity.z + o.acceleration.z * dt⟩ := by
        simp only [LLVector3.add_def, LLVector3.scale, LLVector3.mk.injEq]
        refine ⟨by ring, by ring, by ring⟩
      unfold interpolateLinearMotion
      simp only [if_neg hrun, if_pos hmax, hmov2, if_true, hpos2, hr, hvel2]
      exact ⟨_, rfl, by simpa using hrp, rfl, rfl⟩
    · have hd : predictedDeltas env o frame_time dt
          = (LLVector3.scale dt
              (o.velocity + LLVector3.scale (1 / 2 * (dt - PHYSICS_TIMESTEP)) o.acceleration),
             LLVector3.scale dt o.acceleration) := by
        unfold predictedDeltas
        simp only [decayEngaged_false_of_le env o frame_time hphase, Bool.false_eq_true,
          if_false]
      have hedge2 : env.clamp
          ⟨(clampHeight env o ((predictedDeltas env o frame_time dt).1 + o.position)).x,
           (clampHeight env o ((predictedDeltas env o frame_time dt).1 + o.position)).y, 0⟩
          0 env.regionWidth = false := by
        rw [hd]
        dsimp only
        rw [hpos, hheight]
        exact hedge
      obtain ⟨r, hr, hrp, hrv⟩ :=
        interpolateLinearMotion_inside env o frame_time dt hreg hrun hmax hmov hedge2
      refine ⟨r, hr, ?_, ?_, rfl⟩
      · rw [hrp, hd]
        dsimp only
        rw [hpos, hheight]
      · rw [hrv, hd]
        exact hvel
  · -- an object at rest stays where it is
    have hz : o.acceleration.isExactlyZero = true ∧ o.velocity.isExactlyZero = true := by
      cases ha : o.acceleration.isExactlyZero <;> cases hv : o.velocity.isExactlyZero <;>
        simp [ha, hv] at hmov ⊢
    have ha : o.acceleration = LLVector3.zero := by
      have := of_decide_eq_true hz.1
      cases hacc : o.acceleration with
      | mk x y z =>
        rw [hacc] at this
        simp only [LLVector3.zero, LLVector3.mk.injEq]
        exact this
    have hv : o.velocity = LLVector3.zero := by
      have := of_decide_eq_true hz.2
      cases hvl : o.velocity with
      | mk x y z =>
        rw [hvl] at this
        simp only [LLVector3.zero, LLVector3.mk.injEq]
        exact this
    have hqp : q = o.position := by
      rw [hq, ha, hv]
      simp [LLVector3.zero]
    have hvv : o.velocity = ⟨o.velocity.x + o.acceleration.x * dt,
        o.velocity.y + o.acceleration.y * dt, o.velocity.z + o.acceleration.z * dt⟩ := by
      rw [ha, hv]
      simp [LLVector3.zero]
    have hmov2 : (!(o.acceleration.isExactlyZero && o.velocity.isExactlyZero)) = false := by
      simp [hz.1, hz.2]
    refine ⟨{ o with mLastInterpUpdateSecs := frame_time }, ?_, hqp.symm, hvv, rfl⟩
    unfold interpolateLinearMotion
    simp only [if_neg hrun, hmov, hmov2, Bool.false_eq_true, if_false]
    split <;> rfl

/-- C10 at a concrete step: half a second on from the state at 1.0 s, with an
upward acceleration of 1. -/
theorem C10_prediction_formula_witness :
    ∃ r, interpolateLinearMotion (scenarioEnv none (3 / 2)) scenarioObjAt1 (3 / 2) (1 / 2)
        = some r ∧
      r.position = ⟨21 / 2, 10, 43 / 360⟩ ∧
      r.velocity = ⟨scenarioObjAt1.velocity.x + scenarioObjAt1.acceleration.x * (1 / 2),
                    scenarioObjAt1.velocity.y + scenarioObjAt1.acceleration.y * (1 / 2),
                    scenarioObjAt1.velocity.z + scenarioObjAt1.acceleration.z * (1 / 2)⟩ ∧
      PHYSICS_TIMESTEP = 1 / 45 :=
  C10_prediction_formula (scenarioEnv none (3 / 2)) scenarioObjAt1 (3 / 2) (1 / 2)
    ⟨21 / 2, 10, 43 / 360⟩ (by decide!) (by decide!) (by decide!) (by decide!) (by decide!)
    (by decide!) (by decide!)

/-! ## Object updates: the claims -/

/-- C1, as stated, fails: B is A's child and a full update for A declares B's
local id as A's parent; the call detaches B, attaches A under B and kills
nothing. -/
theorem C1_cycle_counterexample :
    (cycleWorld.topo 2).mParent = some 1 ∧ 2 ∈ (cycleWorld.topo 1).mChildList ∧
    ((cycleWorld.topo 1).mDead = false ∧ (cycleWorld.topo 2).mDead = false) ∧
    plainUpdateEnv.findObjectFromLocal (cycleWorld.topo 2).mLocalID = some 2 ∧
    (processUpdateMessage plainUpdateEnv cycleWorld 1 (fullUpdate 200 12 0 0)).map
        (fun r => ((r.1.topo 1).mParent, (r.1.topo 2).mChildList, (r.1.topo 2).mParent,
          r.1.killed, r.1.cacheMissFull))
      = some (some 2, [1], none, [], []) := by
  refine ⟨by decide!, by decide!, by decide!, by decide!, by decide!⟩

/-- C2 at a failing input: the third object last applied packet 100 and now
receives a raw full update carried by packet 50 that declares A as parent. The
call returns at the packet check, and by then it has overwritten the velocity,
the flags and the attachment state and has attached the object under A; only
`mLatestRecvPacketID` and the position are left alone. -/
theorem C2_old_packet_changes_state :
    (50 < (cycleWorld.st 3).mLatestRecvPacketID ∧
      (cycleWorld.st 3).mLatestRecvPacketID - 50 < 65536) ∧
    ((cycleWorld.st 3).velocity, (cycleWorld.st 3).mFlags, (cycleWorld.st 3).mAttachmentState,
        (cycleWorld.topo 3).mParent)
      = (LLVector3.zero, 0, 0, none) ∧
    (processUpdateMessage plainUpdateEnv cycleWorld 3 (fullUpdate 50 11 4 7)).map
        (fun r => ((r.1.st 3).velocity, (r.1.st 3).mFlags, (r.1.st 3).mAttachmentState,
          (r.1.topo 3).mParent, (r.1.st 3).mLatestRecvPacketID, (r.1.st 3).position))
      = some (⟨1, 0, 0⟩, 4, 7, some 1, 100, LLVector3.zero) := by
  refine ⟨by decide!, by decide!, by decide!⟩

/-! ## Scene graph: facts -/

@[simp] theorem setTopo_topo_self (w : World) (h : Handle) (t : Topo) :
    (w.setTopo h t).topo h = t := by
  simp [World.setTopo]

theorem setTopo_topo_other (w : World) (h i : Handle) (t : Topo) (hne : i ≠ h) :
    (w.setTopo h t).topo i = w.topo i := by
  simp [World.setTopo, hne]

@[simp] theorem setTopo_maxChain (w : World) (h : Handle) (t : Topo) :
    (w.setTopo h t).maxChain = w.maxChain := rfl

@[simp] theorem setTopo_killed (w : World) (h : Handle) (t : Topo) :
    (w.setTopo h t).killed = w.killed := rfl

@[simp] theorem setTopo_cacheMissFull (w : World) (h : Handle) (t : Topo) :
    (w.setTopo h t).cacheMissFull = w.cacheMissFull := rfl

@[simp] theorem setTopo_st (w : World) (h : Handle) (t : Topo) :
    (w.setTopo h t).st = w.st := rfl

@[simp] theorem setSt_topo (w : World) (h : Handle) (s : ObjState) :
    (w.setSt h s).topo = w.topo := rfl

@[simp] theorem setSt_maxChain (w : World) (h : Handle) (s : ObjState) :
    (w.setSt h s).maxChain = w.maxChain := rfl

@[simp] theorem setSt_killed (w : World) (h : Handle) (s : ObjState) :
    (w.setSt h s).killed = w.killed := rfl

@[simp] theorem setSt_cacheMissFull (w : World) (h : Handle) (s : ObjState) :
    (w.setSt h s).cacheMissFull = w.cacheMissFull := rfl

@[simp] theorem setChanged_topo (w : World) (h : Handle) (f : List ChangeFlag) :
    (w.setChanged h f).topo = w.topo := rfl

@[simp] theorem setChanged_killed (w : World) (h : Handle) (f : List ChangeFlag) :
    (w.setChanged h f).killed = w.killed := rfl

@[simp] theorem setChanged_cacheMissFull (w : World) (h : Handle) (f : List ChangeFlag) :
    (w.setChanged h f).cacheMissFull = w.cacheMissFull := rfl

theorem SameLinks.refl (w : World) : SameLinks w w :=
  ⟨fun _ => rfl, fun _ => rfl, fun _ => rfl, fun _ => rfl, rfl, rfl, rfl⟩

theorem SameLinks.trans {w w1 w2 : World} (h1 : SameLinks w w1) (h2 : SameLinks w1 w2) :
    SameLinks w w2 :=
  ⟨fun h => (h2.parent h).trans (h1.parent h), fun h => (h2.children h).trans (h1.children h),
   fun h => (h2.dead h).trans (h1.dead h), fun h => (h2.localID h).trans (h1.localID h),
   h2.maxChain.trans h1.maxChain, h2.killed.trans h1.killed,
   h2.cacheMissFull.trans h1.cacheMissFull⟩

/-- Replacing the drawable of one object keeps the links. -/
theorem sameLinks_setDrawable (w : World) (h : Handle) (d : Option Drawable) :
    SameLinks w (w.setTopo h { w.topo h with mDrawable := d }) := by
  refine ⟨?_, ?_, ?_, ?_, rfl, rfl, rfl⟩ <;> intro i <;> by_cases hi : i = h <;>
    simp [World.setTopo, hi]

/-- `setDrawableParent` only touches the drawable of the object it is called
on. -/
theorem setDrawableParent_sameLinks (w : World) (self : Handle) (parentp : Option Handle)
    (w1 : World) (ok : Bool) (h : setDrawableParent w self parentp = some (w1, ok)) :
    SameLinks w w1 := by
  unfold setDrawableParent at h
  split at h
  · cases h
    exact SameLinks.refl w
  · dsimp only at h
    split at h
    · cases h
    · cases h
      exact SameLinks.refl w
    · cases h
      exact sameLinks_setDrawable w self _

/-- `setDrawableParent(NULL)` always returns, and leaves a drawable without
transform parent. -/
theorem setDrawableParent_null (w : World) (self : Handle) :
    ∃ w1 ok, setDrawableParent w self none = some (w1, ok) ∧
      (∀ d, (w1.topo self).mDrawable = some d → d.xformParent = none) ∧
      ((w1.topo self).mDrawable.isSome = (w.topo self).mDrawable.isSome) ∧
      (∀ i, i ≠ self → w1.topo i = w.topo i) := by
  unfold setDrawableParent
  cases hd : (w.topo self).mDrawable with
  | none =>
    refine ⟨w, false, rfl, ?_, hd.symm ▸ rfl, fun _ _ => rfl⟩
    intro d hd2
    rw [hd] at hd2
    cases hd2
  | some d =>
    have hok : xformSetParentOk
        (fun h => match (w.topo h).mDrawable with
          | some dh => dh.xformParent
          | none => none) w.maxChain self none = some true := by
      unfold xformSetParentOk
      split <;> rfl
    simp only [hok]
    refine ⟨_, true, rfl, ?_, ?_, ?_⟩
    · intro d2 hd2
      simp at hd2
      rw [← hd2]
    · simp
    · intro i hi
      exact setTopo_topo_other w self i _ hi

/-- `removeChild` on a child that is in the list and points back: the child
ends without parent, its entry is erased, nothing else about the links
changes. -/
theorem removeChild_detach (w : World) (a b : Handle) (hab : a ≠ b)
    (hchild : b ∈ (w.topo a).mChildList) (hparent : (w.topo b).mParent = some a) :
    ((removeChild w a b).topo b).mParent = none ∧
    ((removeChild w a b).topo a).mParent = (w.topo a).mParent ∧
    ((removeChild w a b).topo b).mChildList = (w.topo b).mChildList ∧
    ((removeChild w a b).topo b).mDead = (w.topo b).mDead ∧
    (∀ h, ((removeChild w a b).topo h).mDrawable = (w.topo h).mDrawable) ∧
    (∀ h, ((removeChild w a b).topo h).mLocalID = (w.topo h).mLocalID) ∧
    (removeChild w a b).maxChain = w.maxChain ∧
    (removeChild w a b).killed = w.killed ∧
    (removeChild w a b).cacheMissFull = w.cacheMissFull := by
  have hba : b ≠ a := fun h => hab h.symm
  have hp1 : ((w.setTopo a
      { w.topo a with mChildList := (w.topo a).mChildList.erase b }).topo b).mParent
      = some a := by
    rw [setTopo_topo_other _ _ _ _ hba]
    exact hparent
  unfold removeChild
  rw [if_pos hchild]
  simp only [hp1, if_true, setParentNull, ne_eq, reduceCtorEq, not_false_eq_true]
  split
  · refine ⟨?_, ?_, ?_, ?_, ?_, ?_, rfl, rfl, rfl⟩
    · simp [World.setTopo, hba, hab]
    · simp [World.setTopo, hba, hab]
    · simp [World.setTopo, hba, hab]
    · simp [World.setTopo, hba, hab]
    · intro h
      by_cases h1 : h = a <;> by_cases h2 : h = b <;> simp [World.setTopo, h1, h2, hab, hba]
    · intro h
      by_cases h1 : h = a <;> by_cases h2 : h = b <;> simp [World.setTopo, h1, h2, hab, hba]
  · refine ⟨?_, ?_, ?_, ?_, ?_, ?_, rfl, rfl, rfl⟩
    · simp [World.setTopo, hba, hab]
    · simp [World.setTopo, hba, hab]
    · simp [World.setTopo, hba, hab]
    · simp [World.setTopo, hba, hab]
    · intro h
      by_cases h1 : h = a <;> by_cases h2 : h = b <;> simp [World.setTopo, h1, h2, hab, hba]
    · intro h
      by_cases h1 : h = a <;> by_cases h2 : h = b <;> simp [World.setTopo, h1, h2, hab, hba]

/-- `addChild` of a parentless object under a parentless object that does not
list it yet: the child is linked both ways and nothing is logged. -/
theorem addChild_attach (w : World) (a b : Handle) (hab : a ≠ b)
    (ha : (w.topo a).mParent = none) (hb : (w.topo b).mParent = none)
    (hnot : a ∉ (w.topo b).mChildList) :
    ∃ w3, addChild w b a = some w3 ∧
      (w3.topo a).mParent = some b ∧ (w3.topo b).mParent = none ∧
      a ∈ (w3.topo b).mChildList ∧
      w3.killed = w.killed ∧ w3.cacheMissFull = w.cacheMissFull := by
  have hba : b ≠ a := fun h => hab h.symm
  -- the world after the selection property is propagated
  obtain ⟨w1, hw1, ha1, hb1, hk1, hc1, hm1, hl1⟩ :
      ∃ w1 : World,
        w1 = (if !(w.topo b).isAvatar then
            w.setTopo a { w.topo a with mbCanSelect := (w.topo b).mbCanSelect }
          else w) ∧
        (w1.topo a).mParent = none ∧ (w1.topo b).mParent = none ∧
        w1.killed = w.killed ∧ w1.cacheMissFull = w.cacheMissFull ∧
        w1.maxChain = w.maxChain ∧ (w1.topo b).mChildList = (w.topo b).mChildList := by
    refine ⟨_, rfl, ?_, ?_, ?_, ?_, ?_, ?_⟩ <;> split <;> simp [World.setTopo, ha, hb, hba]
  have hok : xformSetParentOk (fun h => (w1.topo h).mParent) w1.maxChain a (some b)
      = some true := by
    unfold xformSetParentOk
    simp only [ha1, reduceCtorEq, if_false, hb1, walkFinds, Option.map_some', Bool.not_false]
  have hset : setParent w1 a (some b)
      = some (w1.setTopo a { w1.topo a with mParent := some b }, true) := by
    unfold setParent
    simp only [ha1, ne_eq, reduceCtorEq, not_false_eq_true, if_true, hok]
  unfold addChild
  rw [if_neg hnot]
  simp only [← hw1, hset]
  split
  · refine ⟨_, rfl, ?_, ?_, ?_, ?_, ?_⟩
    · simp [World.setTopo, hab, hba]
    · simp [World.setTopo, hab, hba, hb1]
    · simp [World.setTopo, hab, hba]
    · simpa using hk1
    · simpa using hc1
  · refine ⟨_, rfl, ?_, ?_, ?_, ?_, ?_⟩
    · simp [World.setTopo, hab, hba]
    · simp [World.setTopo, hab, hba, hb1]
    · simp [World.setTopo, hab, hba]
    · simpa using hk1
    · simpa using hc1

/-- `setDrawableParent` towards an object whose drawable, if any, has no
transform parent succeeds for an object that has a drawable. -/
theorem setDrawableParent_free (w : World) (a b : Handle) (d : Drawable)
    (hd : (w.topo a).mDrawable = some d)
    (hfree : ∀ db, (w.topo b).mDrawable = some db → db.xformParent = none) :
    ∃ w1, setDrawableParent w a (drawableOf w b) = some (w1, true) := by
  have hok : xformSetParentOk
      (fun h => match (w.topo h).mDrawable with
        | some dh => dh.xformParent
        | none => none) w.maxChain a (drawableOf w b) = some true := by
    unfold xformSetParentOk drawableOf
    cases hb : (w.topo b).mDrawable with
    | none =>
      simp only [Option.isSome_none, Bool.false_eq_true, if_false]
      split <;> rfl
    | some db =>
      simp only [Option.isSome_some, if_true]
      split
      · rfl
      · simp [hb, hfree db hb, walkFinds]
  unfold setDrawableParent
  simp only [hd, hok]
  exact ⟨_, rfl⟩

/-- The recovery of the branch "no parent now, new parent in message": when the
object sent as parent is a child of this object, it is detached first and this
object then becomes its child; nothing is killed. -/
theorem attachToNewParent_recovers (env : UpdateEnv) (w : World) (a b : Handle) (lid : Nat)
    (hab : a ≠ b) (hfind : env.findObjectFromLocal lid = some b)
    (ha : (w.topo a).mParent = none)
    (hchild : b ∈ (w.topo a).mChildList) (hparent : (w.topo b).mParent = some a)
    (hnot : a ∉ (w.topo b).mChildList) (hlive : (w.topo b).mDead = false) :
    ∃ w3, attachToNewParent env w a lid = some (.goesOn w3 true) ∧
      (w3.topo a).mParent = some b ∧ (w3.topo b).mParent = none ∧
      a ∈ (w3.topo b).mChildList ∧
      w3.killed = w.killed ∧ w3.cacheMissFull = w.cacheMissFull := by
  have hba : b ≠ a := fun h => hab h.symm
  obtain ⟨r1, r2, r3, r4, _, _, _, r8, r9⟩ := removeChild_detach w a b hab hchild hparent
  obtain ⟨wd, okd, hsd, hfree, _, _⟩ := setDrawableParent_null (removeChild w a b) b
  have hl := setDrawableParent_sameLinks _ _ _ _ _ hsd
  have hda : (wd.topo a).mParent = none := by rw [hl.parent, r2, ha]
  have hdb : (wd.topo b).mParent = none := by rw [hl.parent, r1]
  have hdn : a ∉ (wd.topo b).mChildList := by rw [hl.children, r3]; exact hnot
  have hdl : (wd.topo b).mDead = false := by rw [hl.dead, r4, hlive]
  have hdk : wd.killed = w.killed := by rw [hl.killed, r8]
  have hdc : wd.cacheMissFull = w.cacheMissFull := by rw [hl.cacheMissFull, r9]
  unfold attachToNewParent
  simp only [hfind, hparent, if_true, hsd, Option.map_some', ne_eq, hba, not_false_eq_true,
    hdl, and_self]
  cases hdraw : (wd.topo a).mDrawable with
  | none =>
    obtain ⟨w3, h3, p1, p2, p3, p4, p5⟩ := addChild_attach wd a b hab hda hdb hdn
    simp only [h3, Option.map_some']
    exact ⟨_, rfl, by simpa using p1, by simpa using p2, by simpa using p3,
      by simpa [hdk] using p4, by simpa [hdc] using p5⟩
  | some d =>
    dsimp only
    split
    · obtain ⟨w3, h3, p1, p2, p3, p4, p5⟩ := addChild_attach wd a b hab hda hdb hdn
      simp only [h3, Option.map_some']
      exact ⟨_, rfl, by simpa using p1, by simpa using p2, by simpa using p3,
        by simpa [hdk] using p4, by simpa [hdc] using p5⟩
    · obtain ⟨w2, h2⟩ := setDrawableParent_free wd a b d hdraw hfree
      have hl2 := setDrawableParent_sameLinks _ _ _ _ _ h2
      obtain ⟨w3, h3, p1, p2, p3, p4, p5⟩ := addChild_attach w2 a b hab
        (by rw [hl2.parent, hda]) (by rw [hl2.parent, hdb])
        (by rw [hl2.children]; exact hdn)
      simp only [h2, h3, Option.map_some']
      exact ⟨_, rfl, by simpa using p1, by simpa using p2, by simpa using p3,
        by simpa [hdk, hl2.killed] using p4, by simpa [hdc, hl2.cacheMissFull] using p5⟩

/-- `setDrawableParent` refuses when the drawable of the object sent as parent
hangs under the drawable of this object. -/
theorem setDrawableParent_cycle (w : World) (a b : Handle) (da db : Drawable)
    (hda : (w.topo a).mDrawable = some da) (hdb : (w.topo b).mDrawable = some db)
    (hxb : db.xformParent = some a) (hxa : da.xformParent ≠ some b)
    (hfuel : 0 < w.maxChain) :
    setDrawableParent w a (drawableOf w b) = some (w, false) := by
  obtain ⟨n, hn⟩ : ∃ n, w.maxChain = n + 1 := ⟨w.maxChain - 1, by omega⟩
  have hok : xformSetParentOk
      (fun h => match (w.topo h).mDrawable with
        | some dh => dh.xformParent
        | none => none) w.maxChain a (drawableOf w b) = some false := by
    unfold xformSetParentOk drawableOf
    simp only [hdb, Option.isSome_some, if_true, hda]
    rw [if_neg (fun h => hxa h.symm), hxb, hn]
    simp [walkFinds]
  unfold setDrawableParent
  simp only [hda, hok]

/-- The branch "parented now, different parent in message" when the drawable
link would close a cycle: both objects lose their parent, both local ids go on
the cache-miss list and both objects are handed to `killObject`. -/
theorem switchParent_kills (env : UpdateEnv) (w : World) (a b p : Handle) (lid : Nat)
    (da db : Drawable)
    (hab : a ≠ b) (hbp : b ≠ p) (hlid : lid ≠ 0)
    (hfind : env.findObjectFromLocal lid = some b)
    (hpa : (w.topo a).mParent = some p) (hparent : (w.topo b).mParent = some a)
    (hda : (w.topo a).mDrawable = some da) (hdb : (w.topo b).mDrawable = some db)
    (hxb : db.xformParent = some a) (hxa : da.xformParent ≠ some b)
    (hfuel : 0 < w.maxChain) :
    ∃ w3, switchParent env w a lid p = some (.returned w3) ∧
      w3.killed = w.killed ++ [b, a] ∧
      w3.cacheMissFull = w.cacheMissFull ++ [(w.topo a).mLocalID, (w.topo b).mLocalID] ∧
      (w3.topo a).mParent = none ∧ (w3.topo b).mParent = none := by
  have hba : b ≠ a := fun h => hab h.symm
  have hcyc := setDrawableParent_cycle w a b da db hda hdb hxb hxa hfuel
  unfold switchParent
  simp only [hlid, if_false, hfind, ne_eq, hbp, not_false_eq_true, hba, and_self, if_true, hda,
    Option.isSome_some, hcyc]
  refine ⟨_, rfl, ?_, ?_, ?_, ?_⟩
  · simp [killBoth, setParentNull, hpa, World.setTopo, hba, hparent]
  · simp [killBoth, setParentNull, hpa, World.setTopo, hba, hab, hparent]
  · simp [killBoth, setParentNull, hpa, World.setTopo, hba, hab, hparent]
  · simp [killBoth, setParentNull, hpa, World.setTopo, hba, hab, hparent]

/-! ## Object updates: facts -/

theorem decodeFullObjectData_parent_id (env : UpdateEnv) (m : MsgSys) (s : ObjState)
    (d : Decoded) : (decodeFullObjectData env m s d).2.parent_id = d.parent_id := by
  unfold decodeFullObjectData
  dsimp only
  split
  · rfl
  · split <;> rfl

/-- A full update that declares a parent decodes, and the decoded parent id is
the declared one. -/
theorem decodeUpdate_declared (env : UpdateEnv) (msg : UpdateMsg) (lid : Nat)
    (hdecl : DeclaresParent msg lid) (s : ObjState) (d0 : Decoded) :
    ∃ s1 d1, decodeUpdate env msg s d0 = some (s1, d1) ∧ d1.parent_id = lid := by
  rcases hdecl with ⟨hdp, htype, m, hm, hpid⟩ | ⟨p, hdp, htype, hbit, hpid⟩
  · unfold decodeUpdate
    simp only [hdp, hm, htype, decodeRaw]
    refine ⟨_, _, rfl, ?_⟩
    dsimp only
    rw [decodeFullObjectData_parent_id]
    exact hpid
  · unfold decodeUpdate
    simp only [hdp]
    rcases htype with ht | ht
    · simp only [ht, decodePacked]
      refine ⟨_, _, rfl, ?_⟩
      dsimp only
      rw [if_pos hbit]
      exact hpid
    · simp only [ht, decodePacked]
      refine ⟨_, _, rfl, ?_⟩
      dsimp only
      rw [if_pos hbit]
      exact hpid

theorem DeclaresParent.not_terse {msg : UpdateMsg} {lid : Nat} (h : DeclaresParent msg lid) :
    msg.update_type ≠ OUT_TERSE_IMPROVED := by
  rcases h with ⟨_, htype, _⟩ | ⟨p, _, htype, _⟩
  · rw [htype]; decide
  · rcases htype with ht | ht <;> rw [ht] <;> decide

/-- A full update from the object's own, listed region reaches the parenting
section with the scene graph and the logs as they were and with the declared
parent id. -/
theorem prepareUpdate_ready (env : UpdateEnv) (w : World) (a : Handle) (msg : UpdateMsg)
    (lid region : Nat)
    (hlisted : env.isRegionListed (w.st a).mRegionp = true)
    (hregion : (w.st a).mRegionp = some region)
    (hsame : ∀ m, msg.mesgsys = some m → m.regionFromHandle = some region)
    (hdecl : DeclaresParent msg lid) :
    ∃ w2 d1 td, prepareUpdate env w a msg = some (.ready w2 d1 (w.topo a).mParent td) ∧
      w2.topo = w.topo ∧ w2.maxChain = w.maxChain ∧ w2.killed = w.killed ∧
      w2.cacheMissFull = w.cacheMissFull ∧ d1.parent_id = lid := by
  unfold prepareUpdate
  simp only [hlisted, Bool.not_true, Bool.false_eq_true, if_false]
  cases hm : msg.mesgsys with
  | none =>
    simp only [hregion]
    obtain ⟨s1, d1, hdec, hpid⟩ := decodeUpdate_declared env msg lid hdecl (w.st a)
      { parent_id := match (w.topo a).mParent with
          | some cur => (w.topo cur).mLocalID
          | none => 0
        new_pos_parent := LLVector3.zero
        new_angv := LLVector3.zero
        old_angv := (w.st a).angularVelocity
        new_rot := LLQuaternion.identity
        new_scale := (w.st a).scale
        test_pos_parent := (w.st a).position
        this_update_precision := 32
        retval := 0 }
    simp only [hdec]
    exact ⟨_, _, _, rfl, rfl, rfl, rfl, rfl, hpid⟩
  | some m =>
    have hr := hsame m hm
    have hup : updateRegion env w a m
        = some (w.setSt a { w.st a with mRegionp := some region }) := by
      unfold updateRegion
      simp only [hr, hregion, ne_eq, not_true_eq_false, if_false]
    simp only [hup, World.setSt, if_true]
    obtain ⟨s1, d1, hdec, hpid⟩ := decodeUpdate_declared env msg lid hdecl
      { w.st a with mRegionp := some region }
      { parent_id := match (w.topo a).mParent with
          | some cur => (w.topo cur).mLocalID
          | none => 0
        new_pos_parent := LLVector3.zero
        new_angv := LLVector3.zero
        old_angv := (w.st a).angularVelocity
        new_rot := LLQuaternion.identity
        new_scale := (w.st a).scale
        test_pos_parent := (w.st a).position
        this_update_precision := 32
        retval := 0 }
    simp only [hdec]
    exact ⟨_, _, _, rfl, rfl, rfl, rfl, rfl, hpid⟩

/-- The application of the decoded values, the clamp of the attachments
included, touches neither the scene graph nor the logs. -/
theorem applyUpdate_frame (env : UpdateEnv) (w : World) (self : Handle) (d : Decoded)
    (b : Bool) :
    (applyUpdate env w self d b).1.topo = w.topo ∧
    (applyUpdate env w self d b).1.killed = w.killed ∧
    (applyUpdate env w self d b).1.cacheMissFull = w.cacheMissFull ∧
    (applyUpdate env w self d b).1.orphaned = w.orphaned := by
  have hplace : ∀ s1 : ObjState,
      (placePosition env w self s1 d).1.topo = w.topo ∧
      (placePosition env w self s1 d).1.killed = w.killed ∧
      (placePosition env w self s1 d).1.cacheMissFull = w.cacheMissFull ∧
      (placePosition env w self s1 d).1.orphaned = w.orphaned := by
    intro s1
    unfold placePosition
    dsimp only
    split
    · split <;> exact ⟨rfl, rfl, rfl, rfl⟩
    · exact ⟨rfl, rfl, rfl, rfl⟩
  have hboth : ∀ (c : Bool) (s1 s1b : ObjState) (rv : Nat),
      (if c then placePosition env w self s1 d else (w.setSt self s1b, rv)).1.topo = w.topo ∧
      (if c then placePosition env w self s1 d else (w.setSt self s1b, rv)).1.killed
        = w.killed ∧
      (if c then placePosition env w self s1 d else (w.setSt self s1b, rv)).1.cacheMissFull
        = w.cacheMissFull ∧
      (if c then placePosition env w self s1 d else (w.setSt self s1b, rv)).1.orphaned
        = w.orphaned := by
    intro c s1 s1b rv
    cases c
    · exact ⟨rfl, rfl, rfl, rfl⟩
    · exact hplace s1
  exact hboth _ _ _ _

/-- What follows the parenting section touches neither the scene graph nor the
logs. -/
theorem finishUpdate_frame (env : UpdateEnv) (msg : UpdateMsg) (w3 : World) (self : Handle)
    (d1 : Decoded) (b : Bool) (td : ℚ) :
    (finishUpdate env msg w3 self d1 b td).1.topo = w3.topo ∧
    (finishUpdate env msg w3 self d1 b td).1.killed = w3.killed ∧
    (finishUpdate env msg w3 self d1 b td).1.cacheMissFull = w3.cacheMissFull := by
  unfold finishUpdate
  dsimp only
  split
  · exact ⟨rfl, rfl, rfl⟩
  · rw [(applyUpdate_frame _ _ _ _ _).1, (applyUpdate_frame _ _ _ _ _).2.1,
      (applyUpdate_frame _ _ _ _ _).2.2.1]
    split <;> exact ⟨rfl, rfl, rfl⟩

/-! ## Task inventory: concurrent fetches -/

/-- C20, as stated, fails: with a transfer outstanding, `fetchInventoryFromServer`
changes nothing; no request is aborted and none is issued. -/
theorem C20_fetch_while_pending_counterexample :
    pendingFetchObject.mInvRequestState ≠ INVENTORY_REQUEST_STOPPED ∧
    fetchInventoryFromServer pendingFetchObject = pendingFetchObject ∧
    (fetchInventoryFromServer pendingFetchObject).effects = [] := by
  refine ⟨by decide, by decide, by decide⟩

/-- C20 (amended): for an object whose request state is not
`INVENTORY_REQUEST_STOPPED`, `fetchInventoryFromServer` does nothing: the new
request is thrown away and the outstanding one stays. It is
`fetchInventoryDelayed` that, unless the object is already waiting, aborts the
outstanding transfer (when `mInvRequestXFerId` is not 0), clears the transfer
id, moves to `INVENTORY_REQUEST_WAIT` and launches the delayed fetch. -/
theorem C20_fetch_while_pending_amended (o : InvObj) (t : ℚ)
    (hpending : o.mInvRequestState ≠ INVENTORY_REQUEST_STOPPED) :
    fetchInventoryFromServer o = o ∧
    (o.mInvRequestState ≠ INVENTORY_REQUEST_WAIT → o.mInvRequestXFerId ≠ 0 →
      (fetchInventoryDelayed o t).effects
        = o.effects ++ [.abortRequestById o.mInvRequestXFerId, .launchDelayedCoro t] ∧
      (fetchInventoryDelayed o t).mInvRequestXFerId = 0 ∧
      (fetchInventoryDelayed o t).mInvRequestState = INVENTORY_REQUEST_WAIT) ∧
    (o.mInvRequestState ≠ INVENTORY_REQUEST_WAIT → o.mInvRequestXFerId = 0 →
      (fetchInventoryDelayed o t).effects = o.effects ++ [.launchDelayedCoro t] ∧
      (fetchInventoryDelayed o t).mInvRequestState = INVENTORY_REQUEST_WAIT) := by
  refine ⟨?_, ?_, ?_⟩
  · unfold fetchInventoryFromServer isInventoryPending
    simp [hpending]
  · intro hw hx
    unfold fetchInventoryDelayed
    simp [hw, hx, InvObj.emit]
  · intro hw hx
    unfold fetchInventoryDelayed
    simp [hw, hx, InvObj.emit]

/-- The amended C20 on the object with transfer 9 outstanding. -/
theorem C20_fetch_while_pending_amended_witness :
    fetchInventoryFromServer pendingFetchObject = pendingFetchObject :=
  (C20_fetch_while_pending_amended pendingFetchObject 1 (by decide)).1

/-! ## Motion extrapolation: the decay -/

/-- An engaged decay means the time gate was passed and the region is there. -/
theorem decayEngaged_gate (env : MotionEnv) (o : MotionObj) (frame_time : ℚ)
    (h : decayEngaged env o frame_time = true) :
    frame_time - o.mLastMessageUpdateSecs > env.sPhaseOutUpdateInterpolationTime ∧
    env.sPhaseOutUpdateInterpolationTime > 0 ∧ o.hasRegion = true := by
  unfold decayEngaged at h
  simp only [Bool.and_eq_true, decide_eq_true_eq] at h
  exact ⟨h.1.1.1, h.1.1.2, h.1.2⟩

/-- Past the time gate a dead or blocked circuit engages the decay. -/
theorem decayEngaged_of_dead (env : MotionEnv) (o : MotionObj) (frame_time : ℚ)
    (cdp : LLCircuitData)
    (ht : frame_time - o.mLastMessageUpdateSecs > env.sPhaseOutUpdateInterpolationTime)
    (hp : env.sPhaseOutUpdateInterpolationTime > 0)
    (hreg : o.hasRegion = true)
    (hc : env.findCircuit = some cdp)
    (hdead : cdp.isAlive = false ∨ cdp.isBlocked = true) :
    decayEngaged env o frame_time = true := by
  unfold decayEngaged
  rw [hc]
  rcases hdead with h | h <;> simp [ht, hp, hreg, h]

/-- The clamp lands between its bounds when they are in order. -/
theorem llclamp_range (a lo hi : ℚ) (h : lo ≤ hi) :
    lo ≤ llclamp a lo hi ∧ llclamp a lo hi ≤ hi := by
  unfold llclamp
  split
  · exact ⟨le_refl _, h⟩
  · split
    · exact ⟨h, le_refl _⟩
    · rename_i h1 h2
      exact ⟨not_lt.mp h1, not_lt.mp h2⟩

/-- The phase-out factor is confined to the interval from 0 to 1. -/
theorem phaseOutFactor_range (env : MotionEnv) (o : MotionObj) (frame_time : ℚ) :
    0 ≤ phaseOutFactor env o frame_time ∧ phaseOutFactor env o frame_time ≤ 1 := by
  unfold phaseOutFactor
  exact llclamp_range _ 0 1 zero_le_one

/-- Between the phase-out time and the maximum, when the previous step was not
yet phased out, the factor is the linear ramp. -/
theorem phaseOutFactor_linear (env : MotionEnv) (o : MotionObj) (frame_time : ℚ)
    (hlo : env.sPhaseOutUpdateInterpolationTime < frame_time - o.mLastMessageUpdateSecs)
    (hhi : frame_time - o.mLastMessageUpdateSecs ≤ env.sMaxUpdateInterpolationTime)
    (hprev : o.mLastInterpUpdateSecs - o.mLastMessageUpdateSecs
      ≤ env.sPhaseOutUpdateInterpolationTime) :
    phaseOutFactor env o frame_time
      = (env.sMaxUpdateInterpolationTime - (frame_time - o.mLastMessageUpdateSecs)) /
        (env.sMaxUpdateInterpolationTime - env.sPhaseOutUpdateInterpolationTime) := by
  have hden : 0 < env.sMaxUpdateInterpolationTime - env.sPhaseOutUpdateInterpolationTime := by
    linarith
  have hnum : 0 ≤ env.sMaxUpdateInterpolationTime
      - (frame_time - o.mLastMessageUpdateSecs) := by linarith
  have h0 : 0 ≤ (env.sMaxUpdateInterpolationTime - (frame_time - o.mLastMessageUpdateSecs)) /
      (env.sMaxUpdateInterpolationTime - env.sPhaseOutUpdateInterpolationTime) :=
    div_nonneg hnum (le_of_lt hden)
  have h1 : (env.sMaxUpdateInterpolationTime - (frame_time - o.mLastMessageUpdateSecs)) /
      (env.sMaxUpdateInterpolationTime - env.sPhaseOutUpdateInterpolationTime) ≤ 1 := by
    rw [div_le_one hden]
    linarith
  unfold phaseOutFactor llclamp
  simp only [if_neg (not_lt.mpr hhi), gt_iff_lt, if_neg (not_lt.mpr hprev),
    if_neg (not_lt.mpr h0), if_neg (not_lt.mpr h1)]

/-- An engaged decay multiplies both predicted deltas by the phase-out factor. -/
theorem predictedDeltas_decayed (env : MotionEnv) (o : MotionObj) (frame_time dt : ℚ)
    (h : decayEngaged env o frame_time = true) :
    predictedDeltas env o frame_time dt
      = (LLVector3.scale (phaseOutFactor env o frame_time) (fullDisplacement o dt),
         LLVector3.scale (phaseOutFactor env o frame_time) (fullVelocityIncrement o dt)) := by
  unfold predictedDeltas fullDisplacement fullVelocityIncrement
  simp only [h, if_true]

/-- Without the decay the predicted deltas are the full ones. -/
theorem predictedDeltas_full (env : MotionEnv) (o : MotionObj) (frame_time dt : ℚ)
    (h : decayEngaged env o frame_time = false) :
    predictedDeltas env o frame_time dt
      = (fullDisplacement o dt, fullVelocityIncrement o dt) := by
  unfold predictedDeltas fullDisplacement fullVelocityIncrement
  simp only [h, Bool.false_eq_true, if_false]

/-- C11: in a step of a moving object with `dt > 0` in which the decay is
engaged and the time `t` since the last server update is at most
`sMaxUpdateInterpolationTime` (it is above `sPhaseOutUpdateInterpolationTime`,
the decay being engaged), the predicted displacement and velocity increment are
the full ones multiplied by one factor `f` with `0 ≤ f ≤ 1`; when the previous
step was not yet phased out, `f` is
`(sMaxUpdateInterpolationTime - t) / (sMaxUpdateInterpolationTime - sPhaseOutUpdateInterpolationTime)`;
and where the region edge is not hit the step adds exactly these scaled deltas
to the position (before the height clamp) and to the velocity. -/
theorem C11_phase_out_factor (env : MotionEnv) (o : MotionObj) (frame_time dt : ℚ)
    (hdt : 0 < dt)
    (hmov : (!o.acceleration.isExactlyZero || !o.velocity.isExactlyZero) = true)
    (hdecay : decayEngaged env o frame_time = true)
    (hhi : frame_time - o.mLastMessageUpdateSecs ≤ env.sMaxUpdateInterpolationTime) :
    ∃ f : ℚ, f = phaseOutFactor env o frame_time ∧
      env.sPhaseOutUpdateInterpolationTime < frame_time - o.mLastMessageUpdateSecs ∧
      0 ≤ f ∧ f ≤ 1 ∧
      (o.mLastInterpUpdateSecs - o.mLastMessageUpdateSecs
          ≤ env.sPhaseOutUpdateInterpolationTime →
        f = (env.sMaxUpdateInterpolationTime - (frame_time - o.mLastMessageUpdateSecs)) /
          (env.sMaxUpdateInterpolationTime - env.sPhaseOutUpdateInterpolationTime)) ∧
      predictedDeltas env o frame_time dt
        = (LLVector3.scale f (fullDisplacement o dt),
           LLVector3.scale f (fullVelocityIncrement o dt)) ∧
      (env.clamp
          ⟨(clampHeight env o (LLVector3.scale f (fullDisplacement o dt) + o.position)).x,
           (clampHeight env o (LLVector3.scale f (fullDisplacement o dt) + o.position)).y, 0⟩
          0 env.regionWidth = false →
        ∃ r, interpolateLinearMotion env o frame_time dt = some r ∧
          r.position
            = clampHeight env o (LLVector3.scale f (fullDisplacement o dt) + o.position) ∧
          r.velocity = LLVector3.scale f (fullVelocityIncrement o dt) + o.velocity) := by
  obtain ⟨hlo, hp, hreg⟩ := decayEngaged_gate env o frame_time hdecay
  have hd := predictedDeltas_decayed env o frame_time dt hdecay
  refine ⟨_, rfl, hlo, (phaseOutFactor_range env o frame_time).1,
    (phaseOutFactor_range env o frame_time).2,
    fun hprev => phaseOutFactor_linear env o frame_time hlo hhi hprev, hd, ?_⟩
  intro hedge
  have hrun : ¬ (frame_time - o.mLastMessageUpdateSecs ≤ 0 ∨ dt ≤ 0) := by
    intro h
    rcases h with h | h
    · have : (0 : ℚ) < frame_time - o.mLastMessageUpdateSecs := lt_trans hp hlo
      exact absurd this (not_lt.mpr h)
    · exact absurd hdt (not_lt.mpr h)
  have hmax : ¬ env.sMaxUpdateInterpolationTime ≤ 0 := by
    intro h
    have : (0 : ℚ) < env.sMaxUpdateInterpolationTime :=
      lt_of_lt_of_le (lt_trans hp hlo) hhi
    exact absurd this (not_lt.mpr h)
  have hin := interpolateLinearMotion_inside env o frame_time dt hreg hrun hmax hmov
  rw [hd] at hin
  exact hin hedge

/-- C11 at a concrete step: half a second on from the state at 2.0 s with the
circuit dead; the factor is (3 - 2.5) / (3 - 2) = 1/2 and the object advances
by a quarter of a metre instead of half a metre. -/
theorem C11_phase_out_factor_witness :
    ∃ f : ℚ, f = phaseOutFactor (scenarioEnv (some deadCircuit) (5 / 2)) scenarioObjAt2 (5 / 2) ∧
      (2 : ℚ) < 5 / 2 - 0 ∧ 0 ≤ f ∧ f ≤ 1 ∧ f = 1 / 2 ∧
      (interpolateLinearMotion (scenarioEnv (some deadCircuit) (5 / 2)) scenarioObjAt2
        (5 / 2) (1 / 2)).map (fun r => (r.position, r.velocity))
        = some (⟨41 / 4, 10, 0⟩, ⟨1, 0, 0⟩) := by
  obtain ⟨f, hf, hlo, h0, h1, hlin, _, _⟩ :=
    C11_phase_out_factor (scenarioEnv (some deadCircuit) (5 / 2)) scenarioObjAt2 (5 / 2) (1 / 2)
      (by decide!) (by decide!) (by decide!) (by decide!)
  refine ⟨f, hf, hlo, h0, h1, ?_, by decide!⟩
  rw [hlin (by decide!)]
  decide!

/-- C12, as stated, fails: in the scenario the circuit is dead and the step at
1.5 s, below the 2.0 s phase-out time, does not engage the decay; the object
advances by the full predicted displacement, exactly as with a live circuit. -/
theorem C12_dead_circuit_counterexample :
    deadCircuit.isAlive = false ∧
    (3 / 2 - scenarioObjAt1.mLastMessageUpdateSecs : ℚ)
      < (scenarioEnv (some deadCircuit) (3 / 2)).sPhaseOutUpdateInterpolationTime ∧
    decayEngaged (scenarioEnv (some deadCircuit) (3 / 2)) scenarioObjAt1 (3 / 2) = false ∧
    (interpolateLinearMotion (scenarioEnv (some deadCircuit) (3 / 2)) scenarioObjAt1
        (3 / 2) (1 / 2)).map (fun r => r.position)
      = some (fullDisplacement scenarioObjAt1 (1 / 2) + scenarioObjAt1.position) ∧
    fullDisplacement scenarioObjAt1 (1 / 2) = ⟨1 / 2, 0, 43 / 360⟩ ∧
    interpolateLinearMotion (scenarioEnv (some deadCircuit) (3 / 2)) scenarioObjAt1
        (3 / 2) (1 / 2)
      = interpolateLinearMotion (scenarioEnv (some (liveCircuit (3 / 2))) (3 / 2))
          scenarioObjAt1 (3 / 2) (1 / 2) := by
  refine ⟨by decide!, by decide!, by decide!, by decide!, by decide!, by decide!⟩

/-- C12 (amended): for an object whose region circuit is reported dead or
blocked, the decay is applied only once the time since the last server update
exceeds `sPhaseOutUpdateInterpolationTime` (itself above zero): then both
predicted deltas are multiplied by the phase-out factor. At or below that time
the circuit is not consulted: the deltas are the full ones and the whole step is
the one taken without any circuit. -/
theorem C12_dead_circuit_amended (env : MotionEnv) (o : MotionObj) (frame_time dt : ℚ)
    (cdp : LLCircuitData)
    (hc : env.findCircuit = some cdp)
    (hdead : cdp.isAlive = false ∨ cdp.isBlocked = true) :
    (frame_time - o.mLastMessageUpdateSecs ≤ env.sPhaseOutUpdateInterpolationTime →
      predictedDeltas env o frame_time dt
        = (fullDisplacement o dt, fullVelocityIncrement o dt) ∧
      interpolateLinearMotion env o frame_time dt
        = interpolateLinearMotion { env with findCircuit := none } o frame_time dt) ∧
    (frame_time - o.mLastMessageUpdateSecs > env.sPhaseOutUpdateInterpolationTime →
      env.sPhaseOutUpdateInterpolationTime > 0 → o.hasRegion = true →
      predictedDeltas env o frame_time dt
        = (LLVector3.scale (phaseOutFactor env o frame_time) (fullDisplacement o dt),
           LLVector3.scale (phaseOutFactor env o frame_time)
             (fullVelocityIncrement o dt))) := by
  refine ⟨?_, ?_⟩
  · intro hle
    have h1 := predictedDeltas_full env o frame_time dt
      (decayEngaged_false_of_le env o frame_time hle)
    have h2 := predictedDeltas_full { env with findCircuit := none } o frame_time dt
      (decayEngaged_false_of_le { env with findCircuit := none } o frame_time hle)
    refine ⟨h1, ?_⟩
    unfold interpolateLinearMotion
    simp only [h1, h2]
    rfl
  · intro ht hp hreg
    exact predictedDeltas_decayed env o frame_time dt
      (decayEngaged_of_dead env o frame_time cdp ht hp hreg hc hdead)

/-- The amended C12 in the scenario with the circuit dead: the step at 1.5 s
is the one taken without a circuit. -/
theorem C12_dead_circuit_amended_witness :
    interpolateLinearMotion (scenarioEnv (some deadCircuit) (3 / 2)) scenarioObjAt1
        (3 / 2) (1 / 2)
      = interpolateLinearMotion
          { scenarioEnv (some deadCircuit) (3 / 2) with findCircuit := none }
          scenarioObjAt1 (3 / 2) (1 / 2) :=
  ((C12_dead_circuit_amended (scenarioEnv (some deadCircuit) (3 / 2)) scenarioObjAt1
    (3 / 2) (1 / 2) deadCircuit rfl (Or.inl rfl)).1 (by decide!)).2

/-! ## Object updates: the binary object data -/

/-- C16 at the lengths where the code departs from it: the length is cut down
to `MAX_OBJECT_BINARY_DATA_SIZE` (76) before the layout is chosen, so a full
update of length 124 is decoded like one of length 76, as an avatar update with
the position at offset 16, and a terse update of length 80 is not decoded at
all. Lengths 140, 76 and 60 (full) and 64 and 32 (terse) get the layout the
claim names. -/
theorem C16_layout_after_length_cut (env : UpdateEnv) (m : MsgSys) (s : ObjState)
    (d : Decoded) :
    MAX_OBJECT_BINARY_DATA_SIZE = 76 ∧
    (decodeFullObjectData env { m with objectDataSize := 124 } s d
      = decodeFullObjectData env { m with objectDataSize := 76 } s d ∧
     (decodeFullObjectData env { m with objectDataSize := 124 } s d).2.new_pos_parent
      = m.vec3At 16 ∧
     decodeTerseObjectData env { m with objectDataSize := 80 } s d = (s, d)) ∧
    (decodeFullObjectData env { m with objectDataSize := 140 } s d
      = decodeFullObjectData env { m with objectDataSize := 76 } s d ∧
     (decodeFullObjectData env { m with objectDataSize := 76 } s d).2.new_pos_parent
      = m.vec3At 16 ∧
     (decodeFullObjectData env { m with objectDataSize := 60 } s d).2.new_pos_parent
      = m.vec3At 0 ∧
     decodeTerseObjectData env { m with objectDataSize := 64 } s d
      = decodeTerseObjectData env { m with objectDataSize := 32 } s d ∧
     (decodeTerseObjectData env { m with objectDataSize := 32 } s d).2.new_angv
      = ⟨env.U16_to_F32 (m.u16At 26) (-env.size) env.size,
         env.U16_to_F32 (m.u16At 28) (-env.size) env.size,
         env.U16_to_F32 (m.u16At 30) (-env.size) env.size⟩ ∧
     (decodeTerseObjectData env { m with objectDataSize := 48 } s d).2.new_angv
      = ⟨env.U16_to_F32 (m.u16At 42) (-env.size) env.size,
         env.U16_to_F32 (m.u16At 44) (-env.size) env.size,
         env.U16_to_F32 (m.u16At 46) (-env.size) env.size⟩) := by
  refine ⟨by decide, ⟨?_, ?_, ?_⟩, ⟨?_, ?_, ?_, ?_, ?_, ?_⟩⟩ <;>
    simp [decodeFullObjectData, decodeTerseObjectData, MAX_OBJECT_BINARY_DATA_SIZE]

/-- C17 at a failing input: the object stands at (5,5,5), turned half way round
the z axis, and receives a raw update whose `ObjectData` has the unrecognized
length 10. Nothing is decoded, and the call still applies the untouched
temporaries: the object lands on the origin with the identity rotation, for a
full update as for a terse one. Velocity, acceleration and angular velocity
stay as they were. -/
theorem C17_unrecognized_length_moves_object :
    ((placedWorld.st 3).position, (placedWorld.st 3).rotation, (placedWorld.st 3).velocity,
        (placedWorld.st 3).acceleration, (placedWorld.st 3).angularVelocity)
      = (⟨5, 5, 5⟩, ⟨0, 0, 1, 0⟩, ⟨1, 0, 0⟩, ⟨0, 0, -1⟩, ⟨0, 0, 1⟩) ∧
    (processUpdateMessage plainUpdateEnv placedWorld 3 (shortUpdate OUT_FULL)).map
        (fun r => ((r.1.st 3).position, (r.1.st 3).rotation, (r.1.st 3).velocity,
          (r.1.st 3).acceleration, (r.1.st 3).angularVelocity))
      = some (LLVector3.zero, LLQuaternion.identity, ⟨1, 0, 0⟩, ⟨0, 0, -1⟩, ⟨0, 0, 1⟩) ∧
    (processUpdateMessage plainUpdateEnv placedWorld 3 (shortUpdate OUT_TERSE_IMPROVED)).map
        (fun r => ((r.1.st 3).position, (r.1.st 3).rotation, (r.1.st 3).velocity,
          (r.1.st 3).acceleration, (r.1.st 3).angularVelocity))
      = some (LLVector3.zero, LLQuaternion.identity, ⟨1, 0, 0⟩, ⟨0, 0, -1⟩, ⟨0, 0, 1⟩) := by
  refine ⟨by decide!, by decide!, by decide!⟩

/-! ## Object updates: the application of the decoded position -/

theorem pingAdjusted_retval (env : UpdateEnv) (msg : UpdateMsg) (w3 : World) (self : Handle)
    (d1 : Decoded) (td : ℚ) :
    (pingAdjusted env msg w3 self d1 td).retval = d1.retval ∧
    (pingAdjusted env msg w3 self d1 td).test_pos_parent = d1.test_pos_parent := by
  unfold pingAdjusted
  dsimp only
  split
  · split
    · split <;> exact ⟨rfl, rfl⟩
    · exact ⟨rfl, rfl⟩
  · exact ⟨rfl, rfl⟩

/-- Without ping interpolation the decoded position enters the application as
it was decoded. -/
theorem pingAdjusted_pos (env : UpdateEnv) (msg : UpdateMsg) (w3 : World) (self : Handle)
    (d1 : Decoded) (td : ℚ) (h : env.sPingInterpolate = false) :
    (pingAdjusted env msg w3 self d1 td).new_pos_parent = d1.new_pos_parent := by
  unfold pingAdjusted
  dsimp only
  split
  · simp [h]
  · rfl

/-- A message that is not old is applied: the packet id is stored and
`applyUpdate` runs on the adjusted values. -/
theorem finishUpdate_applies (env : UpdateEnv) (msg : UpdateMsg) (w3 : World) (self : Handle)
    (d1 : Decoded) (b : Bool) (td : ℚ) (hnew : isOldPacket msg (w3.st self) = false) :
    ∃ w4 : World, (∀ i, (w4.st i).position = (w3.st i).position) ∧ w4.topo = w3.topo ∧
      finishUpdate env msg w3 self d1 b td
        = applyUpdate env w4 self (pingAdjusted env msg w3 self d1 td) b := by
  unfold isOldPacket at hnew
  unfold finishUpdate pingAdjusted
  cases hm : msg.mesgsys with
  | none =>
    refine ⟨w3, fun _ => rfl, rfl, ?_⟩
    simp
  | some m =>
    rw [hm] at hnew
    have hnew2 : decide (m.packet_id < (w3.st self).mLatestRecvPacketID ∧
        (w3.st self).mLatestRecvPacketID - m.packet_id < 65536) = false := hnew
    refine ⟨w3.setSt self { w3.st self with mLatestRecvPacketID := m.packet_id }, ?_, rfl, ?_⟩
    · intro i
      by_cases hi : i = self <;> simp [World.setSt, hi]
    · simp only [hnew2, Bool.false_eq_true, if_false]

theorem scaleStep_position (s : ObjState) (d : Decoded) :
    (scaleStep s d).position = s.position := by
  unfold scaleStep
  split <;> rfl

theorem turnStep_position (env : UpdateEnv) (s2 : ObjState) (d : Decoded) (v a : ℚ) :
    (turnStep env s2 d v a).position = s2.position := by
  unfold turnStep
  dsimp only
  split
  · split
    · rfl
    · split
      · split <;> rfl
      · rfl
  · rfl

/-- The position block when the squared distance is not finite: the
`INVALID_UPDATE` bit is put into the flag word; the position is kept when the
parent is no avatar, and is the one the avatar clamps the object to, from the
positions as they were, when it is. -/
theorem placePosition_nonfinite (env : UpdateEnv) (w : World) (self : Handle)
    (s1 : ObjState) (d : Decoded) (hs1 : s1.position = (w.st self).position)
    (hnf : env.llfinite (d.new_pos_parent - d.test_pos_parent).magVecSquared = false) :
    (placePosition env w self s1 d).2 = d.retval ||| env.INVALID_UPDATE ∧
    ((∀ p, (w.topo self).mParent = some p → (w.topo p).isAvatar = false) →
      ((placePosition env w self s1 d).1.st self).position = (w.st self).position) ∧
    (∀ p, (w.topo self).mParent = some p → (w.topo p).isAvatar = true →
      ((placePosition env w self s1 d).1.st self).position
        = env.clampAttachmentPositions p (fun i => (w.st i).position) self) := by
  have hpos : (fun i => ((w.setSt self
      { s1 with mBestUpdatePrecision := d.this_update_precision }).st i).position)
      = fun i => (w.st i).position := by
    funext i
    by_cases hi : i = self
    · subst hi
      simp [World.setSt, hs1]
    · simp [World.setSt, hi]
  unfold placePosition
  simp only [hnf, Bool.false_eq_true, if_false]
  refine ⟨?_, ?_, ?_⟩
  · split
    · split <;> rfl
    · rfl
  · intro hno
    cases hp : (w.topo self).mParent with
    | none => simp [World.setSt, hs1]
    | some p =>
      simp only [hno p hp, Bool.false_eq_true, if_false]
      simp [World.setSt, hs1]
  · intro p hp hav
    simp only [hp, hav, if_true, clampAttachments, hpos]
    simp [setPosition]

/-- The squared distance not being finite, the `INVALID_UPDATE` bit is put into
the flag word; the position is kept when the parent is no avatar, and is the
one the avatar clamps the object to when it is. -/
theorem applyUpdate_nonfinite (env : UpdateEnv) (w : World) (self : Handle) (d : Decoded)
    (b : Bool) (hzero : env.llfinite 0 = true)
    (hnf : env.llfinite (d.new_pos_parent - d.test_pos_parent).magVecSquared = false) :
    (applyUpdate env w self d b).2 = d.retval ||| env.INVALID_UPDATE ∧
    ((∀ p, (w.topo self).mParent = some p → (w.topo p).isAvatar = false) →
      ((applyUpdate env w self d b).1.st self).position = (w.st self).position) ∧
    (∀ p, (w.topo self).mParent = some p → (w.topo p).isAvatar = true →
      ((applyUpdate env w self d b).1.st self).position
        = env.clampAttachmentPositions p (fun i => (w.st i).position) self) := by
  have hne : d.test_pos_parent ≠ d.new_pos_parent := by
    intro h
    have hz : (d.new_pos_parent - d.test_pos_parent).magVecSquared = 0 := by
      rw [h]
      show (LLVector3.sub d.new_pos_parent d.new_pos_parent).magVecSquared = 0
      simp [LLVector3.sub, LLVector3.magVecSquared]
    rw [hz, hzero] at hnf
    exact Bool.noConfusion hnf
  have hmoved : positionChanged (scaleStep (w.st self) d) d b = true := by
    unfold positionChanged
    simp [hne]
  obtain ⟨h1, h2, h3⟩ := placePosition_nonfinite env w self (scaleStep (w.st self) d) d
    (scaleStep_position _ _) hnf
  unfold applyUpdate
  simp only [hmoved, if_true, World.setSt, turnStep_position]
  exact ⟨h1, h2, h3⟩

/-- The squared distance being finite, the flag word is the decoded one. -/
theorem applyUpdate_finite (env : UpdateEnv) (w : World) (self : Handle) (d : Decoded)
    (b : Bool)
    (hf : env.llfinite (d.new_pos_parent - d.test_pos_parent).magVecSquared = true) :
    (applyUpdate env w self d b).2 = d.retval := by
  unfold applyUpdate placePosition
  simp only [hf, if_true]
  split
  · split
    · split <;> rfl
    · rfl
  · rfl

/-! ## Idle update: the claims -/

/-- C19: for a live object with `mStatic` true, `idleUpdate` returns having
done no extrapolation: position, velocity, acceleration, rotation,
`mAngularVelocityRot`, `mRotTime` and `mLastInterpUpdateSecs` are unchanged, and
the change flags are the old ones with `SHIFTED` cleared, so that `MOVED` is set
afterwards exactly when it was set before. -/
theorem C19_static_object_not_extrapolated (env : IdleEnv) (o : IdleObj) (frame_time : ℚ)
    (hlive : o.mDead = false) (hstatic : o.mStatic = true) :
    ∃ r, idleUpdate env o frame_time = some r ∧
      r.motion.position = o.motion.position ∧
      r.motion.velocity = o.motion.velocity ∧
      r.motion.acceleration = o.motion.acceleration ∧
      r.rotation = o.rotation ∧
      r.mAngularVelocityRot = o.mAngularVelocityRot ∧
      r.mRotTime = o.mRotTime ∧
      r.motion.mLastInterpUpdateSecs = o.motion.mLastInterpUpdateSecs ∧
      r.motion.mChanged = o.motion.mChanged.filter (fun f => f ≠ .SHIFTED) ∧
      (ChangeFlag.MOVED ∈ r.motion.mChanged ↔ ChangeFlag.MOVED ∈ o.motion.mChanged) := by
  have hrun : idleUpdate env o frame_time = some (updateDrawable o false) := by
    unfold idleUpdate
    simp [hlive, hstatic]
  have hflags : (updateDrawable o false).motion.mChanged
      = o.motion.mChanged.filter (fun f => f ≠ .SHIFTED) := by
    unfold updateDrawable
    dsimp only
    split
    · rfl
    · split <;> rfl
  refine ⟨updateDrawable o false, hrun, ?_, ?_, ?_, ?_, ?_, ?_, ?_, hflags, ?_⟩
  all_goals try (unfold updateDrawable; dsimp only; split <;> (try split) <;> rfl)
  rw [hflags]
  simp [List.mem_filter]

/-- C19 on an object that is flagged static while it still carries a velocity,
an acceleration and an angular velocity: the idle update at 1.5 s moves
nothing. -/
theorem C19_static_object_witness :
    ∃ r, idleUpdate scenarioIdleEnv staticIdleObject (3 / 2) = some r ∧
      r.motion.position = ⟨10, 10, 0⟩ ∧
      r.motion.velocity = ⟨1, 0, 0⟩ ∧
      r.rotation = LLQuaternion.identity ∧
      r.mRotTime = 0 ∧
      r.motion.mLastInterpUpdateSecs = 1 ∧
      r.motion.mChanged = [.MOVED] := by
  obtain ⟨r, h, hp, hv, _, hr, _, ht, hl, hc, _⟩ :=
    C19_static_object_not_extrapolated scenarioIdleEnv staticIdleObject (3 / 2) rfl rfl
  exact ⟨r, h, hp.trans (by decide!), hv.trans (by decide!), hr.trans (by decide!),
    ht.trans (by decide!), hl.trans (by decide!), hc.trans (by decide!)⟩

/-! ## Object updates: terse updates and the scene graph -/

/-- The loop of `setRegion` over a child list ends and leaves the scene graph
and the logs alone, given that each call on a child does. -/
theorem foldlM_setRegion_ok (n : Nat) (r : Option Nat)
    (ih : ∀ (w : World) (self : Handle), childDepthOk w.topo n self = true →
      ∃ w1, setRegion n w self r = some w1 ∧ w1.topo = w.topo ∧ w1.orphaned = w.orphaned ∧
        w1.killed = w.killed ∧ w1.cacheMissFull = w.cacheMissFull) :
    ∀ (l : List Handle) (acc : World), (∀ c ∈ l, childDepthOk acc.topo n c = true) →
      ∃ w1, l.foldlM (fun acc child => setRegion n acc child r) acc = some w1 ∧
        w1.topo = acc.topo ∧ w1.orphaned = acc.orphaned ∧
        w1.killed = acc.killed ∧ w1.cacheMissFull = acc.cacheMissFull := by
  intro l
  induction l with
  | nil =>
    intro acc _
    exact ⟨acc, rfl, rfl, rfl, rfl, rfl⟩
  | cons c l ihl =>
    intro acc hall
    obtain ⟨w1, h1, ht1, ho1, hk1, hc1⟩ := ih acc c (hall c (List.mem_cons_self c l))
    have hall1 : ∀ c1 ∈ l, childDepthOk w1.topo n c1 = true := by
      intro c1 hc
      rw [ht1]
      exact hall c1 (List.mem_cons_of_mem c hc)
    obtain ⟨w2, h2, ht2, ho2, hk2, hc2⟩ := ihl w1 hall1
    refine ⟨w2, ?_, ht2.trans ht1, ho2.trans ho1, hk2.trans hk1, hc2.trans hc1⟩
    rw [List.foldlM_cons, h1]
    exact h2

/-- Over a tree of children of bounded depth `setRegion` ends, and it leaves the
scene graph and the logs alone. -/
theorem setRegion_ok (r : Option Nat) :
    ∀ (fuel : Nat) (w : World) (self : Handle), childDepthOk w.topo fuel self = true →
      ∃ w1, setRegion fuel w self r = some w1 ∧ w1.topo = w.topo ∧ w1.orphaned = w.orphaned ∧
        w1.killed = w.killed ∧ w1.cacheMissFull = w.cacheMissFull := by
  intro fuel
  induction fuel with
  | zero =>
    intro w self h
    simp [childDepthOk] at h
  | succ n ih =>
    intro w self h
    have hall : ∀ c ∈ (w.topo self).mChildList, childDepthOk w.topo n c = true := by
      simpa [childDepthOk, List.all_eq_true] using h
    obtain ⟨w2, h2, ht2, ho2, hk2, hc2⟩ := foldlM_setRegion_ok n r ih (w.topo self).mChildList
      (w.setSt self { w.st self with mLatestRecvPacketID := 0, mRegionp := r }) hall
    refine ⟨w2.setChanged self [.MOVED, .SILHOUETTE], ?_, ht2, ho2, hk2, hc2⟩
    unfold setRegion
    dsimp only
    have : ((w.setSt self { w.st self with mLatestRecvPacketID := 0, mRegionp := r }).topo self)
        = w.topo self := rfl
    rw [this, h2]
    rfl

/-- The region handling ends over a bounded tree of children and leaves the
scene graph and the logs alone. -/
theorem updateRegion_ok (env : UpdateEnv) (w : World) (self : Handle) (m : MsgSys)
    (hdepth : childDepthOk w.topo (w.maxChain + 1) self = true) :
    ∃ w1, updateRegion env w self m = some w1 ∧ w1.topo = w.topo ∧
      w1.orphaned = w.orphaned ∧ w1.killed = w.killed ∧
      w1.cacheMissFull = w.cacheMissFull := by
  unfold updateRegion
  dsimp only
  split
  · split
    · exact setRegion_ok _ _ _ _ hdepth
    · exact ⟨_, rfl, rfl, rfl, rfl, rfl⟩
  · exact ⟨_, rfl, rfl, rfl, rfl, rfl⟩

/-- An update that has its message system when it comes in a raw buffer
decodes. -/
theorem decodeUpdate_some (env : UpdateEnv) (msg : UpdateMsg) (s : ObjState) (d : Decoded)
    (hmsg : msg.dp = none → msg.mesgsys.isSome = true) :
    ∃ r, decodeUpdate env msg s d = some r := by
  unfold decodeUpdate
  cases hdp : msg.dp with
  | some p => exact ⟨_, rfl⟩
  | none =>
    cases hm : msg.mesgsys with
    | some m => exact ⟨_, rfl⟩
    | none =>
      have := hmsg hdp
      rw [hm] at this
      exact Bool.noConfusion this

/-- What comes before the parenting section ends and leaves the scene graph
and the orphan list alone. -/
theorem prepareUpdate_frame (env : UpdateEnv) (w : World) (self : Handle) (msg : UpdateMsg)
    (hmsg : msg.dp = none → msg.mesgsys.isSome = true)
    (hdepth : childDepthOk w.topo (w.maxChain + 1) self = true) :
    (∃ w1 rv, prepareUpdate env w self msg = some (.returned w1 rv) ∧
      w1.topo = w.topo ∧ w1.orphaned = w.orphaned) ∨
    (∃ w2 d1 cur td, prepareUpdate env w self msg = some (.ready w2 d1 cur td) ∧
      w2.topo = w.topo ∧ w2.orphaned = w.orphaned) := by
  have hdec : ∀ s d, ∃ r, decodeUpdate env msg s d = some r :=
    fun s d => decodeUpdate_some env msg s d hmsg
  unfold prepareUpdate
  split
  · exact Or.inl ⟨_, _, rfl, rfl, rfl⟩
  · cases hm : msg.mesgsys with
    | none =>
      dsimp only
      cases hr : (w.st self).mRegionp with
      | none => exact Or.inl ⟨_, _, rfl, rfl, rfl⟩
      | some region =>
        dsimp only
        split
        · rename_i hnone
          obtain ⟨r, hr2⟩ := hdec _ _
          rw [hr2] at hnone
          exact Option.noConfusion hnone
        · exact Or.inr ⟨_, _, _, _, rfl, rfl, rfl⟩
    | some m =>
      dsimp only
      obtain ⟨w1, h1, ht1, ho1, _, _⟩ := updateRegion_ok env w self m hdepth
      rw [h1]
      dsimp only
      cases hr : (w1.st self).mRegionp with
      | none => exact Or.inl ⟨_, _, rfl, ht1, ho1⟩
      | some region =>
        dsimp only
        split
        · rename_i hnone
          obtain ⟨r, hr2⟩ := hdec _ _
          rw [hr2] at hnone
          exact Option.noConfusion hnone
        · exact Or.inr ⟨_, _, _, _, rfl, ht1, ho1⟩

/-- What follows the parenting section does not touch the orphan list. -/
theorem finishUpdate_orphaned (env : UpdateEnv) (msg : UpdateMsg) (w3 : World) (self : Handle)
    (d1 : Decoded) (b : Bool) (td : ℚ) :
    (finishUpdate env msg w3 self d1 b td).1.orphaned = w3.orphaned := by
  unfold finishUpdate
  dsimp only
  split
  · rfl
  · rw [(applyUpdate_frame _ _ _ _ _).2.2.2]
    split <;> rfl

/-- C13: a call of `processUpdateMessage` with update type `OUT_TERSE_IMPROVED`,
with its message system when the buffer is raw, on an object whose children
form a tree within the walk bound, returns, and afterwards the object has the
parent and the child list it had before, as has every other object, and the
orphan list is as it was. -/
theorem C13_terse_update_keeps_topology (env : UpdateEnv) (w : World) (self : Handle)
    (msg : UpdateMsg)
    (hterse : msg.update_type = OUT_TERSE_IMPROVED)
    (hmsg : msg.dp = none → msg.mesgsys.isSome = true)
    (hdepth : childDepthOk w.topo (w.maxChain + 1) self = true) :
    ∃ w1 rv, processUpdateMessage env w self msg = some (w1, rv) ∧
      (w1.topo self).mParent = (w.topo self).mParent ∧
      (w1.topo self).mChildList = (w.topo self).mChildList ∧
      w1.topo = w.topo ∧
      w1.orphaned = w.orphaned := by
  unfold processUpdateMessage
  rcases prepareUpdate_frame env w self msg hmsg hdepth with
    ⟨w1, rv, h, ht, ho⟩ | ⟨w2, d1, cur, td, h, ht, ho⟩
  · rw [h]
    exact ⟨w1, rv, rfl, by rw [ht], by rw [ht], ht, ho⟩
  · rw [h]
    have hfix : fixParenting env w2 self msg.update_type d1.parent_id cur
        = some (.goesOn w2 false) := by
      unfold fixParenting
      simp [hterse]
    simp only [hfix]
    have hft := (finishUpdate_frame env msg w2 self d1 false td).1
    have hfo := finishUpdate_orphaned env msg w2 self d1 false td
    have hall : (finishUpdate env msg w2 self d1 false td).1.topo = w.topo := hft.trans ht
    exact ⟨(finishUpdate env msg w2 self d1 false td).1,
      (finishUpdate env msg w2 self d1 false td).2, rfl,
      congrArg (fun t => (t self).mParent) hall,
      congrArg (fun t => (t self).mChildList) hall, hall, hfo.trans ho⟩

/-- C13 on the child B of A: a terse update that names the third object's local
id as parent leaves B under A, without children and not on the orphan list. -/
theorem C13_terse_update_witness :
    ∃ w1 rv, processUpdateMessage plainUpdateEnv cycleWorld 2 terseUpdate = some (w1, rv) ∧
      (w1.topo 2).mParent = some 1 ∧ (w1.topo 2).mChildList = [] ∧ w1.orphaned = [] := by
  obtain ⟨w1, rv, h, hp, hc, _, ho⟩ :=
    C13_terse_update_keeps_topology plainUpdateEnv cycleWorld 2 terseUpdate rfl
      (fun _ => rfl) (by decide)
  exact ⟨w1, rv, h, hp.trans (by decide), hc.trans (by decide), ho.trans rfl⟩

/-! ## Scene graph: child lists and parent pointers -/

/-- A chain of parents that ends within the fuel lets the walk answer. -/
theorem walkFinds_of_chainEnds (parentOf : Handle → Option Handle) (target : Handle) :
    ∀ (fuel : Nat) (start : Option Handle), chainEnds parentOf fuel start = true →
      ∃ b, walkFinds parentOf target fuel start = some b := by
  intro fuel
  induction fuel with
  | zero =>
    intro start h
    cases start with
    | none => exact ⟨false, rfl⟩
    | some s => simp [chainEnds] at h
  | succ n ih =>
    intro start h
    cases start with
    | none => exact ⟨false, rfl⟩
    | some s =>
      unfold walkFinds
      split
      · exact ⟨true, rfl⟩
      · exact ih _ (by simpa [chainEnds] using h)

/-- The links after `removeChild` on a listed child: the first entry of the
child is erased from the list, and the child loses its parent when that was
the object. -/
theorem removeChild_links (w : World) (self childp : Handle)
    (hmem : childp ∈ (w.topo self).mChildList) (i : Handle) :
    ((removeChild w self childp).topo i).mChildList
      = (if i = self then (w.topo self).mChildList.erase childp
         else (w.topo i).mChildList) ∧
    ((removeChild w self childp).topo i).mParent
      = (if i = childp ∧ (w.topo childp).mParent = some self then none
         else (w.topo i).mParent) := by
  have hp1 : ((w.setTopo self
      { w.topo self with mChildList := (w.topo self).mChildList.erase childp }).topo
        childp).mParent = (w.topo childp).mParent := by
    by_cases h : childp = self
    · subst h
      simp [World.setTopo]
    · simp [World.setTopo, h]
  unfold removeChild
  rw [if_pos hmem]
  dsimp only
  rw [hp1]
  by_cases hcond : (w.topo childp).mParent = some self
  · simp only [hcond, if_true, setParentNull, hp1, ne_eq, reduceCtorEq, not_false_eq_true,
      and_true]
    split <;> by_cases h1 : i = self <;> by_cases h2 : i = childp <;>
      simp [World.setTopo, h1, h2] <;> (try subst h1) <;> (try subst h2) <;>
      simp_all [World.setTopo]
  · simp only [hcond, if_false, and_false]
    split <;> by_cases h1 : i = self <;> simp [World.setTopo, h1]

/-- The links after `removeChild` when the child is not in the list: nothing
changes. -/
theorem removeChild_not_mem (w : World) (self childp : Handle)
    (hmem : childp ∉ (w.topo self).mChildList) : removeChild w self childp = w := by
  unfold removeChild
  rw [if_neg hmem]

/-- With consistent, duplicate-free child lists `removeChild` keeps them so. -/
theorem removeChild_consistent (w : World) (self childp : Handle)
    (hc : Consistent w) (hn : NoDupChildren w) :
    Consistent (removeChild w self childp) ∧ NoDupChildren (removeChild w self childp) := by
  by_cases hmem : childp ∈ (w.topo self).mChildList
  · have hpar : (w.topo childp).mParent = some self := (hc childp self).mp hmem
    refine ⟨?_, ?_⟩
    · intro c p
      rw [(removeChild_links w self childp hmem p).1, (removeChild_links w self childp hmem c).2]
      by_cases h1 : p = self
      · subst h1
        rw [if_pos rfl, (hn p).mem_erase_iff]
        by_cases h2 : c = childp
        · subst h2
          simp [hpar]
        · simp [h2, hc c p]
      · rw [if_neg h1]
        by_cases h2 : c = childp
        · subst h2
          simp only [hpar, and_self, if_true, reduceCtorEq, iff_false]
          intro hmem2
          have := (hc c p).mp hmem2
          rw [hpar] at this
          exact h1 (Option.some.inj this).symm
        · simp [h2, hc c p]
    · intro p
      rw [(removeChild_links w self childp hmem p).1]
      split
      · exact (hn self).erase childp
      · exact hn p
  · rw [removeChild_not_mem w self childp hmem]
    exact ⟨hc, hn⟩

/-- The links after a `setParent` under a new parent that the cycle walk lets
through: the object points at the new parent, and where the old parent listed
the object the first such entry is erased. -/
theorem setParent_links (w : World) (c p : Handle)
    (hne : (w.topo c).mParent ≠ some p)
    (hwalk : walkFinds (fun h => (w.topo h).mParent) c w.maxChain (w.topo p).mParent
      = some false) :
    ∃ w1, setParent w c (some p) = some (w1, true) ∧
      (∀ i, (w1.topo i).mParent = if i = c then some p else (w.topo i).mParent) ∧
      (∀ i, (w1.topo i).mChildList
        = if (w.topo c).mParent = some i ∧ c ∈ (w.topo i).mChildList
          then (w.topo i).mChildList.erase c else (w.topo i).mChildList) := by
  have hok : xformSetParentOk (fun h => (w.topo h).mParent) w.maxChain c (some p)
      = some true := by
    unfold xformSetParentOk
    rw [if_neg (fun h => hne h.symm)]
    simp only [hwalk, Option.map_some', Bool.not_false]
  unfold setParent
  rw [if_pos hne]
  simp only [hok]
  cases hold : (w.topo c).mParent with
  | none =>
    refine ⟨_, rfl, ?_, ?_⟩
    · intro i
      by_cases h : i = c <;> simp [World.setTopo, h]
    · intro i
      by_cases h : i = c <;> simp [World.setTopo, h]
  | some o =>
    have hop : o ≠ p := by
      intro h
      apply hne
      rw [hold, h]
    have hl : ∀ i, ((w.setTopo c { w.topo c with mParent := some p }).topo i).mChildList
        = (w.topo i).mChildList := by
      intro i
      by_cases h : i = c <;> simp [World.setTopo, h]
    have hpa : ∀ i, ((w.setTopo c { w.topo c with mParent := some p }).topo i).mParent
        = if i = c then some p else (w.topo i).mParent := by
      intro i
      by_cases h : i = c <;> simp [World.setTopo, h]
    refine ⟨removeChild (w.setTopo c { w.topo c with mParent := some p }) o c, rfl, ?_, ?_⟩
    · intro i
      by_cases hm : c ∈ (w.topo o).mChildList
      · rw [(removeChild_links _ o c (by rw [hl]; exact hm) i).2, hpa c, hpa i]
        have hpo : ¬ p = o := fun h => hop h.symm
        simp [hpo]
      · rw [removeChild_not_mem _ o c (by rw [hl]; exact hm), hpa i]
    · intro i
      by_cases hm : c ∈ (w.topo o).mChildList
      · rw [(removeChild_links _ o c (by rw [hl]; exact hm) i).1, hl, hl]
        by_cases hi : i = o
        · subst hi
          simp [hm]
        · have hoi : ¬ o = i := fun h => hi h.symm
          simp [hi, hoi]
      · rw [removeChild_not_mem _ o c (by rw [hl]; exact hm), hl]
        by_cases hi : i = o
        · subst hi
          simp [hm]
        · have hoi : ¬ o = i := fun h => hi h.symm
          simp [hoi]

/-- Consistency and the absence of duplicates depend on the links only. -/
theorem consistent_of_links (w w1 : World)
    (hp : ∀ i, (w1.topo i).mParent = (w.topo i).mParent)
    (hl : ∀ i, (w1.topo i).mChildList = (w.topo i).mChildList)
    (hc : Consistent w) (hn : NoDupChildren w) : Consistent w1 ∧ NoDupChildren w1 := by
  refine ⟨?_, ?_⟩
  · intro c p
    rw [hl, hp]
    exact hc c p
  · intro p
    rw [hl]
    exact hn p

/-- With consistent, duplicate-free child lists and a parent chain above the
object that ends within the walk bound, `addChild` returns and keeps the lists
consistent and duplicate-free. -/
theorem addChild_consistent (w : World) (self childp : Handle)
    (hc : Consistent w) (hn : NoDupChildren w)
    (hchain : chainEnds (fun h => (w.topo h).mParent) w.maxChain (w.topo self).mParent = true) :
    ∃ w1, addChild w self childp = some w1 ∧ Consistent w1 ∧ NoDupChildren w1 := by
  by_cases hmem : childp ∈ (w.topo self).mChildList
  · refine ⟨w, ?_, hc, hn⟩
    unfold addChild
    rw [if_pos hmem]
  · have hpar : (w.topo childp).mParent ≠ some self := fun h => hmem ((hc childp self).mpr h)
    -- the world after the selection property is propagated
    obtain ⟨w0, hw0, hp0, hl0, hm0⟩ :
        ∃ w0 : World,
          w0 = (if !(w.topo self).isAvatar then
              w.setTopo childp { w.topo childp with mbCanSelect := (w.topo self).mbCanSelect }
            else w) ∧
          (∀ i, (w0.topo i).mParent = (w.topo i).mParent) ∧
          (∀ i, (w0.topo i).mChildList = (w.topo i).mChildList) ∧
          w0.maxChain = w.maxChain := by
      refine ⟨_, rfl, ?_, ?_, ?_⟩
      · intro i
        split
        · by_cases h : i = childp <;> simp [World.setTopo, h]
        · rfl
      · intro i
        split
        · by_cases h : i = childp <;> simp [World.setTopo, h]
        · rfl
      · split <;> rfl
    have hfun : (fun h => (w0.topo h).mParent) = (fun h => (w.topo h).mParent) :=
      funext hp0
    obtain ⟨hc0, hn0⟩ := consistent_of_links w w0 hp0 hl0 hc hn
    obtain ⟨b, hb⟩ := walkFinds_of_chainEnds (fun h => (w.topo h).mParent) childp
      w.maxChain (w.topo self).mParent hchain
    unfold addChild
    rw [if_neg hmem]
    simp only [← hw0]
    cases b with
    | true =>
      have hset : setParent w0 childp (some self) = some (w0, false) := by
        unfold setParent
        rw [if_pos (by rw [hp0]; exact hpar)]
        have hok : xformSetParentOk (fun h => (w0.topo h).mParent) w0.maxChain childp
            (some self) = some false := by
          unfold xformSetParentOk
          rw [hfun, hm0, if_neg (fun h => hpar h.symm)]
          simp only [hb, Option.map_some', Bool.not_true]
        simp only [hok]
      rw [hset]
      exact ⟨w0, rfl, hc0, hn0⟩
    | false =>
      obtain ⟨w1, hset, hp1, hl1⟩ := setParent_links w0 childp self
        (by rw [hp0]; exact hpar) (by rw [hfun, hm0, hp0]; exact hb)
      rw [hset]
      dsimp only
      have key : ∀ wf : World, (∀ i, (wf.topo i).mParent = (w1.topo i).mParent) →
          (∀ i, (wf.topo i).mChildList
            = if i = self then (w1.topo self).mChildList ++ [childp]
              else (w1.topo i).mChildList) →
          Consistent wf ∧ NoDupChildren wf := by
        intro wf hpf hlf
        have hself : (w1.topo self).mChildList = (w.topo self).mChildList := by
          rw [hl1, hp0, hl0, if_neg (fun h => hpar h.1)]
        refine ⟨?_, ?_⟩
        · intro c p
          rw [hlf, hpf, hp1, hp0]
          by_cases h1 : p = self
          · subst h1
            rw [if_pos rfl, hself]
            by_cases h2 : c = childp
            · subst h2
              simp
            · simp [h2, hc c p]
          · rw [if_neg h1, hl1, hp0, hl0]
            have hsp : ¬ self = p := fun h => h1 h.symm
            by_cases h2 : c = childp
            · subst h2
              by_cases hcond : (w.topo c).mParent = some p ∧ c ∈ (w.topo p).mChildList
              · rw [if_pos hcond, (hn p).mem_erase_iff]
                simp [hsp]
              · rw [if_neg hcond]
                simp only [if_true, Option.some.injEq, hsp, iff_false]
                intro hm
                exact hcond ⟨(hc c p).mp hm, hm⟩
            · rw [if_neg h2]
              by_cases hcond : (w.topo childp).mParent = some p ∧ childp ∈ (w.topo p).mChildList
              · rw [if_pos hcond, (hn p).mem_erase_iff]
                simp [h2, hc c p]
              · rw [if_neg hcond]
                exact hc c p
        · intro p
          rw [hlf]
          by_cases h1 : p = self
          · subst h1
            rw [if_pos rfl, hself]
            refine List.Nodup.append (hn p) (List.nodup_singleton childp) ?_
            intro a ha hb
            rw [List.mem_singleton] at hb
            exact hmem (hb ▸ ha)
          · rw [if_neg h1, hl1, hp0, hl0]
            split
            · exact (hn p).erase childp
            · exact hn p
      split
      · refine ⟨_, rfl, key _ ?_ ?_⟩
        · intro i
          by_cases h : i = self <;> simp [World.setTopo, h]
        · intro i
          by_cases h : i = self <;> simp [World.setTopo, h]
      · refine ⟨_, rfl, key _ ?_ ?_⟩
        · intro i
          by_cases h : i = self <;> simp [World.setTopo, h]
        · intro i
          by_cases h : i = self <;> simp [World.setTopo, h]

/-- The three objects of `cycleWorld` have consistent, duplicate-free child
lists. -/
theorem cycleWorld_consistent : Consistent cycleWorld ∧ NoDupChildren cycleWorld := by
  refine ⟨?_, ?_⟩
  · intro c p
    by_cases hp1 : p = 1 <;> by_cases hp2 : p = 2 <;> by_cases hc1 : c = 1 <;>
      by_cases hc2 : c = 2 <;> simp [cycleWorld, plainTopo, hp1, hp2, hc1, hc2]
    exact fun h => hp1 h.symm
  · intro p
    by_cases hp1 : p = 1 <;> by_cases hp2 : p = 2 <;> simp [cycleWorld, plainTopo, hp1, hp2]

/-- C14, as stated, fails for `setParent`: from the consistent state of
`cycleWorld`, `setParent` of the third object under A succeeds and leaves it
pointing at A without being in the child list of A, and `setParent(NULL)` on
B succeeds and leaves B in the child list of A without parent. -/
theorem C14_setParent_counterexample :
    Consistent cycleWorld ∧
    (∃ w1, setParent cycleWorld 3 (some 1) = some (w1, true) ∧
      (w1.topo 3).mParent = some 1 ∧ 3 ∉ (w1.topo 1).mChildList ∧ ¬ Consistent w1) ∧
    (∃ w1, setParent cycleWorld 2 none = some (w1, true) ∧
      (w1.topo 2).mParent = none ∧ 2 ∈ (w1.topo 1).mChildList ∧ ¬ Consistent w1) := by
  refine ⟨cycleWorld_consistent.1, ⟨_, rfl, by decide, by decide, fun h => ?_⟩,
    ⟨_, rfl, by decide, by decide, fun h => ?_⟩⟩
  · have h1 := (h 3 1).mpr (by decide)
    revert h1
    decide
  · have h1 := (h 2 1).mp (by decide)
    revert h1
    decide

/-- C14 (amended): starting from a state where the child lists are the inverse
of the parent pointers and no child list holds an object twice, every call of
`removeChild` leads to such a state again, and so does every call of
`addChild`, which returns when the parent chain above the object ends within
the walk bound. `setParent` by itself updates the parent pointer only and
leaves the child list of the new parent to its caller. -/
theorem C14_child_lists_amended (w : World) (self childp : Handle)
    (hc : Consistent w) (hn : NoDupChildren w)
    (hchain : chainEnds (fun h => (w.topo h).mParent) w.maxChain (w.topo self).mParent = true) :
    (Consistent (removeChild w self childp) ∧ NoDupChildren (removeChild w self childp)) ∧
    (∃ w1, addChild w self childp = some w1 ∧ Consistent w1 ∧ NoDupChildren w1) :=
  ⟨removeChild_consistent w self childp hc hn, addChild_consistent w self childp hc hn hchain⟩

/-- The amended C14 on `cycleWorld`: removing B from A and adding the third
object under A. -/
theorem C14_child_lists_amended_witness :
    (Consistent (removeChild cycleWorld 1 2) ∧ NoDupChildren (removeChild cycleWorld 1 2)) ∧
    (∃ w1, addChild cycleWorld 1 3 = some w1 ∧ Consistent w1 ∧ NoDupChildren w1) := by
  have h := C14_child_lists_amended cycleWorld 1 2 cycleWorld_consistent.1
    cycleWorld_consistent.2 (by decide)
  exact ⟨h.1, (C14_child_lists_amended cycleWorld 1 3 cycleWorld_consistent.1
    cycleWorld_consistent.2 (by decide)).2⟩

/-! ## Destruction: the claims -/

/-- `loadFlags` does not write the position. -/
theorem loadFlags_position (env : UpdateEnv) (s : ObjState) (flags : Nat) :
    (loadFlags env s flags).position = s.position := by
  unfold loadFlags
  split <;> rfl

/-- The decoding does not write the position. -/
theorem decodeUpdate_position (env : UpdateEnv) (msg : UpdateMsg) (s : ObjState) (d : Decoded)
    (r : ObjState × Decoded) (h : decodeUpdate env msg s d = some r) :
    r.1.position = s.position := by
  unfold decodeUpdate at h
  split at h
  · split at h
    · cases h
      unfold decodeRaw
      split
      · dsimp only
        unfold decodeFullObjectData
        dsimp only
        split
        · split <;> rfl
        · split
          · split <;> rfl
          · rfl
      · dsimp only
        unfold decodeTerseObjectData
        dsimp only
        split
        · rfl
        · split <;> rfl
      · rfl
    · split at h
      · cases h
      · cases h
        rfl
  · cases h
    unfold decodePacked
    dsimp only
    split
    · rfl
    · dsimp only
      split
      · rw [loadFlags_position]
        split <;> rfl
      · split <;> rfl
    · dsimp only
      split
      · rw [loadFlags_position]
        split <;> rfl
      · split <;> rfl
    · rfl

theorem setParentNull_st (w : World) (c : Handle) : (setParentNull w c).1.st = w.st := by
  unfold setParentNull
  split <;> rfl

theorem removeChild_st (w : World) (a b : Handle) : (removeChild w a b).st = w.st := by
  unfold removeChild
  split
  · dsimp only
    split <;> split <;> simp [setParentNull_st]
  · rfl

theorem setParent_st (w : World) (c : Handle) (p : Option Handle) (r : World × Bool)
    (h : setParent w c p = some r) : r.1.st = w.st := by
  unfold setParent at h
  split at h
  · dsimp only at h
    split at h
    · cases h
    · cases h
      rfl
    · split at h
      · cases h
        simp [removeChild_st]
      · cases h
        rfl
  · cases h
    rfl

theorem addChild_st (w : World) (a b : Handle) (w1 : World) (h : addChild w a b = some w1) :
    w1.st = w.st := by
  unfold addChild at h
  split at h
  · cases h
    rfl
  · dsimp only at h
    have h0 : (if !(w.topo a).isAvatar then
        w.setTopo b { w.topo b with mbCanSelect := (w.topo a).mbCanSelect } else w).st = w.st := by
      split <;> rfl
    split at h
    · cases h
    · rename_i w2 hs
      have h2 : w2.st = w.st := (setParent_st _ _ _ _ hs).trans h0
      split at h <;> cases h <;> exact h2
    · rename_i w2 hs
      have h2 : w2.st = w.st := (setParent_st _ _ _ _ hs).trans h0
      cases h
      exact h2

theorem setDrawableParent_st (w : World) (c : Handle) (p : Option Handle) (r : World × Bool)
    (h : setDrawableParent w c p = some r) : r.1.st = w.st := by
  unfold setDrawableParent at h
  split at h
  · cases h
    rfl
  · dsimp only at h
    split at h
    · cases h
    · cases h
      rfl
    · cases h
      rfl

/-- `setChanged` does not write a position. -/
theorem setChanged_st_position (w : World) (h : Handle) (f : List ChangeFlag) (i : Handle) :
    ((w.setChanged h f).st i).position = (w.st i).position := by
  unfold World.setChanged World.setSt
  by_cases hi : i = h
  · subst hi
    simp
  · simp [hi]

/-- The branch "no parent now, new parent in message" writes no position when
it goes on. -/
theorem attachToNewParent_position (env : UpdateEnv) (w : World) (self : Handle)
    (parent_id : Nat) (w3 : World) (b : Bool)
    (h : attachToNewParent env w self parent_id = some (.goesOn w3 b)) :
    ∀ i, (w3.st i).position = (w.st i).position := by
  unfold attachToNewParent at h
  dsimp only at h
  split at h
  · cases h
  · rename_i w1 hrec
    have hw1 : w1.st = w.st := by
      split at hrec
      · split at hrec
        · rw [Option.map_eq_some'] at hrec
          obtain ⟨r, hd, hr⟩ := hrec
          rw [← hr, setDrawableParent_st _ _ _ _ hd, removeChild_st]
        · cases hrec
          rfl
      · cases hrec
        rfl
    split at h
    · rename_i sp _
      split at h
      · rw [Option.map_eq_some'] at h
        obtain ⟨r, hatt, hr⟩ := h
        cases r with
        | returned w2 => cases hr
        | goesOn w2 b2 =>
          have hw2 : w2.st = w1.st := by
            split at hatt
            · split at hatt
              · rw [Option.map_eq_some'] at hatt
                obtain ⟨w4, ha, he⟩ := hatt
                cases he
                exact addChild_st _ _ _ _ ha
              · split at hatt
                · cases hatt
                · cases hatt
                · rename_i w5 hs
                  rw [Option.map_eq_some'] at hatt
                  obtain ⟨w4, ha, he⟩ := hatt
                  cases he
                  rw [addChild_st _ _ _ _ ha]
                  exact setDrawableParent_st _ _ _ _ hs
            · rw [Option.map_eq_some'] at hatt
              obtain ⟨w4, ha, he⟩ := hatt
              cases he
              exact addChild_st _ _ _ _ ha
          cases hr
          intro i
          rw [setChanged_st_position, hw2, hw1]
      · cases h
        intro i
        show (w1.st i).position = (w.st i).position
        rw [hw1]
    · cases h
      intro i
      show (w1.st i).position = (w.st i).position
      rw [hw1]

/-- The branch "parented now, different parent in message" writes no position
when it goes on. -/
theorem switchParent_position (env : UpdateEnv) (w : World) (self : Handle)
    (parent_id : Nat) (cur : Handle) (w3 : World) (b : Bool)
    (h : switchParent env w self parent_id cur = some (.goesOn w3 b)) :
    ∀ i, (w3.st i).position = (w.st i).position := by
  unfold switchParent at h
  dsimp only at h
  generalize hsent : (if parent_id = 0 then ((none : Option Handle), w)
    else
      match env.findObjectFromLocal parent_id with
      | some sp => (some sp, w)
      | none =>
        if (w.topo self).isAvatar then (some cur, w)
        else (none, { w with orphaned := w.orphaned ++ [(self, parent_id)] })) = sent at h
  have hw1 : sent.2.st = w.st := by
    rw [← hsent]
    split
    · rfl
    · split
      · rfl
      · split <;> rfl
  split at h
  · rename_i sp _
    split at h
    · split at h
      · cases h
      · cases h
      · rename_i w2 hl
        have hw2 : w2.st = sent.2.st := by
          split at hl
          · exact setDrawableParent_st _ _ _ _ hl
          · cases hl
            rfl
        rw [Option.map_eq_some'] at h
        obtain ⟨w4, ha, he⟩ := h
        cases he
        intro i
        rw [setChanged_st_position, setChanged_st_position, addChild_st _ _ _ _ ha,
          removeChild_st, hw2, hw1]
    · cases h
      intro i
      rw [hw1]
  · split at h
    · rw [Option.map_eq_some'] at h
      obtain ⟨w2, hu, he⟩ := h
      have hw2 : w2.st = sent.2.st := by
        split at hu
        · rw [Option.map_eq_some'] at hu
          obtain ⟨r, hd, hr⟩ := hu
          rw [← hr]
          exact setDrawableParent_st _ _ _ _ hd
        · cases hu
          rfl
      cases he
      intro i
      rw [setChanged_st_position, removeChild_st, hw2, hw1]
    · cases h
      intro i
      rw [hw1]

/-- The parenting section writes no position when it goes on. -/
theorem fixParenting_position (env : UpdateEnv) (w : World) (self : Handle)
    (update_type : EObjectUpdateType) (parent_id : Nat) (cur : Option Handle)
    (w3 : World) (b : Bool)
    (h : fixParenting env w self update_type parent_id cur = some (.goesOn w3 b)) :
    ∀ i, (w3.st i).position = (w.st i).position := by
  unfold fixParenting at h
  split at h
  · split at h
    · split at h
      · cases h
        exact fun _ => rfl
      · exact attachToNewParent_position env w self parent_id w3 b h
    · split at h
      · cases h
        exact fun _ => rfl
      · exact switchParent_position env w self parent_id _ w3 b h
  · cases h
    exact fun _ => rfl

/-- Without a region crossing the region handling keeps the position. -/
theorem updateRegion_position (env : UpdateEnv) (w : World) (self : Handle) (m : MsgSys)
    (w1 : World) (h : updateRegion env w self m = some w1)
    (hsame : ∀ regionp cur, m.regionFromHandle = some regionp →
      (w.st self).mRegionp = some cur → regionp = cur) :
    (w1.st self).position = (w.st self).position := by
  unfold updateRegion at h
  dsimp only at h
  split at h
  · rename_i regionp cur hr hc
    split at h
    · rename_i hne
      exact absurd (hsame regionp cur hr hc) hne
    · cases h
      simp [World.setSt]
  · cases h
    simp [World.setSt]

/-- Without a region crossing the object reaches the parenting section at the
position it had. -/
theorem prepareUpdate_position (env : UpdateEnv) (w : World) (self : Handle) (msg : UpdateMsg)
    (w2 : World) (d1 : Decoded) (cur : Option Handle) (td : ℚ)
    (h : prepareUpdate env w self msg = some (.ready w2 d1 cur td))
    (hsame : ∀ m regionp cur, msg.mesgsys = some m → m.regionFromHandle = some regionp →
      (w.st self).mRegionp = some cur → regionp = cur) :
    (w2.st self).position = (w.st self).position := by
  unfold prepareUpdate at h
  split at h
  · cases h
  · cases hm : msg.mesgsys with
    | none =>
      simp only [hm] at h
      split at h
      · cases h
      · split at h
        · cases h
        · rename_i s1 d2 hdec
          cases h
          have := decodeUpdate_position _ _ _ _ _ hdec
          simpa [World.setSt] using this
    | some m =>
      simp only [hm] at h
      cases hu : updateRegion env w self m with
      | none => simp [hu] at h
      | some w1 =>
        have hp1 := updateRegion_position env w self m w1 hu (fun r c => hsame m r c hm)
        simp only [hu] at h
        split at h
        · cases h
        · split at h
          · cases h
          · rename_i s1 d2 hdec
            cases h
            have := decodeUpdate_position _ _ _ _ _ hdec
            simp only [World.setSt, if_true]
            rw [this]
            exact hp1

/-- C18, as stated, fails in two ways. The object at (5,5,5), last updated by
packet 100, receives a full update that places it at the origin while the
squared distance counts as not finite. Carried by packet 50 the update is old:
the call returns before the distance is tested and the returned flag word has
no `INVALID_UPDATE` bit. Carried by packet 200 from the region next door, the
update makes the object cross regions: the position is shifted by the distance
between the two region origins before the decoding, so the object does not end
at the position it had before the call, although the bit is returned. -/
theorem C18_nonfinite_counterexample :
    (decodedDistanceFinite overflowEnv
        (prepareUpdate overflowEnv placedWorld 3 (fullUpdate 50 0 0 0)) = some false ∧
      (placedWorld.st 3).position = ⟨5, 5, 5⟩ ∧
      (processUpdateMessage overflowEnv placedWorld 3 (fullUpdate 50 0 0 0)).map
          (fun r => ((r.1.st 3).position, r.2 &&& overflowEnv.INVALID_UPDATE))
        = some (⟨5, 5, 5⟩, 0)) ∧
    (decodedDistanceFinite crossingEnv
        (prepareUpdate crossingEnv placedWorld 3 crossingUpdate) = some false ∧
      (processUpdateMessage crossingEnv placedWorld 3 crossingUpdate).map
          (fun r => ((r.1.st 3).position, r.2 &&& crossingEnv.INVALID_UPDATE))
        = some (⟨-251, 5, 5⟩, crossingEnv.INVALID_UPDATE)) := by
  refine ⟨⟨by decide!, by decide!, by decide!⟩, ⟨by decide!, by decide!⟩⟩

/-- C18 (amended): an update that reaches the application of the decoded values
(decoded, parenting done without the kill, packet not old), in an environment
where a zero distance is finite. If the squared distance between the decoded
position, as it enters the application, and the previous position is not
finite, the call returns the decoded flag word with the `INVALID_UPDATE` bit
put in and does not set the decoded position: an object whose parent is no
avatar keeps the position it had when that step began, which without a region
crossing is the position it had before the call, and an object whose parent is
an avatar ends at the position `clampAttachmentPositions` of the avatar gives
from the positions as they were. If the squared distance is finite, the call
returns the decoded flag word as it is. -/
theorem C18_nonfinite_position_amended (env : UpdateEnv) (w : World) (self : Handle)
    (msg : UpdateMsg) (w2 : World) (d1 : Decoded) (cur : Option Handle) (td : ℚ)
    (w3 : World) (b : Bool)
    (hprep : prepareUpdate env w self msg = some (.ready w2 d1 cur td))
    (hfix : fixParenting env w2 self msg.update_type d1.parent_id cur = some (.goesOn w3 b))
    (hnew : isOldPacket msg (w3.st self) = false)
    (hzero : env.llfinite 0 = true) :
    ∃ w1 rv, processUpdateMessage env w self msg = some (w1, rv) ∧
      (env.llfinite ((pingAdjusted env msg w3 self d1 td).new_pos_parent
          - d1.test_pos_parent).magVecSquared = false →
        rv = d1.retval ||| env.INVALID_UPDATE ∧
        ((∀ p, (w3.topo self).mParent = some p → (w3.topo p).isAvatar = false) →
          (w1.st self).position = (w3.st self).position ∧
          ((∀ m regionp c, msg.mesgsys = some m → m.regionFromHandle = some regionp →
              (w.st self).mRegionp = some c → regionp = c) →
            (w1.st self).position = (w.st self).position)) ∧
        (∀ p, (w3.topo self).mParent = some p → (w3.topo p).isAvatar = true →
          (w1.st self).position
            = env.clampAttachmentPositions p (fun i => (w3.st i).position) self)) ∧
      (env.llfinite ((pingAdjusted env msg w3 self d1 td).new_pos_parent
          - d1.test_pos_parent).magVecSquared = true →
        rv = d1.retval) := by
  obtain ⟨w4, hpos, htopo, hfin⟩ := finishUpdate_applies env msg w3 self d1 b td hnew
  obtain ⟨hret, htest⟩ := pingAdjusted_retval env msg w3 self d1 td
  have hposf : (fun i => (w4.st i).position) = fun i => (w3.st i).position := funext hpos
  refine ⟨(applyUpdate env w4 self (pingAdjusted env msg w3 self d1 td) b).1,
    (applyUpdate env w4 self (pingAdjusted env msg w3 self d1 td) b).2, ?_, ?_, ?_⟩
  · unfold processUpdateMessage
    simp only [hprep, hfix]
    rw [hfin]
  · intro hnf
    rw [← htest] at hnf
    obtain ⟨h1, h2, h3⟩ := applyUpdate_nonfinite env w4 self _ b hzero hnf
    refine ⟨by rw [h1, hret], ?_, ?_⟩
    · intro hno
      have hkeep := h2 (by rw [htopo]; exact hno)
      rw [hpos] at hkeep
      refine ⟨hkeep, ?_⟩
      intro hsame
      rw [hkeep, fixParenting_position env w2 self _ _ _ w3 b hfix self]
      exact prepareUpdate_position env w self msg w2 d1 cur td hprep hsame
    · intro p hp hav
      have hclamp := h3 p (by rw [htopo]; exact hp) (by rw [htopo]; exact hav)
      rw [hposf] at hclamp
      exact hclamp
  · intro hf
    rw [← htest] at hf
    rw [applyUpdate_finite env w4 self _ b hf, hret]

/-- The amended C18 at a concrete update: the object at (5,5,5), which has no
parent, receives from its own region a full update that places it at the
origin while the squared distance counts as not finite; it stays at (5,5,5)
and the call returns the `INVALID_UPDATE` bit. -/
theorem C18_nonfinite_position_amended_witness :
    ∃ w1 rv, processUpdateMessage overflowEnv placedWorld 3 (fullUpdate 200 0 0 0)
        = some (w1, rv) ∧
      (w1.st 3).position = (placedWorld.st 3).position ∧
      (w1.st 3).position = ⟨5, 5, 5⟩ ∧ rv = overflowEnv.INVALID_UPDATE := by
  obtain ⟨w1, rv, h, hnf, _⟩ :=
    C18_nonfinite_position_amended overflowEnv placedWorld 3 (fullUpdate 200 0 0 0)
      _ _ _ _ _ _ rfl rfl (by decide!) (by decide!)
  obtain ⟨hr, hp, _⟩ := hnf (by decide!)
  obtain ⟨_, hp1⟩ := hp (fun p hpar => Option.noConfusion hpar)
  have hp2 := hp1 (by
    intro m regionp c hm hr2 hc
    cases hm
    cases hr2
    cases hc
    rfl)
  refine ⟨w1, rv, h, hp2, ?_, ?_⟩
  · rw [hp2]
    decide!
  · rw [hr]
    decide!

/-! ## Task inventory: results for objects that are gone -/

/-- C21: an inventory result that arrives for a task id under which the object
list holds no object leaves the object list as it is, whichever handler takes
it: `processTaskInv`, `processTaskInvFile`, the resumption of
`fetchInventoryFromCapCoro` and the resumption of `fetchInventoryDelayedCoro`.
So no object has its serial counters, request state or cached inventory
changed. -/
theorem C21_result_for_missing_object_dropped (objs : ObjectList) (task_id : LLUUID)
    (hgone : objs task_id = none)
    (msg : TaskInvMsg) (hmsg : msg.task_id = task_id)
    (ft : LLFilenameAndTask) (hft : ft.mTaskID = task_id)
    (error_code : Int) (loaded : Option (List LLInventoryObject)) (result : CapResult) :
    processTaskInv objs msg = objs ∧
    processTaskInvFile objs (some ft) error_code loaded = objs ∧
    fetchInventoryFromCapCoro_resume objs task_id result = objs ∧
    fetchInventoryDelayedCoro_resume objs task_id = objs := by
  refine ⟨?_, ?_, ?_, ?_⟩
  · unfold processTaskInv
    rw [hmsg, hgone]
  · unfold processTaskInvFile
    simp only [hft, hgone]
    split <;> rfl
  · unfold fetchInventoryFromCapCoro_resume
    rw [hgone]
  · unfold fetchInventoryDelayedCoro_resume
    rw [hgone]

/-- C21 on the object list of the scenario, for results addressed to the id 2,
which the list does not hold: the scenario object under id 1 is as before. -/
theorem C21_result_for_missing_object_witness :
    (processTaskInv scenarioObjectList { staleReply with task_id := 2 } = scenarioObjectList ∧
     processTaskInvFile scenarioObjectList (some { plainFile with mTaskID := 2 }) 0
        (some [plainItem]) = scenarioObjectList ∧
     fetchInventoryFromCapCoro_resume scenarioObjectList 2 staleCapResult
        = scenarioObjectList ∧
     fetchInventoryDelayedCoro_resume scenarioObjectList 2 = scenarioObjectList) ∧
    scenarioObjectList 2 = none ∧ scenarioObjectList 1 = some staleScenarioObject :=
  ⟨C21_result_for_missing_object_dropped scenarioObjectList 2 (by decide)
    { staleReply with task_id := 2 } rfl { plainFile with mTaskID := 2 } rfl 0
    (some [plainItem]) staleCapResult, by decide, by decide⟩

/-! ## Task inventory: deleting an item -/

/-- The list part of `deleteInventoryItem` finds a match exactly when some
entry has the id, and then leaves the list without its first match. -/
theorem eraseFirstWithID_spec (item_id : LLUUID) :
    ∀ inv : List LLInventoryObject,
      (eraseFirstWithID item_id inv = none ↔ ∀ x ∈ inv, x.uuid ≠ item_id) ∧
      (∀ r, eraseFirstWithID item_id inv = some r → r = withoutFirstMatch item_id inv) := by
  intro inv
  induction inv with
  | nil =>
    refine ⟨by simp [eraseFirstWithID], ?_⟩
    intro r h
    simp [eraseFirstWithID] at h
  | cons x xs ih =>
    by_cases hx : x.uuid = item_id
    · refine ⟨by simp [eraseFirstWithID, hx], ?_⟩
      intro r h
      simp only [eraseFirstWithID, hx, if_true, Option.some.injEq] at h
      simp [withoutFirstMatch, List.takeWhile, List.dropWhile, hx, h]
    · refine ⟨?_, ?_⟩
      · simp only [eraseFirstWithID, hx, if_false, Option.map_eq_none', List.mem_cons,
          forall_eq_or_imp, ne_eq, not_false_eq_true, true_and]
        exact ih.1
      · intro r h
        simp only [eraseFirstWithID, hx, if_false, Option.map_eq_some'] at h
        obtain ⟨r1, h1, h2⟩ := h
        rw [← h2, ih.2 r1 h1]
        simp [withoutFirstMatch, List.takeWhile, List.dropWhile, hx]

/-- Without its first match, a list split at that match is what stands before
it followed by what stands after it. -/
theorem withoutFirstMatch_split (item_id : LLUUID) (x : LLInventoryObject)
    (post : List LLInventoryObject) (hx : x.uuid = item_id) :
    ∀ pre : List LLInventoryObject, (∀ y ∈ pre, y.uuid ≠ item_id) →
      withoutFirstMatch item_id (pre ++ x :: post) = pre ++ post := by
  intro pre
  induction pre with
  | nil =>
    intro _
    simp [withoutFirstMatch, List.takeWhile, List.dropWhile, hx]
  | cons y ys ih =>
    intro h
    have hy : y.uuid ≠ item_id := h y (List.mem_cons_self y ys)
    have hys := ih (fun z hz => h z (List.mem_cons_of_mem y hz))
    unfold withoutFirstMatch at hys ⊢
    simp only [List.cons_append, List.takeWhile, List.dropWhile, hy, ne_eq, not_false_eq_true,
      decide_True]
    exact congrArg (fun l => y :: l) hys

/-- Without a match nothing is taken away. -/
theorem withoutFirstMatch_none (item_id : LLUUID) :
    ∀ inv : List LLInventoryObject, (∀ y ∈ inv, y.uuid ≠ item_id) →
      withoutFirstMatch item_id inv = inv := by
  intro inv
  induction inv with
  | nil =>
    intro _
    rfl
  | cons y ys ih =>
    intro h
    have hy : y.uuid ≠ item_id := h y (List.mem_cons_self y ys)
    have hys := ih (fun z hz => h z (List.mem_cons_of_mem y hz))
    unfold withoutFirstMatch at hys ⊢
    simp only [List.takeWhile, List.dropWhile, hy, ne_eq, not_false_eq_true, decide_True,
      List.cons_append]
    exact congrArg (fun l => y :: l) hys

/-- C27: on a cached inventory list `deleteInventoryItem` leaves the list
without its first entry of id `item_id`: when the list is `pre ++ x :: post`
with `x` the first entry of that id, the list afterwards is `pre ++ post`, and
when no entry has the id the list is unchanged. -/
theorem C27_delete_first_match (o : InvObj) (item_id : LLUUID) (inv : List LLInventoryObject)
    (hinv : o.mInventory = some inv) :
    (deleteInventoryItem o item_id).mInventory = some (withoutFirstMatch item_id inv) ∧
    (∀ pre x post, inv = pre ++ x :: post → x.uuid = item_id →
      (∀ y ∈ pre, y.uuid ≠ item_id) →
      (deleteInventoryItem o item_id).mInventory = some (pre ++ post)) ∧
    ((∀ y ∈ inv, y.uuid ≠ item_id) → (deleteInventoryItem o item_id).mInventory = some inv) := by
  have hmain : (deleteInventoryItem o item_id).mInventory
      = some (withoutFirstMatch item_id inv) := by
    unfold deleteInventoryItem
    rw [hinv]
    dsimp only
    cases he : eraseFirstWithID item_id inv with
    | none =>
      dsimp only
      rw [doInventoryCallback_mInventory, hinv,
        withoutFirstMatch_none item_id inv ((eraseFirstWithID_spec item_id inv).1.mp he)]
    | some r =>
      dsimp only
      rw [(eraseFirstWithID_spec item_id inv).2 r he]
  refine ⟨hmain, ?_, ?_⟩
  · intro pre x post hsplit hx hpre
    rw [hmain, hsplit, withoutFirstMatch_split item_id x post hx pre hpre]
  · intro hno
    rw [hmain, withoutFirstMatch_none item_id inv hno]

/-- C27 on a list with two entries of id 10: only the first one goes. -/
theorem C27_delete_first_match_witness :
    (deleteInventoryItem { staleScenarioObject with mInventory := some doubledInventory }
        10).mInventory
      = some [{ plainItem with uuid := 11, assetUUID := 21 }, { plainItem with assetUUID := 22 }] ∧
    (deleteInventoryItem { staleScenarioObject with mInventory := some doubledInventory }
        12).mInventory
      = some doubledInventory := by
  have h := C27_delete_first_match
    { staleScenarioObject with mInventory := some doubledInventory } 10 doubledInventory rfl
  have h2 := C27_delete_first_match
    { staleScenarioObject with mInventory := some doubledInventory } 12 doubledInventory rfl
  exact ⟨h.2.1 [] plainItem _ rfl rfl (by simp), h2.2.2 (by decide)⟩

/-! ## Task inventory: the pending asset ids -/

/-- C29 at a failing input: the object waits for the asset id 77 and the file
that loads holds one texture item with asset id 20. The search
`std::find(pending_lst.begin(), pending_lst.begin(), ...)` covers no entry and
hands back `pending_lst.begin()`, so the first pending id is erased although
it matches no loaded item: the pending list ends empty. In general one item
that is not a category erases the first pending id, whatever the two ids
are. -/
theorem C29_unmatched_pending_id_erased :
    pendingAssetObject.mPendingInventoryItemsIDs = [77] ∧
    (∀ it ∈ [plainItem], it.assetUUID ≠ 77) ∧
    (processTaskInvFile pendingAssetList (some plainFile) 0 (some [plainItem]) 1).map
        (fun o => (o.mInventory, o.mPendingInventoryItemsIDs))
      = some (some [plainItem], []) ∧
    (∀ (it : LLInventoryObject) (p : LLUUID) (ps : List LLUUID),
      it.isItem = true → it.type ≠ EType.AT_CATEGORY → erasePending [it] (p :: ps) = ps) := by
  refine ⟨by decide, by decide, by decide, ?_⟩
  intro it p ps h1 h2
  cases ps <;> simp [erasePending, h1, h2]

/-! ## Flags: facts -/

/-- A 32-bit word has no bit at or above position 32. -/
theorem testBit_of_lt_u32 (x i : Nat) (hx : x < 2 ^ 32) (hi : 32 ≤ i) : x.testBit i = false :=
  Nat.testBit_lt_two_pow (lt_of_lt_of_le hx (Nat.pow_le_pow_right (by decide) hi))

/-- The bits of `mFlags & ~flags` on 32-bit words. -/
theorem testBit_and_not_u32 (m f i : Nat) (hm : m < 2 ^ 32) :
    (m &&& (f ^^^ (2 ^ 32 - 1))).testBit i = (m.testBit i && !f.testBit i) := by
  rw [Nat.testBit_and, Nat.testBit_xor, Nat.testBit_two_pow_sub_one]
  by_cases hi : i < 32
  · simp [hi]
  · rw [testBit_of_lt_u32 m i hm (not_lt.mp hi)]
    simp

theorem setFlagsWithoutUpdate_set_kept (m f : Nat) (h : m &&& f = f) :
    setFlagsWithoutUpdate m f true = (m, false) := by
  simp [setFlagsWithoutUpdate, h]

theorem setFlagsWithoutUpdate_set_changed (m f : Nat) (h : m &&& f ≠ f) :
    setFlagsWithoutUpdate m f true = (m ||| f, true) := by
  simp [setFlagsWithoutUpdate, h]

theorem setFlagsWithoutUpdate_clear_kept (m f : Nat) (h : m &&& f = 0) :
    setFlagsWithoutUpdate m f false = (m, false) := by
  simp [setFlagsWithoutUpdate, h]

theorem setFlagsWithoutUpdate_clear_changed (m f : Nat) (h : m &&& f ≠ 0) :
    setFlagsWithoutUpdate m f false = (m &&& (f ^^^ (2 ^ 32 - 1)), true) := by
  simp [setFlagsWithoutUpdate, h]

/-- C30: on 32-bit words `setFlagsWithoutUpdate` leaves every bit outside the
mask as it was, leaves all masked bits set when `state` is true and all masked
bits clear when `state` is false, returns true exactly when the flag word has
changed, and keeps the word within 32 bits. -/
theorem C30_setFlagsWithoutUpdate (mFlags flags : Nat) (state : Bool)
    (hm : mFlags < 2 ^ 32) (hf : flags < 2 ^ 32) :
    (∀ i, flags.testBit i = false →
      (setFlagsWithoutUpdate mFlags flags state).1.testBit i = mFlags.testBit i) ∧
    (state = true → (setFlagsWithoutUpdate mFlags flags state).1 &&& flags = flags) ∧
    (state = false → (setFlagsWithoutUpdate mFlags flags state).1 &&& flags = 0) ∧
    ((setFlagsWithoutUpdate mFlags flags state).2 = true ↔
      (setFlagsWithoutUpdate mFlags flags state).1 ≠ mFlags) ∧
    (setFlagsWithoutUpdate mFlags flags state).1 < 2 ^ 32 := by
  cases state with
  | true =>
    by_cases h : mFlags &&& flags = flags
    · rw [setFlagsWithoutUpdate_set_kept mFlags flags h]
      refine ⟨fun _ _ => rfl, fun _ => h, fun h0 => Bool.noConfusion h0, ?_, hm⟩
      constructor
      · intro h0
        exact Bool.noConfusion h0
      · intro h0
        exact absurd rfl h0
    · rw [setFlagsWithoutUpdate_set_changed mFlags flags h]
      refine ⟨?_, ?_, fun h0 => Bool.noConfusion h0, ?_, Nat.or_lt_two_pow hm hf⟩
      · intro i hi
        show (mFlags ||| flags).testBit i = mFlags.testBit i
        rw [Nat.testBit_or, hi, Bool.or_false]
      · intro _
        show (mFlags ||| flags) &&& flags = flags
        apply Nat.eq_of_testBit_eq
        intro i
        rw [Nat.testBit_and, Nat.testBit_or]
        cases mFlags.testBit i <;> cases flags.testBit i <;> rfl
      · constructor
        · intro _ heq
          have heq2 : mFlags ||| flags = mFlags := heq
          apply h
          apply Nat.eq_of_testBit_eq
          intro i
          have := congrArg (fun x => x.testBit i) heq2
          simp only [Nat.testBit_or] at this
          rw [Nat.testBit_and]
          revert this
          cases mFlags.testBit i <;> cases flags.testBit i <;> simp
        · intro _
          rfl
  | false =>
    by_cases h : mFlags &&& flags = 0
    · rw [setFlagsWithoutUpdate_clear_kept mFlags flags h]
      refine ⟨fun _ _ => rfl, fun h0 => Bool.noConfusion h0, fun _ => h, ?_, hm⟩
      constructor
      · intro h0
        exact Bool.noConfusion h0
      · intro h0
        exact absurd rfl h0
    · rw [setFlagsWithoutUpdate_clear_changed mFlags flags h]
      refine ⟨?_, fun h0 => Bool.noConfusion h0, ?_, ?_,
        lt_of_le_of_lt Nat.and_le_left hm⟩
      · intro i hi
        show (mFlags &&& (flags ^^^ (2 ^ 32 - 1))).testBit i = mFlags.testBit i
        rw [testBit_and_not_u32 mFlags flags i hm, hi]
        simp
      · intro _
        show (mFlags &&& (flags ^^^ (2 ^ 32 - 1))) &&& flags = 0
        apply Nat.eq_of_testBit_eq
        intro i
        rw [Nat.testBit_and, testBit_and_not_u32 mFlags flags i hm, Nat.zero_testBit]
        cases mFlags.testBit i <;> cases flags.testBit i <;> rfl
      · constructor
        · intro _ heq
          have heq2 : mFlags &&& (flags ^^^ (2 ^ 32 - 1)) = mFlags := heq
          apply h
          apply Nat.eq_of_testBit_eq
          intro i
          have := congrArg (fun x => x.testBit i) heq2
          simp only [testBit_and_not_u32 mFlags flags i hm] at this
          rw [Nat.testBit_and, Nat.zero_testBit]
          revert this
          cases mFlags.testBit i <;> cases flags.testBit i <;> simp
        · intro _
          rfl

/-- C30 on the flag word 0b1010 with the mask 0b0110: setting gives 0b1110 and
true, clearing gives 0b1000 and true, and setting the bits a second time
returns false. -/
theorem C30_setFlagsWithoutUpdate_witness :
    ((setFlagsWithoutUpdate 10 6 true = (14, true) ∧
      setFlagsWithoutUpdate 10 6 false = (8, true) ∧
      setFlagsWithoutUpdate 14 6 true = (14, false)) ∧
     (setFlagsWithoutUpdate 10 6 true).1 &&& 6 = 6) ∧
    ((setFlagsWithoutUpdate 10 6 true).2 = true ↔ (setFlagsWithoutUpdate 10 6 true).1 ≠ 10) :=
  ⟨⟨by decide, (C30_setFlagsWithoutUpdate 10 6 true (by decide) (by decide)).2.1 rfl⟩,
    (C30_setFlagsWithoutUpdate 10 6 true (by decide) (by decide)).2.2.2.1⟩

/-! ## Object updates: the time dilation -/

/-- The decoding does not write the region. -/
theorem decodeUpdate_region (env : UpdateEnv) (msg : UpdateMsg) (s : ObjState) (d : Decoded)
    (r : ObjState × Decoded) (h : decodeUpdate env msg s d = some r) :
    r.1.mRegionp = s.mRegionp := by
  have hlf : ∀ (s0 : ObjState) (f : Nat), (loadFlags env s0 f).mRegionp = s0.mRegionp := by
    intro s0 f
    unfold loadFlags
    split <;> rfl
  unfold decodeUpdate at h
  split at h
  · split at h
    · cases h
      unfold decodeRaw
      split
      · dsimp only
        unfold decodeFullObjectData
        dsimp only
        split
        · split <;> rfl
        · split
          · split <;> rfl
          · rfl
      · dsimp only
        unfold decodeTerseObjectData
        dsimp only
        split
        · rfl
        · split <;> rfl
      · rfl
    · split at h
      · cases h
      · cases h
        rfl
  · cases h
    unfold decodePacked
    dsimp only
    split
    · rfl
    · dsimp only
      split
      · rw [hlf]
        split <;> rfl
      · split <;> rfl
    · dsimp only
      split
      · rw [hlf]
        split <;> rfl
      · split <;> rfl
    · rfl

/-- An update that comes with a message system and gets past the region checks
stores `TimeDilation / 65535` on the region of the object. -/
theorem prepareUpdate_timeDilation (env : UpdateEnv) (w : World) (self : Handle)
    (msg : UpdateMsg) (m : MsgSys) (w2 : World) (d1 : Decoded) (cur : Option Handle) (td : ℚ)
    (hm : msg.mesgsys = some m)
    (h : prepareUpdate env w self msg = some (.ready w2 d1 cur td)) :
    td = (m.time_dilation16 : ℚ) / 65535 ∧
    ∃ region, (w2.st self).mRegionp = some region ∧ w2.timeDilation region = td := by
  unfold prepareUpdate at h
  split at h
  · cases h
  · simp only [hm] at h
    cases hu : updateRegion env w self m with
    | none => simp [hu] at h
    | some w1 =>
      simp only [hu] at h
      split at h
      · cases h
      · rename_i region hr
        split at h
        · cases h
        · rename_i s1 d2 hdec
          cases h
          have hreg := decodeUpdate_region _ _ _ _ _ hdec
          refine ⟨rfl, region, ?_, ?_⟩
          · simp only [World.setSt, if_true]
            rw [hreg]
            exact hr
          · simp [World.setSt]

/-- C25, as stated, fails: an update whose `TimeDilation` is 0 stores the
factor 0 on the region of the object, which is outside `(0, 1]`. -/
theorem C25_zero_dilation_counterexample :
    frozenUpdate.mesgsys.map (fun m => m.time_dilation16) = some 0 ∧
    (placedWorld.st 3).mRegionp = some 0 ∧
    (processUpdateMessage plainUpdateEnv placedWorld 3 frozenUpdate).map
        (fun r => ((r.1.st 3).mRegionp, r.1.timeDilation 0))
      = some (some 0, 0) := by
  refine ⟨by decide, by decide, by decide!⟩

/-- C25 (amended): for every 16-bit `TimeDilation` value carried by an update
message that gets past the region checks, the factor `value / 65535` that
`processUpdateMessage` computes and stores on the region of the object lies in
`[0, 1]`; it is above 0 exactly when the value is not 0. -/
theorem C25_time_dilation_amended (env : UpdateEnv) (w : World) (self : Handle)
    (msg : UpdateMsg) (m : MsgSys) (w2 : World) (d1 : Decoded) (cur : Option Handle) (td : ℚ)
    (hm : msg.mesgsys = some m)
    (h16 : m.time_dilation16 < 65536)
    (hprep : prepareUpdate env w self msg = some (.ready w2 d1 cur td)) :
    td = (m.time_dilation16 : ℚ) / 65535 ∧ 0 ≤ td ∧ td ≤ 1 ∧
    (0 < td ↔ m.time_dilation16 ≠ 0) ∧
    ∃ region, (w2.st self).mRegionp = some region ∧ w2.timeDilation region = td := by
  obtain ⟨htd, hreg⟩ := prepareUpdate_timeDilation env w self msg m w2 d1 cur td hm hprep
  have hle : (m.time_dilation16 : ℚ) ≤ 65535 := by
    have : m.time_dilation16 ≤ 65535 := Nat.lt_succ_iff.mp h16
    exact_mod_cast this
  have hnn : (0 : ℚ) ≤ (m.time_dilation16 : ℚ) := Nat.cast_nonneg _
  refine ⟨htd, ?_, ?_, ?_, hreg⟩
  · rw [htd]
    exact div_nonneg hnn (by norm_num)
  · rw [htd, div_le_one (by norm_num)]
    exact hle
  · rw [htd]
    constructor
    · intro hpos h0
      rw [h0] at hpos
      simp at hpos
    · intro hne
      have : (0 : ℚ) < (m.time_dilation16 : ℚ) := by
        exact_mod_cast Nat.pos_of_ne_zero hne
      exact div_pos this (by norm_num)

/-- The amended C25 on a full update with `TimeDilation` 65535: the factor
stored on region 0 is 1. -/
theorem C25_time_dilation_amended_witness :
    ∃ (w2 : World) (d1 : Decoded) (td : ℚ),
      prepareUpdate plainUpdateEnv placedWorld 3 (fullUpdate 200 0 0 0)
        = some (.ready w2 d1 none td) ∧
      td = 1 ∧ 0 ≤ td ∧ td ≤ 1 ∧
      ∃ region, (w2.st 3).mRegionp = some region ∧ w2.timeDilation region = td := by
  have h := C25_time_dilation_amended plainUpdateEnv placedWorld 3 (fullUpdate 200 0 0 0)
    _ _ _ _ _ rfl (by decide) rfl
  exact ⟨_, _, _, rfl, h.1.trans (by decide!), h.2.1, h.2.2.1, h.2.2.2.2⟩

/-! ## Edit root: the claims -/

/-- C22: when the chain of parents above `x` ends within `fuel` links,
`getRootEdit` returns an object `r` that stands `k` links above `x` (`k` may be
0, then `r` is `x`), `r` has no parent or an avatar as parent, and every object
on the chain below `r` has a parent that is not an avatar. -/
theorem C22_getRootEdit (topo : Handle → Topo) :
    ∀ (fuel : Nat) (x : Handle),
      chainEnds (fun h => (topo h).mParent) fuel (topo x).mParent = true →
      ∃ r k, getRootEdit topo fuel x = some r ∧ ancestorAt topo k x = some r ∧
        ((topo r).mParent = none ∨
          ∃ p, (topo r).mParent = some p ∧ (topo p).isAvatar = true) ∧
        ∀ j, j < k → ∃ y p, ancestorAt topo j x = some y ∧ (topo y).mParent = some p ∧
          (topo p).isAvatar = false := by
  intro fuel
  induction fuel with
  | zero =>
    intro x h
    cases hp : (topo x).mParent with
    | none =>
      refine ⟨x, 0, ?_, rfl, Or.inl hp, fun j hj => absurd hj (Nat.not_lt_zero j)⟩
      simp [getRootEdit, hp]
    | some p =>
      rw [hp] at h
      simp [chainEnds] at h
  | succ n ih =>
    intro x h
    cases hp : (topo x).mParent with
    | none =>
      refine ⟨x, 0, ?_, rfl, Or.inl hp, fun j hj => absurd hj (Nat.not_lt_zero j)⟩
      simp [getRootEdit, hp]
    | some p =>
      rw [hp] at h
      cases hav : (topo p).isAvatar with
      | true =>
        refine ⟨x, 0, ?_, rfl, Or.inr ⟨p, hp, hav⟩, fun j hj => absurd hj (Nat.not_lt_zero j)⟩
        simp [getRootEdit, hp, hav]
      | false =>
        obtain ⟨r, k, hr, hk, hroot, hbelow⟩ := ih p (by simpa [chainEnds] using h)
        refine ⟨r, k + 1, ?_, ?_, hroot, ?_⟩
        · simp [getRootEdit, hp, hav, hr]
        · simp [ancestorAt, hp, hk]
        · intro j hj
          cases j with
          | zero => exact ⟨x, p, rfl, hp, hav⟩
          | succ j =>
            obtain ⟨y, q, hy, hq, hqa⟩ := hbelow j (Nat.lt_of_succ_lt_succ hj)
            exact ⟨y, q, by simp [ancestorAt, hp, hy], hq, hqa⟩

/-- C22 in the family of L: the edit root of the prim G, child of C, child of
L, is L, two links up; the edit root of an object that sits on the avatar S is
the object itself. -/
theorem C22_getRootEdit_witness :
    (∃ r k, getRootEdit familyWorld.topo 4 4 = some r ∧
      ancestorAt familyWorld.topo k 4 = some r ∧
      ((familyWorld.topo r).mParent = none ∨
        ∃ p, (familyWorld.topo r).mParent = some p ∧ (familyWorld.topo p).isAvatar = true) ∧
      ∀ j, j < k → ∃ y p, ancestorAt familyWorld.topo j 4 = some y ∧
        (familyWorld.topo y).mParent = some p ∧ (familyWorld.topo p).isAvatar = false) ∧
    getRootEdit familyWorld.topo 4 4 = some 1 ∧
    getRootEdit
      (fun h => if h = 5 then { plainTopo 15 with mParent := some 3 } else familyWorld.topo h)
      4 5 = some 5 :=
  ⟨C22_getRootEdit familyWorld.topo 4 4 (by decide), by decide, by decide⟩

/-! ## Extra parameters: facts -/

/-- Under a type tag for which no block is made a list of known entries holds
nothing. -/
theorem getExtraParameterEntry_unknown (env : ParamEnv) (o : ParamObj) (t : Nat)
    (hknown : KnownEntries env o.mExtraParameterList) (hunk : makesBlock env t = false) :
    getExtraParameterEntry o t = none := by
  unfold getExtraParameterEntry
  rw [Option.map_eq_none', List.find?_eq_none]
  intro p hp hpt
  have h1 := hknown p hp
  rw [of_decide_eq_true hpt, hunk] at h1
  exact Bool.noConfusion h1

/-- Writing an entry under a tag for which a block is made keeps the entries
known. -/
theorem setEntry_known (env : ParamEnv) (l : List (Nat × ExtraParameter)) (t : Nat)
    (e : ExtraParameter) (hknown : KnownEntries env l) (ht : makesBlock env t = true) :
    KnownEntries env (setEntry l t e) := by
  unfold setEntry
  split
  · intro p hp
    rw [List.mem_map] at hp
    obtain ⟨q, hq, hqp⟩ := hp
    split at hqp
    · rw [← hqp]
      exact ht
    · rw [← hqp]
      exact hknown q hq
  · intro p hp
    rw [List.mem_append, List.mem_singleton] at hp
    rcases hp with hp | hp
    · exact hknown p hp
    · rw [hp]
      exact ht

/-- An entry found in a list of known entries stands under a tag for which a
block is made. -/
theorem makesBlock_of_found (env : ParamEnv) (o : ParamObj) (t : Nat) (e : ExtraParameter)
    (hknown : KnownEntries env o.mExtraParameterList)
    (h : getExtraParameterEntry o t = some e) : makesBlock env t = true := by
  unfold getExtraParameterEntry at h
  rw [Option.map_eq_some'] at h
  obtain ⟨p, hp, _⟩ := h
  have hmem := List.mem_of_find?_eq_some hp
  have hkey := List.find?_some hp
  rw [← of_decide_eq_true hkey]
  exact hknown p hmem

/-- `unpackParameterEntry` keeps the entries known. -/
theorem unpackParameterEntry_known (env : ParamEnv) (o : ParamObj) (t : Nat) (dp : List Nat)
    (hknown : KnownEntries env o.mExtraParameterList) :
    KnownEntries env (unpackParameterEntry env o t dp).1.mExtraParameterList := by
  unfold unpackParameterEntry getExtraParameterEntryCreate
  dsimp only
  cases hg : getExtraParameterEntry o (if env.PARAMS_MESH = t then env.PARAMS_SCULPT else t) with
  | some e =>
    dsimp only
    exact setEntry_known env _ _ _ hknown (makesBlock_of_found env o _ e hknown hg)
  | none =>
    dsimp only
    unfold createNewParameterEntry
    cases hm : makesBlock env (if env.PARAMS_MESH = t then env.PARAMS_SCULPT else t) with
    | true =>
      simp only [if_true]
      exact setEntry_known env _ _ _ (setEntry_known env _ _ _ hknown hm) hm
    | false =>
      simp only [Bool.false_eq_true, if_false]
      exact hknown

/-- An unknown type tag leaves the object as it is and gives `false`. -/
theorem unpackParameterEntry_unknown (env : ParamEnv) (o : ParamObj) (t : Nat) (dp : List Nat)
    (hknown : KnownEntries env o.mExtraParameterList)
    (hunk : makesBlock env t = false) (hmesh : t ≠ env.PARAMS_MESH) :
    unpackParameterEntry env o t dp = (o, false) := by
  have hm : ¬ env.PARAMS_MESH = t := fun h => hmesh h.symm
  unfold unpackParameterEntry getExtraParameterEntryCreate
  simp only [if_neg hm, getExtraParameterEntry_unknown env o t hknown hunk]
  unfold createNewParameterEntry
  simp [hunk]

/-- The unpacking loop keeps the entries known. -/
theorem foldl_unpack_known (env : ParamEnv) :
    ∀ (blocks : List (Nat × List Nat)) (o : ParamObj),
      KnownEntries env o.mExtraParameterList →
      KnownEntries env
        (blocks.foldl (fun acc b => (unpackParameterEntry env acc b.1 b.2).1)
          o).mExtraParameterList := by
  intro blocks
  induction blocks with
  | nil =>
    intro o h
    exact h
  | cons b bs ih =>
    intro o h
    rw [List.foldl_cons]
    exact ih _ (unpackParameterEntry_known env o b.1 b.2 h)

/-- C24: for a type tag that is none of the kinds `createNewParameterEntry`
makes a block for and is not `PARAMS_MESH`, on an object whose entries all
stand under known kinds, `unpackParameterEntry` returns false and leaves the
object, `mExtraParameterList` included, as it is; and the extra-parameter
section of `processUpdateMessage` gives the same result with the unknown block
in the message as without it: the blocks before and after it are unpacked all
the same. -/
theorem C24_unknown_parameter_skipped (env : ParamEnv) (o : ParamObj) (t : Nat)
    (dp : List Nat)
    (hknown : KnownEntries env o.mExtraParameterList)
    (hunk : makesBlock env t = false) (hmesh : t ≠ env.PARAMS_MESH) :
    unpackParameterEntry env o t dp = (o, false) ∧
    ∀ pre post : List (Nat × List Nat),
      unpackExtraParams env o (pre ++ (t, dp) :: post) = unpackExtraParams env o (pre ++ post) := by
  refine ⟨unpackParameterEntry_unknown env o t dp hknown hunk hmesh, ?_⟩
  intro pre post
  have hmarked : KnownEntries env
      (o.mExtraParameterList.map (fun p => (p.1, { p.2 with in_use := false }))) := by
    intro p hp
    rw [List.mem_map] at hp
    obtain ⟨q, hq, hqp⟩ := hp
    rw [← hqp]
    exact hknown q hq
  have hpre := foldl_unpack_known env pre
    { o with mExtraParameterList :=
        o.mExtraParameterList.map (fun p => (p.1, { p.2 with in_use := false })) } hmarked
  unfold unpackExtraParams
  simp only [List.foldl_append, List.foldl_cons]
  rw [unpackParameterEntry_unknown env _ t dp hpre hunk hmesh]

/-- C24 on an object without extra parameters and a message with a light
block, a block of the unknown kind 0x50 and a sculpt block: the unknown block
is refused and the light and the sculpt entries are made. -/
theorem C24_unknown_parameter_witness :
    unpackParameterEntry scenarioParamEnv noParams 0x50 [9] = (noParams, false) ∧
    unpackExtraParams scenarioParamEnv noParams [(0x20, [1]), (0x50, [9]), (0x30, [2])]
      = unpackExtraParams scenarioParamEnv noParams [(0x20, [1]), (0x30, [2])] ∧
    (unpackExtraParams scenarioParamEnv noParams
        [(0x20, [1]), (0x50, [9]), (0x30, [2])]).mExtraParameterList
      = [(0x20, ⟨[1], true⟩), (0x30, ⟨[2], true⟩)] := by
  have h := C24_unknown_parameter_skipped scenarioParamEnv noParams 0x50 [9]
    (by intro p hp; cases hp) (by decide) (by decide)
  exact ⟨h.1, h.2 [(0x20, [1])] [(0x30, [2])], by decide⟩

/-- After an entry is written under a tag, it is the entry found there. -/
theorem find_setEntry (t : Nat) (e : ExtraParameter) :
    ∀ l : List (Nat × ExtraParameter),
      ((setEntry l t e).find? (fun p => decide (p.1 = t))).map (fun p => p.2) = some e := by
  intro l
  unfold setEntry
  split
  · rename_i hany
    induction l with
    | nil => simp at hany
    | cons p ps ih =>
      by_cases hp : p.1 = t
      · simp [List.find?, hp]
      · have hps : ps.any (fun q => decide (q.1 = t)) = true := by
          simpa [List.any_cons, hp] using hany
        simp only [List.map_cons, if_neg hp, List.find?, decide_eq_false hp]
        exact ih hps
  · rename_i hany
    have hnone : l.find? (fun p => decide (p.1 = t)) = none := by
      rw [List.find?_eq_none]
      intro p hp hpt
      apply hany
      rw [List.any_eq_true]
      exact ⟨p, hp, hpt⟩
    simp [List.find?_append, hnone, List.find?]

/-- C26 meets the code where it returns false: a second call of
`setParameterEntryInUse` with the same type and the same `in_use` returns
false, whatever the type, the value and the list are; so does the first call
with `in_use` false for a light entry that does not exist yet, which creates
the entry, and the call with `in_use` true on a light entry already in use. -/
theorem C26_setParameterEntryInUse_returns_false (env : ParamEnv) (o : ParamObj) (t : Nat)
    (in_use local_origin : Bool) :
    (setParameterEntryInUse env (setParameterEntryInUse env o t in_use local_origin).1 t
      in_use local_origin).2 = false ∧
    makesBlock scenarioParamEnv scenarioParamEnv.PARAMS_LIGHT = true ∧
    setParameterEntryInUse scenarioParamEnv noParams scenarioParamEnv.PARAMS_LIGHT false true
      = ({ mExtraParameterList := [(scenarioParamEnv.PARAMS_LIGHT, ⟨[], false⟩)],
           changed := [] }, false) ∧
    setParameterEntryInUse scenarioParamEnv
        { mExtraParameterList := [(scenarioParamEnv.PARAMS_LIGHT, ⟨[], true⟩)], changed := [] }
        scenarioParamEnv.PARAMS_LIGHT true true
      = ({ mExtraParameterList := [(scenarioParamEnv.PARAMS_LIGHT, ⟨[], true⟩)],
           changed := [] }, false) := by
  refine ⟨?_, by decide, by decide, by decide⟩
  -- once an entry with the wanted `in_use` is found, the call returns false
  have hstay : ∀ (o1 : ParamObj) (e : ExtraParameter), getExtraParameterEntry o1 t = some e →
      e.in_use = in_use → (setParameterEntryInUse env o1 t in_use local_origin).2 = false := by
    intro o1 e hg he
    unfold setParameterEntryInUse getExtraParameterEntryCreate
    simp [hg, he]
  cases hg : getExtraParameterEntry o t with
  | some param =>
    by_cases hp : param.in_use = in_use
    · have h1 : setParameterEntryInUse env o t in_use local_origin = (o, false) := by
        unfold setParameterEntryInUse getExtraParameterEntryCreate
        simp [hg, hp]
      rw [h1]
      exact hstay o param hg hp
    · have h1 : (setParameterEntryInUse env o t in_use local_origin).1
          = { mExtraParameterList :=
                setEntry o.mExtraParameterList t { param with in_use := in_use },
              changed := o.changed ++ [⟨t, param.data, in_use, local_origin⟩] } := by
        unfold setParameterEntryInUse getExtraParameterEntryCreate
        simp [hg, hp]
      rw [h1]
      exact hstay _ _ (find_setEntry t _ _) rfl
  | none =>
    cases hm : makesBlock env t with
    | false =>
      have h1 : setParameterEntryInUse env o t in_use local_origin = (o, false) := by
        unfold setParameterEntryInUse getExtraParameterEntryCreate createNewParameterEntry
        simp [hg, hm]
      rw [h1, h1]
    | true =>
      cases in_use with
      | false =>
        have h1 : (setParameterEntryInUse env o t false local_origin).1
            = { o with mExtraParameterList :=
                  setEntry o.mExtraParameterList t ⟨env.newBlock t, false⟩ } := by
          unfold setParameterEntryInUse getExtraParameterEntryCreate createNewParameterEntry
          simp [hg, hm]
        rw [h1]
        exact hstay _ _ (find_setEntry t _ _) rfl
      | true =>
        have h1 : (setParameterEntryInUse env o t true local_origin).1
            = { mExtraParameterList :=
                  setEntry (setEntry o.mExtraParameterList t ⟨env.newBlock t, false⟩) t
                    ⟨env.newBlock t, true⟩,
                changed := o.changed ++ [⟨t, env.newBlock t, true, local_origin⟩] } := by
          unfold setParameterEntryInUse getExtraParameterEntryCreate createNewParameterEntry
          simp [hg, hm]
        rw [h1]
        exact hstay _ _ (find_setEntry t _ _) rfl

/-! ## Compressed object data: facts -/

theorem objectDataOffset_State (sz : TypeSizes) :
    objectDataOffset sz "State" = 0 + sz.uuid + sz.u32 + sz.u8 := rfl

theorem objectDataOffset_SpecialCode (sz : TypeSizes) :
    objectDataOffset sz "SpecialCode"
      = 0 + sz.uuid + sz.u32 + sz.u8 + sz.u8 + sz.u32 + sz.u8 + sz.u8 + sz.vector3 + sz.vector3
        + sz.vector3 := rfl

theorem objectDataOffset_ParentID (sz : TypeSizes) :
    objectDataOffset sz "ParentID"
      = 0 + sz.uuid + sz.u32 + sz.u8 + sz.u8 + sz.u32 + sz.u8 + sz.u8 + sz.vector3 + sz.vector3
        + sz.vector3 + sz.u32 + sz.uuid + sz.vector3 := rfl

/-- The random-access read: `SpecialCode` at its offset in the map, `ParentID`
at its offset in the map when bit 0x80 is set and one `LLVector3` before it
when the bit is clear, and 0 when bit 0x20 is clear. -/
theorem unpackParentID_reads (sz : TypeSizes) (dp : LLDataPackerBinaryBuffer) :
    (unpackParentID sz dp).2
      = (if dp.u32At (objectDataOffset sz "SpecialCode") &&& 0x20 ≠ 0 then
          (if dp.u32At (objectDataOffset sz "SpecialCode") &&& 0x80 = 0 then
            dp.u32At (objectDataOffset sz "ParentID" - sz.vector3)
          else dp.u32At (objectDataOffset sz "ParentID"))
        else 0) := by
  unfold unpackParentID
  generalize objectDataOffset sz "SpecialCode" = s
  generalize objectDataOffset sz "ParentID" = p
  have h1 : (dp.shift s).unpackU32 sz
      = ({ buffer := dp.buffer, cur := s + sz.u32 }, dp.u32At s) := rfl
  simp only [h1]
  split
  · split <;> rfl
  · rfl

/-- The cursor of the sequential read stands at the offset of `SpecialCode`
when that field is read, and at the offset of `Omega` after `Owner`. -/
theorem unpackCompressedHead_reads (sz : TypeSizes) (dq : LLDataPackerBinaryBuffer)
    (hcur : dq.cur = objectDataOffset sz "State") :
    (unpackCompressedHead sz dq).2.2
      = (if dq.u32At (objectDataOffset sz "SpecialCode") &&& 0x20 ≠ 0 then
          (if dq.u32At (objectDataOffset sz "SpecialCode") &&& 0x80 = 0 then
            dq.u32At (objectDataOffset sz "ParentID" - sz.vector3)
          else dq.u32At (objectDataOffset sz "ParentID"))
        else 0) := by
  have hsub : objectDataOffset sz "ParentID" - sz.vector3
      = objectDataOffset sz "SpecialCode" + sz.u32 + sz.uuid := by
    rw [objectDataOffset_ParentID, objectDataOffset_SpecialCode]
    exact Nat.add_sub_cancel _ _
  have hpar : objectDataOffset sz "ParentID"
      = objectDataOffset sz "SpecialCode" + sz.u32 + sz.uuid + sz.vector3 := by
    rw [objectDataOffset_ParentID, objectDataOffset_SpecialCode]
  have hspec : dq.cur + sz.u8 + sz.u32 + sz.u8 + sz.u8 + sz.vector3 + sz.vector3 + sz.vector3
      = objectDataOffset sz "SpecialCode" := by
    rw [hcur, objectDataOffset_State, objectDataOffset_SpecialCode]
  rw [hsub, hpar]
  generalize objectDataOffset sz "SpecialCode" = s at hspec ⊢
  have hhead : unpackCompressedHead sz dq
      = (if dq.u32At s &&& 0x20 ≠ 0 then
          ((if dq.u32At s &&& 0x80 ≠ 0 then
              ({ buffer := dq.buffer, cur := s + sz.u32 + sz.uuid + sz.vector3 + sz.u32 } :
                LLDataPackerBinaryBuffer)
            else { buffer := dq.buffer, cur := s + sz.u32 + sz.uuid + sz.u32 }),
           dq.u32At s,
           (if dq.u32At s &&& 0x80 ≠ 0 then dq.u32At (s + sz.u32 + sz.uuid + sz.vector3)
            else dq.u32At (s + sz.u32 + sz.uuid)))
        else
          ((if dq.u32At s &&& 0x80 ≠ 0 then
              ({ buffer := dq.buffer, cur := s + sz.u32 + sz.uuid + sz.vector3 } :
                LLDataPackerBinaryBuffer)
            else { buffer := dq.buffer, cur := s + sz.u32 + sz.uuid }),
           dq.u32At s, 0)) := by
    have e : ∀ c off, ({ buffer := dq.buffer, cur := c } : LLDataPackerBinaryBuffer).u32At off
        = dq.u32At off := fun _ _ => rfl
    rw [← hspec]
    unfold unpackCompressedHead
    dsimp only [LLDataPackerBinaryBuffer.skip, LLDataPackerBinaryBuffer.unpackU32]
    simp only [e]
    split_ifs <;> rfl
  rw [hhead]
  split_ifs <;> first | rfl | contradiction

/-- C28: for one and the same buffer, the parent id `unpackParentID` returns is
the parent id the sequential `OUT_FULL_COMPRESSED` decode of
`processUpdateMessage` reads when it starts at the `State` field: both read
`SpecialCode` at its offset in the map, and `ParentID` at its offset in the map
when bit 0x80 is set, one `LLVector3` before it when it is clear, and give 0
when bit 0x20 is clear. Every offset in `initObjectDataMap` is the sum of the
sizes of the fields before it, which with the wire sizes puts `SpecialCode` at
64 and `ParentID` at 96 or 84. -/
theorem C28_unpackParentID_agrees (sz : TypeSizes) (dp dq : LLDataPackerBinaryBuffer)
    (hbuf : dq.buffer = dp.buffer)
    (hcur : dq.cur = objectDataOffset sz "State") :
    (unpackParentID sz dp).2 = (unpackCompressedHead sz dq).2.2 ∧
    (unpackParentID sz dp).2
      = (if dp.u32At (objectDataOffset sz "SpecialCode") &&& 0x20 ≠ 0 then
          (if dp.u32At (objectDataOffset sz "SpecialCode") &&& 0x80 = 0 then
            dp.u32At (objectDataOffset sz "ParentID" - sz.vector3)
          else dp.u32At (objectDataOffset sz "ParentID"))
        else 0) ∧
    initObjectDataMap sz = offsetsFrom 0 (objectDataFields sz) ∧
    (objectDataOffset wireSizes "SpecialCode" = 64 ∧
      objectDataOffset wireSizes "ParentID" = 96 ∧
      objectDataOffset wireSizes "ParentID" - wireSizes.vector3 = 84) := by
  have hu : ∀ off, dq.u32At off = dp.u32At off := by
    intro off
    unfold LLDataPackerBinaryBuffer.u32At
    rw [hbuf]
  refine ⟨?_, unpackParentID_reads sz dp, rfl, rfl, rfl, rfl⟩
  rw [unpackParentID_reads sz dp, unpackCompressedHead_reads sz dq hcur]
  simp only [hu]

/-- C28 on buffers with the byte 7 at offset 84 and the byte 9 at offset 96:
with `SpecialCode` 0xA0 both reads give 9, with 0x20 both give 7, and with 0x80
both give 0. -/
theorem C28_unpackParentID_witness :
    ((unpackParentID wireSizes (parentBuffer 0xA0)).2
        = (unpackCompressedHead wireSizes { parentBuffer 0xA0 with cur := 21 }).2.2 ∧
      (unpackParentID wireSizes (parentBuffer 0xA0)).2 = 9) ∧
    ((unpackParentID wireSizes (parentBuffer 0x20)).2 = 7 ∧
      (unpackCompressedHead wireSizes { parentBuffer 0x20 with cur := 21 }).2.2 = 7) ∧
    ((unpackParentID wireSizes (parentBuffer 0x80)).2 = 0 ∧
      (unpackCompressedHead wireSizes { parentBuffer 0x80 with cur := 21 }).2.2 = 0) :=
  ⟨⟨(C28_unpackParentID_agrees wireSizes (parentBuffer 0xA0)
      { parentBuffer 0xA0 with cur := 21 } rfl rfl).1, by decide⟩,
    ⟨by decide, by decide⟩, ⟨by decide, by decide⟩⟩

/-! ## Object updates: moving from one parent to another -/

/-- The walk that looks for `target` never asks for the parent of `target`, so
it answers the same for two parent maps that agree everywhere else. -/
theorem walkFinds_congr (f g : Handle → Option Handle) (target : Handle)
    (hfg : ∀ h, h ≠ target → f h = g h) :
    ∀ (fuel : Nat) (start : Option Handle),
      walkFinds f target fuel start = walkFinds g target fuel start := by
  intro fuel
  induction fuel with
  | zero =>
    intro start
    cases start <;> rfl
  | succ n ih =>
    intro start
    cases start with
    | none => rfl
    | some s =>
      unfold walkFinds
      by_cases hs : s = target
      · rw [if_pos hs, if_pos hs]
      · rw [if_neg hs, if_neg hs, hfg s hs]
        exact ih _

/-- The links after `addChild` of an object that the new parent does not list
and that the cycle walk lets through: the object points at the new parent and
is appended to its child list, and where its old parent listed it the first
such entry is erased. -/
theorem addChild_links (w : World) (self childp : Handle)
    (hmem : childp ∉ (w.topo self).mChildList)
    (hne : (w.topo childp).mParent ≠ some self)
    (hwalk : walkFinds (fun h => (w.topo h).mParent) childp w.maxChain (w.topo self).mParent
      = some false) :
    ∃ w3, addChild w self childp = some w3 ∧
      (∀ i, (w3.topo i).mParent = if i = childp then some self else (w.topo i).mParent) ∧
      (∀ i, (w3.topo i).mChildList
        = if i = self then (w.topo self).mChildList ++ [childp]
          else if (w.topo childp).mParent = some i ∧ childp ∈ (w.topo i).mChildList
            then (w.topo i).mChildList.erase childp else (w.topo i).mChildList) := by
  obtain ⟨w0, hw0, hp0, hl0, hm0⟩ :
      ∃ w0 : World,
        w0 = (if !(w.topo self).isAvatar then
            w.setTopo childp { w.topo childp with mbCanSelect := (w.topo self).mbCanSelect }
          else w) ∧
        (∀ i, (w0.topo i).mParent = (w.topo i).mParent) ∧
        (∀ i, (w0.topo i).mChildList = (w.topo i).mChildList) ∧
        w0.maxChain = w.maxChain := by
    refine ⟨_, rfl, ?_, ?_, ?_⟩
    · intro i
      split
      · by_cases h : i = childp <;> simp [World.setTopo, h]
      · rfl
    · intro i
      split
      · by_cases h : i = childp <;> simp [World.setTopo, h]
      · rfl
    · split <;> rfl
  have hfun : (fun h => (w0.topo h).mParent) = (fun h => (w.topo h).mParent) :=
    funext hp0
  obtain ⟨w1, hset, hp1, hl1⟩ := setParent_links w0 childp self
    (by rw [hp0]; exact hne) (by rw [hfun, hm0, hp0]; exact hwalk)
  have key : ∀ wf : World, (∀ i, (wf.topo i).mParent = (w1.topo i).mParent) →
      (∀ i, (wf.topo i).mChildList
        = if i = self then (w1.topo self).mChildList ++ [childp]
          else (w1.topo i).mChildList) →
      (∀ i, (wf.topo i).mParent = if i = childp then some self else (w.topo i).mParent) ∧
      (∀ i, (wf.topo i).mChildList
        = if i = self then (w.topo self).mChildList ++ [childp]
          else if (w.topo childp).mParent = some i ∧ childp ∈ (w.topo i).mChildList
            then (w.topo i).mChildList.erase childp else (w.topo i).mChildList) := by
    intro wf hpf hlf
    refine ⟨?_, ?_⟩
    · intro i
      rw [hpf, hp1, hp0]
    · intro i
      rw [hlf]
      by_cases h : i = self
      · subst h
        rw [if_pos rfl, if_pos rfl, hl1, hp0, hl0, if_neg (fun h => hne h.1)]
      · rw [if_neg h, if_neg h, hl1, hp0, hl0]
  unfold addChild
  rw [if_neg hmem]
  simp only [← hw0, hset]
  split
  · refine ⟨_, rfl, key _ ?_ ?_⟩
    · intro i
      by_cases h : i = self <;> simp [World.setTopo, h]
    · intro i
      by_cases h : i = self <;> simp [World.setTopo, h]
  · refine ⟨_, rfl, key _ ?_ ?_⟩
    · intro i
      by_cases h : i = self <;> simp [World.setTopo, h]
    · intro i
      by_cases h : i = self <;> simp [World.setTopo, h]

/-- `removeChild` leaves the walk bound alone. -/
theorem removeChild_maxChain (w : World) (a b : Handle) :
    (removeChild w a b).maxChain = w.maxChain := by
  unfold removeChild setParentNull
  dsimp only
  split_ifs <;> rfl

/-- The branch "parented now, different parent in message" on consistent,
duplicate-free child lists: when the drawable link is accepted and the object
is not met on the parent chain above the object sent as parent, the object is
erased from the list of its old parent and linked both ways under the new
one. -/
theorem switchParent_reattaches (env : UpdateEnv) (w : World) (a q p : Handle) (lid : Nat)
    (hlid : lid ≠ 0) (hfind : env.findObjectFromLocal lid = some q)
    (hqp : q ≠ p) (hqa : q ≠ a)
    (hpa : (w.topo a).mParent = some p)
    (hc : Consistent w) (hn : NoDupChildren w)
    (hdraw : (w.topo a).mDrawable.isSome = true →
      ∃ wd, setDrawableParent w a (drawableOf w q) = some (wd, true))
    (hwalk : walkFinds (fun h => (w.topo h).mParent) a w.maxChain (w.topo q).mParent
      = some false) :
    ∃ w3, switchParent env w a lid p = some (.goesOn w3 true) ∧
      (w3.topo a).mParent = some q ∧ a ∈ (w3.topo q).mChildList ∧
      a ∉ (w3.topo p).mChildList := by
  have hpq : p ≠ q := fun h => hqp h.symm
  -- the drawable link
  obtain ⟨w2, hlinked, hl⟩ : ∃ w2,
      (if (w.topo a).mDrawable.isSome then setDrawableParent w a (drawableOf w q)
        else some (w, true)) = some (w2, true) ∧ SameLinks w w2 := by
    by_cases hd : (w.topo a).mDrawable.isSome = true
    · obtain ⟨wd, hwd⟩ := hdraw hd
      exact ⟨wd, by rw [if_pos hd]; exact hwd, setDrawableParent_sameLinks _ _ _ _ _ hwd⟩
    · exact ⟨w, by rw [if_neg hd], SameLinks.refl w⟩
  obtain ⟨hc2, hn2⟩ := consistent_of_links w w2 hl.parent hl.children hc hn
  have hpa2 : (w2.topo a).mParent = some p := by rw [hl.parent]; exact hpa
  have hmemp : a ∈ (w2.topo p).mChildList := (hc2 a p).mpr hpa2
  -- the links after `cur_parentp->removeChild(this)`
  obtain ⟨wr, hwr⟩ : ∃ wr, removeChild w2 p a = wr := ⟨_, rfl⟩
  have hr := removeChild_links w2 p a hmemp
  have hrm := removeChild_maxChain w2 p a
  rw [hwr] at hr hrm
  have hrp : ∀ i, (wr.topo i).mParent = if i = a then none else (w2.topo i).mParent := by
    intro i
    rw [(hr i).2]
    simp [hpa2]
  have hrl : ∀ i, (wr.topo i).mChildList
      = if i = p then (w2.topo p).mChildList.erase a else (w2.topo i).mChildList :=
    fun i => (hr i).1
  have hgone : a ∉ (wr.topo p).mChildList := by
    rw [hrl, if_pos rfl]
    exact (hn2 p).not_mem_erase
  -- the links after `sent_parentp->addChild(this)`
  have hnotq : a ∉ (wr.topo q).mChildList := by
    rw [hrl, if_neg hqp]
    intro hm
    have h1 := (hc2 a q).mp hm
    rw [hpa2] at h1
    exact hpq (Option.some.inj h1)
  have hneq : (wr.topo a).mParent ≠ some q := by
    rw [hrp, if_pos rfl]
    exact fun h => Option.noConfusion h
  have hwalk2 : walkFinds (fun h => (wr.topo h).mParent) a wr.maxChain (wr.topo q).mParent
      = some false := by
    rw [hrm, hl.maxChain, hrp q, if_neg hqa, hl.parent,
      walkFinds_congr (fun h => (wr.topo h).mParent) (fun h => (w.topo h).mParent) a
        (fun h hh => by
          show (wr.topo h).mParent = (w.topo h).mParent
          rw [hrp, if_neg hh, hl.parent])]
    exact hwalk
  obtain ⟨w3, hadd, hp3, hl3⟩ := addChild_links wr q a hnotq hneq hwalk2
  refine ⟨(w3.setChanged a [.MOVED, .SILHOUETTE]).setChanged q [.MOVED, .SILHOUETTE],
    ?_, ?_, ?_, ?_⟩
  · unfold switchParent
    simp only [hlid, if_false, hfind, ne_eq, hqp, hqa, not_false_eq_true, and_self, if_true,
      hlinked, hwr, hadd, Option.map_some']
  · show (w3.topo a).mParent = some q
    rw [hp3, if_pos rfl]
  · show a ∈ (w3.topo q).mChildList
    rw [hl3, if_pos rfl]
    simp
  · show a ∉ (w3.topo p).mChildList
    rw [hl3, if_neg hpq]
    split
    · exact fun h => hgone (List.mem_of_mem_erase h)
    · exact hgone

/-- Whether `setDrawableParent` accepts a link depends on the scene graph and
the walk bound only. -/
theorem setDrawableParent_transfer (w w2 : World) (a : Handle) (x : Option Handle)
    (wd : World) (htopo : w2.topo = w.topo) (hmax : w2.maxChain = w.maxChain)
    (h : setDrawableParent w a x = some (wd, true)) :
    ∃ wd2, setDrawableParent w2 a x = some (wd2, true) := by
  unfold setDrawableParent at h ⊢
  rw [htopo, hmax]
  cases hd : (w.topo a).mDrawable with
  | none =>
    simp only [hd] at h
    cases h
  | some d =>
    simp only [hd] at h ⊢
    cases hx : xformSetParentOk
        (fun h => match (w.topo h).mDrawable with
          | some dh => dh.xformParent
          | none => none) w.maxChain a x with
    | none =>
      rw [hx] at h
      cases h
    | some b =>
      cases b with
      | false =>
        rw [hx] at h
        cases h
      | true => exact ⟨_, rfl⟩

/-- C23, as stated, fails in two ways. In `chainWorld` the object A has the
parent P and the child B, and no object has a drawable, so that no drawable
cycle can be reported; a raw full update for A declares the local id of B, a
live object other than P and A. The call erases A from the child list of P,
the parent walk of `addChild` then refuses to put A under its own child, and A
ends without parent and in no child list; nothing is killed. And when the
region of the object is no longer listed, the call returns at once: B, a child
of A, is sent the local id of the third object as parent and stays under A. -/
theorem C23_switch_parent_counterexample :
    ((fullUpdate 200 12 0 0).update_type ≠ OUT_TERSE_IMPROVED ∧
      (chainWorld.topo 1).mParent = some 3 ∧
      plainUpdateEnv.findObjectFromLocal 12 = some 2 ∧
      (chainWorld.topo 2).mDead = false ∧
      (∀ h, (chainWorld.topo h).mDrawable = none) ∧
      (processUpdateMessage plainUpdateEnv chainWorld 1 (fullUpdate 200 12 0 0)).map
          (fun r => ((r.1.topo 1).mParent, (r.1.topo 2).mChildList, (r.1.topo 3).mChildList,
            r.1.killed, r.1.cacheMissFull))
        = some (none, [], [], [], [])) ∧
    ((fullUpdate 200 13 0 0).update_type ≠ OUT_TERSE_IMPROVED ∧
      (cycleWorld.topo 2).mParent = some 1 ∧
      unlistedEnv.findObjectFromLocal 13 = some 3 ∧
      (cycleWorld.topo 3).mDead = false ∧
      (processUpdateMessage unlistedEnv cycleWorld 2 (fullUpdate 200 13 0 0)).map
          (fun r => ((r.1.topo 2).mParent, (r.1.topo 3).mChildList, (r.1.topo 1).mChildList,
            r.1.killed))
        = some (some 1, [], [2], [])) := by
  refine ⟨⟨by decide, by decide!, by decide!, by decide!, ?_, by decide!⟩,
    ⟨by decide, by decide!, by decide!, by decide!, by decide!⟩⟩
  intro h
  by_cases h1 : h = 1 <;> by_cases h2 : h = 2 <;> simp [chainWorld, plainTopo, h1, h2]

/-- C23 (amended): the object has the parent P, the child lists are the inverse
of the parent pointers and hold no object twice, and a full (non-terse) update
from the object's own, listed region declares a non-zero local id that
resolves to an object Q other than P and the object itself. When
`setDrawableParent` reports no cycle (the object has no drawable, or the call
succeeds) and the object is not met on the parent chain above Q, which ends
within the walk bound, `processUpdateMessage` returns and afterwards the parent
of the object is Q, the object is in the child list of Q and it is no longer in
the child list of P. -/
theorem C23_switch_parent_amended (env : UpdateEnv) (w : World) (a q p : Handle)
    (msg : UpdateMsg) (lid region : Nat)
    (hlisted : env.isRegionListed (w.st a).mRegionp = true)
    (hregion : (w.st a).mRegionp = some region)
    (hsame : ∀ m, msg.mesgsys = some m → m.regionFromHandle = some region)
    (hdecl : DeclaresParent msg lid)
    (hlid : lid ≠ 0)
    (hfind : env.findObjectFromLocal lid = some q)
    (hpa : (w.topo a).mParent = some p)
    (hqp : q ≠ p) (hqa : q ≠ a)
    (hc : Consistent w) (hn : NoDupChildren w)
    (hdraw : (w.topo a).mDrawable.isSome = true →
      ∃ wd, setDrawableParent w a (drawableOf w q) = some (wd, true))
    (hwalk : walkFinds (fun h => (w.topo h).mParent) a w.maxChain (w.topo q).mParent
      = some false) :
    ∃ w3 r, processUpdateMessage env w a msg = some (w3, r) ∧
      (w3.topo a).mParent = some q ∧ a ∈ (w3.topo q).mChildList ∧
      a ∉ (w3.topo p).mChildList := by
  obtain ⟨w2, d1, td, hprep, htopo, hmax, _, _, hpid⟩ :=
    prepareUpdate_ready env w a msg lid region hlisted hregion hsame hdecl
  have hnt := hdecl.not_terse
  have hdraw2 : (w2.topo a).mDrawable.isSome = true →
      ∃ wd, setDrawableParent w2 a (drawableOf w2 q) = some (wd, true) := by
    intro hd
    rw [htopo] at hd
    obtain ⟨wd, hwd⟩ := hdraw hd
    obtain ⟨wd2, hwd2⟩ :=
      setDrawableParent_transfer w w2 a (drawableOf w q) wd htopo hmax hwd
    have hdo : drawableOf w2 q = drawableOf w q := by
      unfold drawableOf
      rw [htopo]
    exact ⟨wd2, by rw [hdo]; exact hwd2⟩
  obtain ⟨w3, h3, p1, p2, p3⟩ := switchParent_reattaches env w2 a q p lid hlid hfind hqp hqa
    (by rw [htopo]; exact hpa)
    (by intro c x; rw [htopo]; exact hc c x)
    (by intro x; rw [htopo]; exact hn x)
    hdraw2
    (by rw [htopo, hmax]; exact hwalk)
  have hfix : fixParenting env w2 a msg.update_type d1.parent_id (w.topo a).mParent
      = some (.goesOn w3 true) := by
    unfold fixParenting
    rw [if_pos hnt, hpa, hpid]
    simp only [hnt, and_false, if_false]
    exact h3
  obtain ⟨f1, _, _⟩ := finishUpdate_frame env msg w3 a d1 true td
  refine ⟨(finishUpdate env msg w3 a d1 true td).1, (finishUpdate env msg w3 a d1 true td).2,
    ?_, ?_, ?_, ?_⟩
  · unfold processUpdateMessage
    simp only [hprep, hfix]
  · rw [f1]; exact p1
  · rw [f1]; exact p2
  · rw [f1]; exact p3

/-- The amended C23 on `cycleWorld`: a full update for B, the child of A, that
declares the local id of the third object moves B from under A to under the
third object. -/
theorem C23_switch_parent_amended_witness :
    ∃ w3 r, processUpdateMessage plainUpdateEnv cycleWorld 2 (fullUpdate 200 13 0 0)
        = some (w3, r) ∧
      (w3.topo 2).mParent = some 3 ∧ 2 ∈ (w3.topo 3).mChildList ∧
      2 ∉ (w3.topo 1).mChildList :=
  C23_switch_parent_amended plainUpdateEnv cycleWorld 2 3 1 (fullUpdate 200 13 0 0) 13 0
    (by decide!) (by decide!) (fun m hm => by cases hm; rfl)
    (Or.inl ⟨rfl, rfl, _, rfl, rfl⟩)
    (by decide) (by decide!) (by decide!) (by decide) (by decide)
    cycleWorld_consistent.1 cycleWorld_consistent.2
    (fun h => absurd h (by decide!)) (by decide!)

/-! ## Object updates: a child sent as parent -/

/-- This `addChild` is refused: the object that is to become the child is the
parent of the object it is to go under, so the cycle walk meets it at once and
nothing about the links or the logs changes. -/
theorem addChild_refused (w : World) (self childp : Handle)
    (hmem : childp ∉ (w.topo self).mChildList)
    (hpar : (w.topo self).mParent = some childp)
    (hne : (w.topo childp).mParent ≠ some self)
    (hfuel : 0 < w.maxChain) :
    ∃ w1, addChild w self childp = some w1 ∧
      (∀ i, (w1.topo i).mParent = (w.topo i).mParent) ∧
      (∀ i, (w1.topo i).mChildList = (w.topo i).mChildList) ∧
      w1.killed = w.killed ∧ w1.cacheMissFull = w.cacheMissFull := by
  obtain ⟨n, hn⟩ : ∃ n, w.maxChain = n + 1 := ⟨w.maxChain - 1, by omega⟩
  obtain ⟨w0, hw0, hp0, hl0, hm0, hk0, hc0⟩ :
      ∃ w0 : World,
        w0 = (if !(w.topo self).isAvatar then
            w.setTopo childp { w.topo childp with mbCanSelect := (w.topo self).mbCanSelect }
          else w) ∧
        (∀ i, (w0.topo i).mParent = (w.topo i).mParent) ∧
        (∀ i, (w0.topo i).mChildList = (w.topo i).mChildList) ∧
        w0.maxChain = w.maxChain ∧ w0.killed = w.killed ∧
        w0.cacheMissFull = w.cacheMissFull := by
    refine ⟨_, rfl, ?_, ?_, ?_, ?_, ?_⟩
    · intro i
      split
      · by_cases h : i = childp <;> simp [World.setTopo, h]
      · rfl
    · intro i
      split
      · by_cases h : i = childp <;> simp [World.setTopo, h]
      · rfl
    · split <;> rfl
    · split <;> rfl
    · split <;> rfl
  have hfun : (fun h => (w0.topo h).mParent) = (fun h => (w.topo h).mParent) :=
    funext hp0
  have hok : xformSetParentOk (fun h => (w0.topo h).mParent) w0.maxChain childp (some self)
      = some false := by
    unfold xformSetParentOk
    rw [hfun, hm0]
    dsimp only
    rw [if_neg (fun h => hne h.symm), hpar, hn]
    simp [walkFinds]
  have hset : setParent w0 childp (some self) = some (w0, false) := by
    unfold setParent
    rw [if_pos (by rw [hp0]; exact hne)]
    simp only [hok]
  refine ⟨w0, ?_, hp0, hl0, hk0, hc0⟩
  unfold addChild
  rw [if_neg hmem]
  simp only [← hw0, hset]

/-- The branch "parented now, different parent in message" when the object
sent as parent is a child of this object and the drawable link is accepted:
the object is taken off its old parent and ends without parent, the link under
its child is refused, and nothing is killed. -/
theorem switchParent_refused (env : UpdateEnv) (w : World) (a b p : Handle) (lid : Nat)
    (hlid : lid ≠ 0) (hfind : env.findObjectFromLocal lid = some b)
    (hab : a ≠ b) (hbp : b ≠ p) (hap : a ≠ p)
    (hpa : (w.topo a).mParent = some p) (hparent : (w.topo b).mParent = some a)
    (hmemp : a ∈ (w.topo p).mChildList) (hnot : a ∉ (w.topo b).mChildList)
    (hfuel : 0 < w.maxChain)
    (hdraw : (w.topo a).mDrawable.isSome = true →
      ∃ wd, setDrawableParent w a (drawableOf w b) = some (wd, true)) :
    ∃ w3, switchParent env w a lid p = some (.goesOn w3 true) ∧
      (w3.topo a).mParent = none ∧ (w3.topo b).mParent = some a ∧
      (w3.topo a).mChildList = (w.topo a).mChildList ∧
      a ∉ (w3.topo b).mChildList ∧
      w3.killed = w.killed ∧ w3.cacheMissFull = w.cacheMissFull := by
  have hba : b ≠ a := fun h => hab h.symm
  have hpa2 : p ≠ a := fun h => hap h.symm
  -- the drawable link
  obtain ⟨w2, hlinked, hl⟩ : ∃ w2,
      (if (w.topo a).mDrawable.isSome then setDrawableParent w a (drawableOf w b)
        else some (w, true)) = some (w2, true) ∧ SameLinks w w2 := by
    by_cases hd : (w.topo a).mDrawable.isSome = true
    · obtain ⟨wd, hwd⟩ := hdraw hd
      exact ⟨wd, by rw [if_pos hd]; exact hwd, setDrawableParent_sameLinks _ _ _ _ _ hwd⟩
    · exact ⟨w, by rw [if_neg hd], SameLinks.refl w⟩
  have hmem2 : a ∈ (w2.topo p).mChildList := by rw [hl.children]; exact hmemp
  have hpar2 : (w2.topo a).mParent = some p := by rw [hl.parent]; exact hpa
  -- the links after `cur_parentp->removeChild(this)`
  obtain ⟨wr, hwr⟩ : ∃ wr, removeChild w2 p a = wr := ⟨_, rfl⟩
  have hr := removeChild_links w2 p a hmem2
  have hrm := removeChild_maxChain w2 p a
  obtain ⟨_, _, _, _, _, _, _, hrk, hrc⟩ := removeChild_detach w2 p a hpa2 hmem2 hpar2
  rw [hwr] at hr hrm hrk hrc
  have hra : (wr.topo a).mParent = none := by
    rw [(hr a).2]
    simp [hpar2]
  have hrb : (wr.topo b).mParent = some a := by
    rw [(hr b).2, if_neg (fun h => hba h.1), hl.parent]
    exact hparent
  have hrla : (wr.topo a).mChildList = (w.topo a).mChildList := by
    rw [(hr a).1, if_neg hap, hl.children]
  have hrlb : (wr.topo b).mChildList = (w.topo b).mChildList := by
    rw [(hr b).1, if_neg hbp, hl.children]
  -- the refused `sent_parentp->addChild(this)`
  obtain ⟨w3, hadd, hp3, hl3, hk3, hc3⟩ := addChild_refused wr b a
    (by rw [hrlb]; exact hnot) hrb (by rw [hra]; exact fun h => Option.noConfusion h)
    (by rw [hrm, hl.maxChain]; exact hfuel)
  refine ⟨(w3.setChanged a [.MOVED, .SILHOUETTE]).setChanged b [.MOVED, .SILHOUETTE],
    ?_, ?_, ?_, ?_, ?_, ?_, ?_⟩
  · unfold switchParent
    simp only [hlid, if_false, hfind, ne_eq, hbp, hba, not_false_eq_true, and_self, if_true,
      hlinked, hwr, hadd, Option.map_some']
  · show (w3.topo a).mParent = none
    rw [hp3, hra]
  · show (w3.topo b).mParent = some a
    rw [hp3, hrb]
  · show (w3.topo a).mChildList = (w.topo a).mChildList
    rw [hl3, hrla]
  · show a ∉ (w3.topo b).mChildList
    rw [hl3, hrlb]
    exact hnot
  · show w3.killed = w.killed
    rw [hk3, hrk, hl.killed]
  · show w3.cacheMissFull = w.cacheMissFull
    rw [hc3, hrc, hl.cacheMissFull]

/-- C1 (amended): B is a live child of the live object A, and a full update for
A, from A's own listed region, declares B's non-zero local id as A's parent.
When A has no parent and B does not list A as a child, the call recovers: B
ends without parent and A ends attached under B (the parent of A is B and A is
in the child list of B), with nothing killed and no cache miss recorded. When
A has a parent other than B, A and B have drawables, the drawable of B hangs
under the drawable of A and the drawable of A does not hang under that of B,
the call kills both (`gObjectList.killObject` on B and on A), puts both local
ids on the region's full cache-miss list and leaves both without parent. When
A has a parent P other than B that lists A, B does not list A, and
`setDrawableParent` reports no cycle (A has no drawable, or the call
succeeds), A is taken off P and ends without parent, the link under B is
refused, B stays the child of A, and nothing is killed and no cache miss
recorded. -/
theorem C1_cycle_amended (env : UpdateEnv) (w : World) (a b : Handle) (msg : UpdateMsg)
    (lid region : Nat)
    (hlisted : env.isRegionListed (w.st a).mRegionp = true)
    (hregion : (w.st a).mRegionp = some region)
    (hsame : ∀ m, msg.mesgsys = some m → m.regionFromHandle = some region)
    (hdecl : DeclaresParent msg lid)
    (hlid : lid ≠ 0)
    (hfind : env.findObjectFromLocal lid = some b)
    (hab : a ≠ b)
    (hlive : (w.topo a).mDead = false ∧ (w.topo b).mDead = false)
    (hchild : b ∈ (w.topo a).mChildList)
    (hparent : (w.topo b).mParent = some a) :
    ((w.topo a).mParent = none → a ∉ (w.topo b).mChildList →
      ∃ w3 r, processUpdateMessage env w a msg = some (w3, r) ∧
        (w3.topo a).mParent = some b ∧ (w3.topo b).mParent = none ∧
        a ∈ (w3.topo b).mChildList ∧
        w3.killed = w.killed ∧ w3.cacheMissFull = w.cacheMissFull) ∧
    (∀ p da db, (w.topo a).mParent = some p → b ≠ p →
      (w.topo a).mDrawable = some da → (w.topo b).mDrawable = some db →
      db.xformParent = some a → da.xformParent ≠ some b → 0 < w.maxChain →
      ∃ w3 r, processUpdateMessage env w a msg = some (w3, r) ∧
        w3.killed = w.killed ++ [b, a] ∧
        w3.cacheMissFull = w.cacheMissFull ++ [(w.topo a).mLocalID, (w.topo b).mLocalID] ∧
        (w3.topo a).mParent = none ∧ (w3.topo b).mParent = none) ∧
    (∀ p, (w.topo a).mParent = some p → b ≠ p → a ≠ p →
      a ∈ (w.topo p).mChildList → a ∉ (w.topo b).mChildList → 0 < w.maxChain →
      ((w.topo a).mDrawable.isSome = true →
        ∃ wd, setDrawableParent w a (drawableOf w b) = some (wd, true)) →
      ∃ w3 r, processUpdateMessage env w a msg = some (w3, r) ∧
        (w3.topo a).mParent = none ∧ (w3.topo b).mParent = some a ∧
        b ∈ (w3.topo a).mChildList ∧ a ∉ (w3.topo b).mChildList ∧
        w3.killed = w.killed ∧ w3.cacheMissFull = w.cacheMissFull) := by
  obtain ⟨w2, d1, td, hprep, htopo, hmax, hk, hc, hpid⟩ :=
    prepareUpdate_ready env w a msg lid region hlisted hregion hsame hdecl
  have hnt := hdecl.not_terse
  refine ⟨?_, ?_, ?_⟩
  · intro ha hnot
    obtain ⟨w3, h3, p1, p2, p3, p4, p5⟩ := attachToNewParent_recovers env w2 a b lid hab hfind
      (by rw [htopo]; exact ha) (by rw [htopo]; exact hchild) (by rw [htopo]; exact hparent)
      (by rw [htopo]; exact hnot) (by rw [htopo]; exact hlive.2)
    have hfix : fixParenting env w2 a msg.update_type d1.parent_id (w.topo a).mParent
        = some (.goesOn w3 true) := by
      unfold fixParenting
      rw [if_pos hnt, ha, hpid]
      simp only [hlid, if_false]
      exact h3
    obtain ⟨f1, f2, f3⟩ := finishUpdate_frame env msg w3 a d1 true td
    refine ⟨(finishUpdate env msg w3 a d1 true td).1, (finishUpdate env msg w3 a d1 true td).2,
      ?_, ?_, ?_, ?_, ?_, ?_⟩
    · unfold processUpdateMessage
      simp only [hprep, hfix]
    · rw [f1]; exact p1
    · rw [f1]; exact p2
    · rw [f1]; exact p3
    · rw [f2, p4, hk]
    · rw [f3, p5, hc]
  · intro p da db hpa hbp hda hdb hxb hxa hfuel
    obtain ⟨w3, h3, p1, p2, p3, p4⟩ := switchParent_kills env w2 a b p lid da db hab hbp hlid
      hfind (by rw [htopo]; exact hpa) (by rw [htopo]; exact hparent)
      (by rw [htopo]; exact hda) (by rw [htopo]; exact hdb) hxb hxa (by rw [hmax]; exact hfuel)
    have hfix : fixParenting env w2 a msg.update_type d1.parent_id (w.topo a).mParent
        = some (.returned w3) := by
      unfold fixParenting
      rw [if_pos hnt, hpa, hpid]
      simp only [hnt, and_false, if_false]
      exact h3
    refine ⟨w3, d1.retval, ?_, ?_, ?_, p3, p4⟩
    · unfold processUpdateMessage
      simp only [hprep, hfix]
    · rw [p1, hk]
    · rw [p2, hc, htopo]
  · intro p hpa hbp hap hmemp hnot hfuel hdraw
    have hdraw2 : (w2.topo a).mDrawable.isSome = true →
        ∃ wd, setDrawableParent w2 a (drawableOf w2 b) = some (wd, true) := by
      intro hd
      rw [htopo] at hd
      obtain ⟨wd, hwd⟩ := hdraw hd
      obtain ⟨wd2, hwd2⟩ :=
        setDrawableParent_transfer w w2 a (drawableOf w b) wd htopo hmax hwd
      have hdo : drawableOf w2 b = drawableOf w b := by
        unfold drawableOf
        rw [htopo]
      exact ⟨wd2, by rw [hdo]; exact hwd2⟩
    obtain ⟨w3, h3, p1, p2, p3, p4, p5, p6⟩ := switchParent_refused env w2 a b p lid hlid
      hfind hab hbp hap (by rw [htopo]; exact hpa) (by rw [htopo]; exact hparent)
      (by rw [htopo]; exact hmemp) (by rw [htopo]; exact hnot) (by rw [hmax]; exact hfuel)
      hdraw2
    have hfix : fixParenting env w2 a msg.update_type d1.parent_id (w.topo a).mParent
        = some (.goesOn w3 true) := by
      unfold fixParenting
      rw [if_pos hnt, hpa, hpid]
      simp only [hnt, and_false, if_false]
      exact h3
    obtain ⟨f1, f2, f3⟩ := finishUpdate_frame env msg w3 a d1 true td
    refine ⟨(finishUpdate env msg w3 a d1 true td).1, (finishUpdate env msg w3 a d1 true td).2,
      ?_, ?_, ?_, ?_, ?_, ?_, ?_⟩
    · unfold processUpdateMessage
      simp only [hprep, hfix]
    · rw [f1]; exact p1
    · rw [f1]; exact p2
    · rw [f1, p3, htopo]; exact hchild
    · rw [f1]; exact p4
    · rw [f2, p5, hk]
    · rw [f3, p6, hc]

/-- The amended C1 on the three-object worlds: without a parent, A ends
attached under B; as a child of P with drawables, A and B are both killed and
their local ids 11 and 12 are put on the cache-miss list; as a child of P
without drawables, A ends without parent, B stays its child and nothing is
killed. -/
theorem C1_cycle_amended_witness :
    (∃ w3 r, processUpdateMessage plainUpdateEnv cycleWorld 1 (fullUpdate 200 12 0 0)
        = some (w3, r) ∧
      (w3.topo 1).mParent = some 2 ∧ (w3.topo 2).mParent = none ∧
      1 ∈ (w3.topo 2).mChildList ∧
      w3.killed = cycleWorld.killed ∧ w3.cacheMissFull = cycleWorld.cacheMissFull) ∧
    (∃ w3 r, processUpdateMessage plainUpdateEnv drawnCycleWorld 1 (fullUpdate 200 12 0 0)
        = some (w3, r) ∧
      w3.killed = drawnCycleWorld.killed ++ [2, 1] ∧
      w3.cacheMissFull = drawnCycleWorld.cacheMissFull
        ++ [(drawnCycleWorld.topo 1).mLocalID, (drawnCycleWorld.topo 2).mLocalID] ∧
      (w3.topo 1).mParent = none ∧ (w3.topo 2).mParent = none) ∧
    (∃ w3 r, processUpdateMessage plainUpdateEnv chainWorld 1 (fullUpdate 200 12 0 0)
        = some (w3, r) ∧
      (w3.topo 1).mParent = none ∧ (w3.topo 2).mParent = some 1 ∧
      2 ∈ (w3.topo 1).mChildList ∧ 1 ∉ (w3.topo 2).mChildList ∧
      w3.killed = chainWorld.killed ∧ w3.cacheMissFull = chainWorld.cacheMissFull) :=
  ⟨(C1_cycle_amended plainUpdateEnv cycleWorld 1 2 (fullUpdate 200 12 0 0) 12 0
      (by decide!) (by decide!) (fun m hm => by cases hm; rfl)
      (Or.inl ⟨rfl, rfl, _, rfl, rfl⟩)
      (by decide) (by decide!) (by decide) ⟨by decide!, by decide!⟩ (by decide!)
      (by decide!)).1 (by decide!) (by decide!),
   (C1_cycle_amended plainUpdateEnv drawnCycleWorld 1 2 (fullUpdate 200 12 0 0) 12 0
      (by decide!) (by decide!) (fun m hm => by cases hm; rfl)
      (Or.inl ⟨rfl, rfl, _, rfl, rfl⟩)
      (by decide) (by decide!) (by decide) ⟨by decide!, by decide!⟩ (by decide!)
      (by decide!)).2.1 3
      { dead := false, hasVObj := true, xformParent := some 3, mParent := some 3 }
      { dead := false, hasVObj := true, xformParent := some 1, mParent := some 1 }
      (by decide!) (by decide) (by decide!) (by decide!) rfl (by decide) (by decide!),
   (C1_cycle_amended plainUpdateEnv chainWorld 1 2 (fullUpdate 200 12 0 0) 12 0
      (by decide!) (by decide!) (fun m hm => by cases hm; rfl)
      (Or.inl ⟨rfl, rfl, _, rfl, rfl⟩)
      (by decide) (by decide!) (by decide) ⟨by decide!, by decide!⟩ (by decide!)
      (by decide!)).2.2 3 (by decide!) (by decide) (by decide) (by decide!) (by decide!)
      (by decide!) (fun h => absurd h (by decide!))⟩

end LLViewerObject
